import Mathlib

/-!
Verification of the hierarchical folder-matching engine of the `stash`
repository (`src/processes/auto_folder/`): folder matcher, in-memory vector
store, cosine similarity primitive, label cleaning, and the seed taxonomy.

Modelling conventions (shallow embedding of the Python source):

* Python `float` values (similarity scores, thresholds, confidences) are
  modelled as exact rationals `ℚ`; rational constants are written with
  `mkRat` (exact value `n/d`).  The similarity primitive itself
  (`EmbeddingService.cosine_similarity`) needs a real square root, so it is
  modelled separately over `ℝ` (vector entries stay rational, mirroring that
  floats are rationals).
* The folder matcher calls two effectful collaborators: `generate_embedding`
  (which may raise) and `cosine_similarity`.  They are modelled as an oracle
  record: `embed : String → Option (List ℚ)` (`none` = the Python call raised)
  and a total score function `sim : List ℚ → List ℚ → ℚ`.  The only exception
  `cosine_similarity` itself can raise is the dimension mismatch
  (`len(a) != len(b)`), and every call site of it in the matcher catches and
  skips that case, so call sites guard on equal lengths instead of calling a
  partial function.
* Python `dict` is an insertion-ordered association list; assignment to an
  existing key replaces the value in place, otherwise appends.
* `uuid.uuid4()` is modelled as an injective fresh-name generator driven by a
  counter threaded through the state.
* Python's stable `list.sort(key=..., reverse=True)` is modelled by a stable
  insertion sort (the output of a stable sort is unique, so any stable
  implementation is extensionally the same function).
* Log output (`logger.*`) and the numeric pretty-printing inside human
  readable `notes` strings are elided; no branch of the code depends on them.
-/

namespace Stash

/-! ### Python string primitives (ASCII semantics, kernel-computable) -/

/-- Maximal runs of characters satisfying `keep` (used for `str.split()` with
`keep = not whitespace`, and for the regex `\b\w+\b` with `keep = word char`). -/
def runsAux (keep : Char → Bool) (cur : List Char) : List Char → List String
  | [] => if cur.isEmpty then [] else [⟨cur.reverse⟩]
  | c :: cs =>
    if keep c then runsAux keep (c :: cur) cs
    else if cur.isEmpty then runsAux keep [] cs
    else ⟨cur.reverse⟩ :: runsAux keep [] cs

def splitRuns (keep : Char → Bool) (s : String) : List String :=
  runsAux keep [] s.data

/-- Python `str.split()` (no argument): maximal runs of non-whitespace. -/
def pySplitWs (s : String) : List String :=
  splitRuns (fun c => !c.isWhitespace) s

/-- Tokens of the regex `\b\w+\b`: maximal runs of word characters. -/
def wordTokens (s : String) : List String :=
  splitRuns (fun c => c.isAlphanum || c == '_') s

/-- Python `str.lower()` (ASCII). -/
def pyLower (s : String) : String := ⟨s.data.map Char.toLower⟩

/-- `needle in hay` for lists of characters (Python substring test). -/
def listIsPrefixOf : List Char → List Char → Bool
  | [], _ => true
  | _ :: _, [] => false
  | a :: as, b :: bs => a == b && listIsPrefixOf as bs

def listContainsSub (needle : List Char) : List Char → Bool
  | [] => needle.isEmpty
  | b :: bs => listIsPrefixOf needle (b :: bs) || listContainsSub needle bs

/-- Python `needle in hay` on strings. -/
def strContains (needle hay : String) : Bool :=
  listContainsSub needle.data hay.data

/-- Python `path.replace('/', ' > ')` (single-character pattern, so charwise). -/
def replaceSlashGt (s : String) : String :=
  ⟨s.data.flatMap (fun c => if c = '/' then [' ', '>', ' '] else [c])⟩

/-- Number of `/`-separated segments: `len(path.split('/'))`, which for a
one-character separator always equals (count of separators) + 1. -/
def segments (p : String) : Nat := p.data.count '/' + 1

/-- Python `path.split('/')[-1]`: the run after the last `/` (empty if the
path ends in `/`, the whole string if there is no `/`). -/
def lastSegment (p : String) : String :=
  ⟨(p.data.reverse.takeWhile (fun c => c != '/')).reverse⟩

/-- Python `str.title()` for ASCII: the first letter of each alphabetic run is
uppercased, the remaining letters lowercased; other characters are kept and
act as word boundaries. -/
def titleAux : Bool → List Char → List Char
  | _, [] => []
  | prevAlpha, c :: cs =>
    if c.isAlpha then
      (if prevAlpha then c.toLower else c.toUpper) :: titleAux true cs
    else c :: titleAux false cs

def pyTitle (s : String) : String := ⟨titleAux false s.data⟩

/-- Python `str.strip()`: remove leading/trailing whitespace. -/
def pyStrip (s : String) : String :=
  ⟨((s.data.dropWhile Char.isWhitespace).reverse.dropWhile Char.isWhitespace).reverse⟩

/-- Python `' '.join(words)`. -/
def joinSpace (ws : List String) : String := String.intercalate " " ws

/-- Python `'/'.join(parts)`. -/
def joinSlash (ws : List String) : String := String.intercalate "/" ws

/-! ### Metadata dictionaries

The vector store keeps per-vector metadata dictionaries with string keys and
heterogeneous values (`str`, `int`, `bool`, `None`).  `Metadata.get` returns
`null` for an absent key, like Python `dict.get(k)`. -/

inductive MVal where
  | str (s : String)
  | nat (n : Nat)
  | bool (b : Bool)
  | null
deriving DecidableEq, Repr

abbrev Metadata := List (String × MVal)

def Metadata.get (md : Metadata) (k : String) : MVal :=
  match List.lookup k (md : List (String × MVal)) with
  | some v => v
  | none => .null

/-- Python dict assignment `d[k] = v`: replace in place if the key exists
(keeping its position), else append. -/
def dictInsert {β : Type} (k : String) (v : β) : List (String × β) → List (String × β)
  | [] => [(k, v)]
  | (k₀, v₀) :: rest =>
    if k₀ = k then (k, v) :: rest else (k₀, v₀) :: dictInsert k v rest

/-! ### Data model (`models.py`) -/

/-- `FolderDepth` enum. -/
inductive FolderDepth where
  | DOMAIN
  | SUBDOMAIN
  | LEAF
deriving DecidableEq, Repr

/-- `MatchAction` enum. -/
inductive MatchAction where
  | REUSE_EXISTING
  | CREATE_NEW
  | ATTACH_AS_CHILD
  | SKIP
deriving DecidableEq, Repr

/-- `FolderEntity` dataclass (timestamp fields elided; nothing reads them). -/
structure FolderEntity where
  folder_id : String
  path : String
  label : String
  depth : Nat
  parent_id : Option String := none
  aliases : List String := []
  embedding_id : Option String := none
  embedding : Option (List ℚ) := none
  item_count : Nat := 0
  is_seed : Bool := false
  user_id : Option String := none
deriving DecidableEq, Repr

/-- `LabelWithAliases` dataclass. -/
structure LabelWithAliases where
  label : String
  aliases : List String := []
  optional : Bool := false
deriving DecidableEq, Repr

/-- `TaxonomyCandidate` dataclass. -/
structure TaxonomyCandidate where
  domain : LabelWithAliases
  subdomain : LabelWithAliases
  leaf_topic : Option LabelWithAliases := none
  tags : List String := []
  confidence : ℚ := 0
  rationale : String := ""
deriving DecidableEq, Repr

/-- `MatchResult` dataclass. -/
structure MatchResult where
  level : FolderDepth
  action : MatchAction
  matched_folder : Option FolderEntity := none
  new_folder : Option FolderEntity := none
  similarity_score : ℚ := 0
  label_used : String := ""
  notes : String := ""
deriving DecidableEq, Repr

/-- `MatchResult.get_folder`: `matched_folder or new_folder`. -/
def MatchResult.get_folder (r : MatchResult) : Option FolderEntity :=
  match r.matched_folder with
  | some f => some f
  | none => r.new_folder

/-- `HierarchicalMatch` dataclass. -/
structure HierarchicalMatch where
  domain_result : MatchResult
  subdomain_result : MatchResult
  leaf_result : Option MatchResult := none
deriving DecidableEq, Repr

/-- `HierarchicalMatch.get_final_path`. -/
def HierarchicalMatch.get_final_path (m : HierarchicalMatch) : String :=
  let parts : List String :=
    (match m.domain_result.get_folder with
     | some f => [f.label]
     | none => []) ++
    (match m.subdomain_result.get_folder with
     | some f => [f.label]
     | none => []) ++
    (match m.leaf_result with
     | some lr =>
       match lr.get_folder with
       | some f => if lr.action ≠ MatchAction.SKIP then [f.label] else []
       | none => []
     | none => [])
  joinSlash parts

/-- `HierarchicalMatch.get_created_folders`. -/
def HierarchicalMatch.get_created_folders (m : HierarchicalMatch) : List FolderEntity :=
  (match m.domain_result.action, m.domain_result.new_folder with
   | MatchAction.CREATE_NEW, some f => [f]
   | _, _ => []) ++
  (if m.subdomain_result.action = MatchAction.CREATE_NEW ∨
      m.subdomain_result.action = MatchAction.ATTACH_AS_CHILD then
     match m.subdomain_result.new_folder with
     | some f => [f]
     | none => []
   else []) ++
  (match m.leaf_result with
   | some lr =>
     if lr.action = MatchAction.CREATE_NEW ∨ lr.action = MatchAction.ATTACH_AS_CHILD then
       match lr.new_folder with
       | some f => [f]
       | none => []
     else []
   | none => [])

/-- `HierarchicalMatch.get_reused_folders`. -/
def HierarchicalMatch.get_reused_folders (m : HierarchicalMatch) : List FolderEntity :=
  (match m.domain_result.action, m.domain_result.matched_folder with
   | MatchAction.REUSE_EXISTING, some f => [f]
   | _, _ => []) ++
  (match m.subdomain_result.action, m.subdomain_result.matched_folder with
   | MatchAction.REUSE_EXISTING, some f => [f]
   | _, _ => []) ++
  (match m.leaf_result with
   | some lr =>
     match lr.action, lr.matched_folder with
     | MatchAction.REUSE_EXISTING, some f => [f]
     | _, _ => []
   | none => [])

/-! ### Configuration (`config.py`) -/

/-- `ThresholdConfig` dataclass with its defaults (floats as exact rationals). -/
structure ThresholdConfig where
  domain_threshold : ℚ := mkRat 82 100
  subdomain_threshold : ℚ := mkRat 80 100
  leaf_threshold : ℚ := mkRat 75 100
  leaf_confidence_threshold : ℚ := mkRat 70 100
  leaf_recurrence_threshold : Nat := 3
  max_depth : Nat := 3
  min_keyword_overlap : ℚ := mkRat 20 100
deriving DecidableEq, Repr

def defaultThresholds : ThresholdConfig := {}

/-! ### The embedding/similarity oracle

`generate_embedding` and `cosine_similarity` as seen by the matcher and the
in-memory vector store.  `embed t = none` models the Python call raising.
`sim` is total; the one exception `cosine_similarity` raises (dimension
mismatch, exactly when the lengths differ) is caught and skipped at every
call site inside the matcher/store, so those sites guard on equal lengths. -/
structure EmbeddingOracle where
  embed : String → Option (List ℚ)
  sim : List ℚ → List ℚ → ℚ

/-! ### Stable descending sort (Python `list.sort(key=score, reverse=True)`) -/

/-- Insert `x` before the first element whose key is `≤ key x`; equal keys keep
the earlier (original-order) element first, which gives Python's stable
descending sort. -/
def insertScoreDesc {β : Type} (key : β → ℚ) (x : β) : List β → List β
  | [] => [x]
  | y :: ys =>
    if key y ≤ key x then x :: y :: ys else y :: insertScoreDesc key x ys

def sortScoreDesc {β : Type} (key : β → ℚ) (l : List β) : List β :=
  l.foldr (insertScoreDesc key) []

/-! ### In-memory vector store (`embedding_service.py`, `InMemoryVectorStore`) -/

/-- A stored vector: `id ↦ (embedding, metadata)`, insertion-ordered. -/
abbrev VectorRow := String × (List ℚ × Metadata)

/-- A search result entry `(id, score, metadata)`.  The id is optional because
the matcher later appends cache entries whose `embedding_id` can be `None`. -/
abbrev SearchEntry := Option String × ℚ × Metadata

def SearchEntry.score (e : SearchEntry) : ℚ := e.2.1

def SearchEntry.md (e : SearchEntry) : Metadata := e.2.2

/-- `all(metadata.get(k) == v for k, v in filter_metadata.items())`. -/
def matchesFilter (md : Metadata) (fil : Metadata) : Bool :=
  (fil : List (String × MVal)).all (fun kv => md.get kv.1 == kv.2)

/-- The filter guard `if filter_metadata:` — `None` and `{}` are falsy. -/
def filterOk (fil : Option Metadata) (md : Metadata) : Bool :=
  match fil with
  | none => true
  | some f => if (f : List (String × MVal)).isEmpty then true else matchesFilter md f

/-- `InMemoryVectorStore.search`: iterate stored vectors in insertion order,
drop those failing the metadata filter, score the rest (a dimension mismatch
raises inside `cosine_similarity` and is caught and skipped, i.e. exactly the
entries of differing length are dropped), stable-sort by score descending and
take the first `top_k`. -/
def storeSearch (sim : List ℚ → List ℚ → ℚ) (vectors : List VectorRow)
    (query : List ℚ) (topK : Nat) (fil : Option Metadata) : List SearchEntry :=
  let results := vectors.filterMap (fun row =>
    let (vid, emb, md) := row
    if filterOk fil md then
      if emb.length = query.length then some ((some vid, sim query emb, md) : SearchEntry)
      else none
    else none)
  (sortScoreDesc SearchEntry.score results).take topK

/-! ### Folder matcher (`folder_matcher.py`)

The matcher's mutable fields (`_folder_cache`, `_folders_by_depth`) and the
vector store contents become an explicit state record; `uuid.uuid4()` becomes
the injective generator `freshId` driven by `nextId`. -/

structure MatcherState where
  vectors : List VectorRow
  folderCache : List (String × FolderEntity)
  byDepth1 : List FolderEntity
  byDepth2 : List FolderEntity
  byDepth3 : List FolderEntity
  nextId : Nat
deriving DecidableEq, Repr

/-- `self._folders_by_depth.get(depth, [])`. -/
def MatcherState.byDepth (st : MatcherState) : Nat → List FolderEntity
  | 1 => st.byDepth1
  | 2 => st.byDepth2
  | 3 => st.byDepth3
  | _ => []

/-- `str(uuid.uuid4())`, modelled as an injective fresh-name source. -/
def freshId (n : Nat) : String := ⟨'u' :: List.replicate n 'u'⟩

/-- `f"folder_{folder_id}"`. -/
def embeddingIdFor (fid : String) : String := "folder_" ++ fid

/-- `_folders_by_depth[depth].append(folder)` guarded by `depth <= 3`
(depths other than 1, 2, 3 never reach this, 0 would be a `KeyError`). -/
def MatcherState.addByDepth (st : MatcherState) (d : Nat) (f : FolderEntity) : MatcherState :=
  match d with
  | 1 => { st with byDepth1 := st.byDepth1 ++ [f] }
  | 2 => { st with byDepth2 := st.byDepth2 ++ [f] }
  | 3 => { st with byDepth3 := st.byDepth3 ++ [f] }
  | _ => st

/-- `_extract_keywords`: lowercase, `\b\w+\b` tokens, keep words of length > 2
that are not stop words; the Python result is a set. -/
def stopWords : List String :=
  ["the", "a", "an", "and", "or", "but", "in", "on", "at", "to", "for", "of", "with", "by"]

def extractKeywords (text : String) : Finset String :=
  ((wordTokens (pyLower text)).filter
    (fun w => decide (w.length > 2) && !stopWords.contains w)).toFinset

/-- `_keyword_overlap`: `|∩| / |∪|`, `0.0` when either keyword set is empty
(`mkRat` is exact division of the two cardinalities). -/
def keywordOverlap (textA textB : String) : ℚ :=
  let ka := extractKeywords textA
  let kb := extractKeywords textB
  if ka = ∅ ∨ kb = ∅ then 0
  else
    let inter := ka ∩ kb
    let union := ka ∪ kb
    if union.card = 0 then 0 else mkRat inter.card union.card

/-- The hardcoded cross-domain confusion pairs of `_sanity_check`. -/
def falsePositivePairs : List (String × String) :=
  [("cooking", "computer"), ("health", "computer"),
   ("finance", "fitness"), ("travel", "technology")]

/-- The confusion-pair loop of `_sanity_check`: one label contains one side of
a pair (lowercased substring test) and the other label the other side. -/
def confusionHit (candidateLabel matchedLabel : String) : Bool :=
  let la := pyLower candidateLabel
  let lb := pyLower matchedLabel
  falsePositivePairs.any (fun p =>
    (strContains p.1 la && strContains p.2 lb) ||
    (strContains p.2 la && strContains p.1 lb))

/-- `_sanity_check(candidate_label, matched_label, similarity)`. -/
def sanityCheck (cfg : ThresholdConfig) (candidateLabel matchedLabel : String)
    (similarity : ℚ) : Bool :=
  if similarity > mkRat 95 100 then true
  else
    let overlap := keywordOverlap candidateLabel matchedLabel
    if similarity > mkRat 85 100 ∧ overlap < cfg.min_keyword_overlap then false
    else
      if confusionHit candidateLabel matchedLabel then false
      else true

/-- The metadata filter built in `_find_best_match` (`parent_id` only added
when the optional parent id is truthy, i.e. a non-empty string). -/
def levelFilter (depth : Nat) (parentId : Option String) : Metadata :=
  [("type", MVal.str "folder"), ("depth", MVal.nat depth)] ++
  (match parentId with
   | some pid => if pid == "" then [] else [("parent_id", MVal.str pid)]
   | none => [])

/-- The cache-augmentation pass of `_find_best_match` (run when the store
returned fewer than 3 results): scan `_folders_by_depth[depth]` (filtered by
parent when given), score folders that have a cached embedding (a dimension
mismatch raises and is caught, skipping the folder; an empty embedding list is
falsy and skipped), and append entries whose id is not already present. -/
def cacheAugment (svc : EmbeddingOracle) (st : MatcherState) (query : List ℚ)
    (depth : Nat) (parentId : Option String) (results : List SearchEntry) :
    List SearchEntry :=
  let candidates := st.byDepth depth
  let candidates :=
    match parentId with
    | some pid =>
      if pid == "" then candidates
      else candidates.filter (fun f => f.parent_id == some pid)
    | none => candidates
  candidates.foldl (fun acc f =>
    match f.embedding with
    | some emb =>
      if emb.isEmpty then acc
      else if emb.length ≠ query.length then acc
      else if acc.any (fun r => r.1 == f.embedding_id) then acc
      else acc ++ [((f.embedding_id, svc.sim query emb,
        [("folder_id", MVal.str f.folder_id), ("path", MVal.str f.path)]) : SearchEntry)]
    | none => acc) results

/-- A folder reconstructed from search metadata when the id is not in the
cache (`folder_id or str(uuid.uuid4())`; dataclass defaults elsewhere). -/
def reconstructFolder (fid : String) (path : String) (depth : Nat)
    (eid : Option String) : FolderEntity :=
  { folder_id := fid, path := path, label := lastSegment path, depth := depth,
    embedding_id := eid }

/-- Resolving one candidate entry inside the selection loop of
`_find_best_match`: look the metadata's `folder_id` up in the cache, else
rebuild a `FolderEntity` from the metadata `path` (if non-empty), drawing a
fresh uuid when the metadata has no usable id. -/
def resolveEntry (st : MatcherState) (depth : Nat) (ctr : Nat) (e : SearchEntry) :
    Option FolderEntity × Nat :=
  let fid? : Option String :=
    match (SearchEntry.md e).get "folder_id" with
    | .str s => some s
    | _ => none
  match fid?.bind (fun fid => List.lookup fid st.folderCache) with
  | some f => (some f, ctr)
  | none =>
    let path :=
      match (SearchEntry.md e).get "path" with
      | .str s => s
      | _ => ""
    if path == "" then (none, ctr)
    else
      match fid? with
      | some s =>
        if s == "" then (some (reconstructFolder (freshId ctr) path depth e.1), ctr + 1)
        else (some (reconstructFolder s path depth e.1), ctr)
      | none => (some (reconstructFolder (freshId ctr) path depth e.1), ctr + 1)

/-- The selection loop of `_find_best_match`: walk the sorted candidates,
`continue` on a score strictly below the threshold, resolve the folder
(`continue` if unresolvable), accept the first candidate passing
`_sanity_check` and stop; `(None, 0.0)` when the walk falls through. -/
def walkCandidates (cfg : ThresholdConfig) (st : MatcherState) (searchText : String)
    (depth : Nat) (threshold : ℚ) :
    List SearchEntry → Nat → (Option FolderEntity × ℚ) × Nat
  | [], ctr => ((none, 0), ctr)
  | e :: rest, ctr =>
    if SearchEntry.score e < threshold then
      walkCandidates cfg st searchText depth threshold rest ctr
    else
      match resolveEntry st depth ctr e with
      | (some f, ctr') =>
        if sanityCheck cfg searchText f.path (SearchEntry.score e) then
          ((some f, SearchEntry.score e), ctr')
        else walkCandidates cfg st searchText depth threshold rest ctr'
      | (none, ctr') => walkCandidates cfg st searchText depth threshold rest ctr'

/-- `_find_best_match(search_text, depth, parent_id, threshold)`.  An
embedding failure is caught and returns `(None, 0.0)` — no error escapes. -/
def findBestMatch (svc : EmbeddingOracle) (cfg : ThresholdConfig) (st : MatcherState)
    (searchText : String) (depth : Nat) (parentId : Option String) (threshold : ℚ) :
    (Option FolderEntity × ℚ) × Nat :=
  match svc.embed searchText with
  | none => ((none, 0), st.nextId)
  | some query =>
    let results := storeSearch svc.sim st.vectors query 5 (some (levelFilter depth parentId))
    let results :=
      if results.length < 3 then cacheAugment svc st query depth parentId results
      else results
    walkCandidates cfg st searchText depth threshold
      (sortScoreDesc SearchEntry.score results) st.nextId

def optStrVal : Option String → MVal
  | some s => .str s
  | none => .null

/-- `_create_folder(label, depth, parent, aliases)`: path concatenation, fresh
id, embedding of the path with `/` replaced by ` > ` (a failure is caught: the
folder is still created and cached, just without embedding data), vector-store
registration, cache and per-depth bookkeeping. -/
def createFolder (svc : EmbeddingOracle) (st : MatcherState) (label : String)
    (depth : Nat) (parent : Option FolderEntity) (aliases : List String) :
    FolderEntity × MatcherState :=
  let path :=
    match parent with
    | some p => p.path ++ "/" ++ label
    | none => label
  let fid := freshId st.nextId
  let st₁ := { st with nextId := st.nextId + 1 }
  let folder₀ : FolderEntity :=
    { folder_id := fid, path := path, label := label, depth := depth,
      parent_id := parent.map (fun p => p.folder_id), aliases := aliases }
  match svc.embed (replaceSlashGt path) with
  | some emb =>
    let eid := embeddingIdFor fid
    let md : Metadata :=
      [("type", .str "folder"), ("folder_id", .str fid), ("path", .str path),
       ("depth", .nat depth), ("parent_id", optStrVal folder₀.parent_id),
       ("is_seed", .bool false)]
    let folder := { folder₀ with embedding_id := some eid, embedding := some emb }
    let st₂ := { st₁ with vectors := dictInsert eid (emb, md) st₁.vectors }
    let st₃ := { st₂ with folderCache := dictInsert fid folder st₂.folderCache }
    (folder, st₃.addByDepth depth folder)
  | none =>
    let st₃ := { st₁ with folderCache := dictInsert fid folder₀ st₁.folderCache }
    (folder₀, st₃.addByDepth depth folder₀)

/-- `match_domain(candidate)` (human-readable `notes` keep the text but elide
the `:.2f` score formatting, which nothing reads). -/
def matchDomain (svc : EmbeddingOracle) (cfg : ThresholdConfig) (st : MatcherState)
    (cand : TaxonomyCandidate) : MatchResult × MatcherState :=
  let searchText := cand.domain.label
  let r := findBestMatch svc cfg st searchText 1 none cfg.domain_threshold
  let st := { st with nextId := r.2 }
  match r.1.1 with
  | some f =>
    ({ level := .DOMAIN, action := .REUSE_EXISTING, matched_folder := some f,
       similarity_score := r.1.2, label_used := f.label,
       notes := "Reused existing domain " ++ f.label }, st)
  | none =>
    let c := createFolder svc st cand.domain.label 1 none cand.domain.aliases
    ({ level := .DOMAIN, action := .CREATE_NEW, new_folder := some c.1,
       similarity_score := 0, label_used := c.1.label,
       notes := "Created new domain " ++ c.1.label }, c.2)

/-- `match_subdomain(candidate, domain_result)`; `none` models the
`ValueError` raised when the domain result carries no folder.  The second,
global depth-2 probe is kept because it can consume uuids via entry
reconstruction; its result only feeds a log line. -/
def matchSubdomain (svc : EmbeddingOracle) (cfg : ThresholdConfig) (st : MatcherState)
    (cand : TaxonomyCandidate) (domainResult : MatchResult) :
    Option (MatchResult × MatcherState) :=
  match domainResult.get_folder with
  | none => none
  | some domainFolder =>
    let searchText := domainFolder.label ++ " > " ++ cand.subdomain.label
    let r := findBestMatch svc cfg st searchText 2 (some domainFolder.folder_id)
      cfg.subdomain_threshold
    let st := { st with nextId := r.2 }
    match r.1.1 with
    | some f =>
      some ({ level := .SUBDOMAIN, action := .REUSE_EXISTING, matched_folder := some f,
              similarity_score := r.1.2, label_used := f.label,
              notes := "Reused existing subdomain " ++ f.label }, st)
    | none =>
      let probe := findBestMatch svc cfg st cand.subdomain.label 2 none
        cfg.subdomain_threshold
      let st := { st with nextId := probe.2 }
      let c := createFolder svc st cand.subdomain.label 2 (some domainFolder)
        cand.subdomain.aliases
      some ({ level := .SUBDOMAIN, action := .ATTACH_AS_CHILD, new_folder := some c.1,
              similarity_score := 0, label_used := c.1.label,
              notes := "Created subdomain " ++ c.1.label ++ " under " ++ domainFolder.label },
            c.2)

/-- `match_leaf(candidate, subdomain_result)`; the `Option` is the Python
`None` return (no leaf topic, or no resolved subdomain folder). -/
def matchLeaf (svc : EmbeddingOracle) (cfg : ThresholdConfig) (st : MatcherState)
    (cand : TaxonomyCandidate) (subdomainResult : MatchResult) :
    Option MatchResult × MatcherState :=
  match cand.leaf_topic with
  | none => (none, st)
  | some lt =>
    if lt.optional ∧ cand.confidence < cfg.leaf_confidence_threshold then
      (some { level := .LEAF, action := .SKIP, similarity_score := 0,
              label_used := lt.label,
              notes := "Skipped leaf topic - confidence too low" }, st)
    else
      match subdomainResult.get_folder with
      | none => (none, st)
      | some subdomainFolder =>
        let searchText := subdomainFolder.path ++ " > " ++ lt.label
        let r := findBestMatch svc cfg st searchText 3 (some subdomainFolder.folder_id)
          cfg.leaf_threshold
        let st := { st with nextId := r.2 }
        match r.1.1 with
        | some f =>
          (some { level := .LEAF, action := .REUSE_EXISTING, matched_folder := some f,
                  similarity_score := r.1.2, label_used := f.label,
                  notes := "Reused existing leaf " ++ f.label }, st)
        | none =>
          if cfg.max_depth ≤ subdomainFolder.depth then
            (some { level := .LEAF, action := .SKIP, similarity_score := 0,
                    label_used := lt.label,
                    notes := "Skipped leaf - max depth reached" }, st)
          else if lt.optional then
            (some { level := .LEAF, action := .SKIP, similarity_score := 0,
                    label_used := lt.label,
                    notes := "Skipped optional leaf topic - stored as tag instead" }, st)
          else
            let c := createFolder svc st lt.label 3 (some subdomainFolder) lt.aliases
            (some { level := .LEAF, action := .ATTACH_AS_CHILD, new_folder := some c.1,
                    similarity_score := 0, label_used := c.1.label,
                    notes := "Created leaf folder " ++ c.1.label ++ " under " ++
                      subdomainFolder.label }, c.2)

/-- `match(candidate)`: domain → subdomain → leaf; `none` is the propagated
`ValueError` of `match_subdomain` (never hit: domain results carry a folder). -/
def matchCandidate (svc : EmbeddingOracle) (cfg : ThresholdConfig) (st : MatcherState)
    (cand : TaxonomyCandidate) : Option (HierarchicalMatch × MatcherState) :=
  let d := matchDomain svc cfg st cand
  match matchSubdomain svc cfg d.2 cand d.1 with
  | none => none
  | some (sr, st₂) =>
    let lr := matchLeaf svc cfg st₂ cand sr
    some ({ domain_result := d.1, subdomain_result := sr, leaf_result := lr.1 }, lr.2)

/-- The candidate pipeline of `_find_best_match` before the selection loop
(store search, optional cache augmentation, final stable sort), given the
already-computed query embedding. -/
def levelCandidates (svc : EmbeddingOracle) (st : MatcherState) (query : List ℚ)
    (depth : Nat) (parentId : Option String) : List SearchEntry :=
  let results := storeSearch svc.sim st.vectors query 5 (some (levelFilter depth parentId))
  let results :=
    if results.length < 3 then cacheAugment svc st query depth parentId results
    else results
  sortScoreDesc SearchEntry.score results

/-! ### Seed taxonomy (`config.py`, `SEED_DOMAINS`) -/

structure SeedSubdomain where
  label : String
  aliases : List String
deriving DecidableEq, Repr

structure SeedDomain where
  label : String
  aliases : List String
  subdomains : List SeedSubdomain
deriving DecidableEq, Repr

def SEED_DOMAINS : List SeedDomain := [
  { label := "Health & Fitness",
    aliases := ["health", "fitness", "wellness", "exercise", "workout", "gym"],
    subdomains := [
      { label := "Weight Loss", aliases := ["fat loss", "cutting", "calorie deficit", "diet"] },
      { label := "Bulking", aliases := ["muscle gain", "mass building", "weight gain"] },
      { label := "Exercise", aliases := ["workout", "training", "cardio", "strength"] },
      { label := "Nutrition", aliases := ["diet", "food", "eating", "macros", "calories"] },
      { label := "Recovery", aliases := ["rest", "sleep", "stretching", "mobility"] },
      { label := "Mental Health", aliases := ["anxiety", "depression", "stress", "meditation"] }] },
  { label := "Computer Science",
    aliases := ["programming", "coding", "software", "tech", "development", "engineering"],
    subdomains := [
      { label := "Frontend", aliases := ["ui", "ux", "react", "vue", "css", "html", "web design"] },
      { label := "Backend", aliases := ["server", "api", "nodejs", "python", "java", "database"] },
      { label := "Cloud", aliases := ["aws", "azure", "gcp", "devops", "kubernetes", "docker"] },
      { label := "Databases", aliases := ["sql", "nosql", "postgres", "mongodb", "redis"] },
      { label := "Security", aliases := ["cybersecurity", "encryption", "authentication", "hacking"] },
      { label := "AI & ML", aliases := ["machine learning", "artificial intelligence", "deep learning", "nlp"] },
      { label := "Programming Languages", aliases := ["python", "javascript", "rust", "go", "typescript"] },
      { label := "Mobile Development", aliases := ["ios", "android", "react native", "flutter", "swift"] }] },
  { label := "Work",
    aliases := ["job", "career", "professional", "business", "office"],
    subdomains := [
      { label := "Meetings", aliases := ["call", "standup", "sync", "conference"] },
      { label := "Projects", aliases := ["task", "deadline", "deliverable", "milestone"] },
      { label := "Career Development", aliases := ["promotion", "skills", "growth", "interview"] },
      { label := "Management", aliases := ["leadership", "team", "hiring", "feedback"] },
      { label := "Networking", aliases := ["connections", "linkedin", "contacts"] }] },
  { label := "Cooking",
    aliases := ["food", "recipes", "culinary", "kitchen", "meal prep"],
    subdomains := [
      { label := "Recipes", aliases := ["dish", "meal", "instructions"] },
      { label := "Techniques", aliases := ["method", "skill", "how to cook"] },
      { label := "Cuisines", aliases := ["italian", "asian", "mexican", "indian"] },
      { label := "Baking", aliases := ["desserts", "bread", "pastry", "cakes"] },
      { label := "Meal Planning", aliases := ["prep", "weekly meals", "grocery"] }] },
  { label := "Personal Finance",
    aliases := ["money", "finance", "budget", "investing", "savings"],
    subdomains := [
      { label := "Budgeting", aliases := ["spending", "expenses", "tracking money"] },
      { label := "Investing", aliases := ["stocks", "crypto", "bonds", "portfolio"] },
      { label := "Savings", aliases := ["emergency fund", "retirement", "saving money"] },
      { label := "Taxes", aliases := ["tax return", "deductions", "irs"] },
      { label := "Debt", aliases := ["loans", "credit card", "mortgage", "paying off"] }] },
  { label := "Travel",
    aliases := ["vacation", "trip", "tourism", "adventure", "destination"],
    subdomains := [
      { label := "Destinations", aliases := ["places", "cities", "countries", "locations"] },
      { label := "Planning", aliases := ["itinerary", "booking", "flights", "hotels"] },
      { label := "Tips", aliases := ["hacks", "advice", "recommendations"] },
      { label := "Reviews", aliases := ["experiences", "recommendations", "ratings"] }] },
  { label := "Shopping & Gifts",
    aliases := ["buying", "products", "gifts", "purchases", "wishlist"],
    subdomains := [
      { label := "Wishlist", aliases := ["want list", "to buy", "save for later"] },
      { label := "Gift Ideas", aliases := ["presents", "birthday gifts", "christmas gifts"] },
      { label := "Deals", aliases := ["sales", "discounts", "coupons", "offers"] },
      { label := "Reviews", aliases := ["product reviews", "ratings", "comparisons"] }] },
  { label := "Relationships",
    aliases := ["social", "family", "friends", "dating", "love"],
    subdomains := [
      { label := "Family", aliases := ["parents", "kids", "siblings", "relatives"] },
      { label := "Friends", aliases := ["friendship", "social life", "hanging out"] },
      { label := "Dating", aliases := ["romance", "love", "partner", "relationship advice"] },
      { label := "Communication", aliases := ["talking", "listening", "conflict resolution"] }] },
  { label := "Productivity",
    aliases := ["efficiency", "organization", "time management", "getting things done"],
    subdomains := [
      { label := "Time Management", aliases := ["scheduling", "calendar", "planning"] },
      { label := "Tools", aliases := ["apps", "software", "systems"] },
      { label := "Habits", aliases := ["routines", "discipline", "consistency"] },
      { label := "Focus", aliases := ["concentration", "deep work", "distraction"] }] },
  { label := "Hobbies",
    aliases := ["interests", "leisure", "fun", "activities", "pastimes"],
    subdomains := [
      { label := "Gaming", aliases := ["video games", "games", "esports"] },
      { label := "Music", aliases := ["songs", "instruments", "bands", "listening"] },
      { label := "Art", aliases := ["drawing", "painting", "design", "creativity"] },
      { label := "Sports", aliases := ["athletics", "teams", "playing"] },
      { label := "Reading", aliases := ["books", "articles", "literature"] },
      { label := "Photography", aliases := ["photos", "camera", "editing"] }] },
  { label := "Education",
    aliases := ["learning", "school", "courses", "study", "knowledge"],
    subdomains := [
      { label := "Courses", aliases := ["classes", "tutorials", "lessons"] },
      { label := "Research", aliases := ["papers", "studies", "articles"] },
      { label := "Notes", aliases := ["study notes", "summaries", "key points"] },
      { label := "Languages", aliases := ["foreign languages", "learning languages"] }] },
  { label := "News & Current Events",
    aliases := ["news", "current events", "politics", "world events"],
    subdomains := [
      { label := "Politics", aliases := ["government", "elections", "policy"] },
      { label := "Technology News", aliases := ["tech news", "gadgets", "innovation"] },
      { label := "Business News", aliases := ["economy", "markets", "companies"] },
      { label := "Science", aliases := ["discoveries", "research", "breakthroughs"] }] },
  { label := "Entertainment",
    aliases := ["movies", "tv", "shows", "media", "fun"],
    subdomains := [
      { label := "Movies", aliases := ["films", "cinema", "movie reviews"] },
      { label := "TV Shows", aliases := ["series", "streaming", "episodes"] },
      { label := "Podcasts", aliases := ["audio", "shows", "episodes"] },
      { label := "YouTube", aliases := ["videos", "channels", "creators"] }] },
  { label := "Personal",
    aliases := ["me", "self", "diary", "journal", "thoughts"],
    subdomains := [
      { label := "Journal", aliases := ["diary", "thoughts", "reflections"] },
      { label := "Goals", aliases := ["resolutions", "targets", "aspirations"] },
      { label := "Ideas", aliases := ["thoughts", "brainstorm", "concepts"] },
      { label := "Memories", aliases := ["photos", "events", "nostalgia"] }] }]

/-- One iteration of the inner subdomain loop of `initialize_seed_folders`. -/
def initSeedSubdomain (svc : EmbeddingOracle) (dLabel : String) (dId : String)
    (acc : List FolderEntity × MatcherState) (sub : SeedSubdomain) :
    List FolderEntity × MatcherState :=
  let (created, st) := acc
  let path := dLabel ++ "/" ++ sub.label
  let fid := freshId st.nextId
  let st := { st with nextId := st.nextId + 1 }
  let ent₀ : FolderEntity :=
    { folder_id := fid, path := path, label := sub.label, depth := 2,
      parent_id := some dId, aliases := sub.aliases, is_seed := true }
  let r : FolderEntity × MatcherState :=
    match svc.embed (dLabel ++ " > " ++ sub.label) with
    | some emb =>
      let eid := embeddingIdFor fid
      let md : Metadata :=
        [("type", .str "folder"), ("folder_id", .str fid), ("path", .str path),
         ("depth", .nat 2), ("parent_id", .str dId), ("is_seed", .bool true)]
      ({ ent₀ with embedding_id := some eid, embedding := some emb },
       { st with vectors := dictInsert eid (emb, md) st.vectors })
    | none => (ent₀, st)
  let st := { r.2 with folderCache := dictInsert fid r.1 r.2.folderCache }
  let st := { st with byDepth2 := st.byDepth2 ++ [r.1] }
  (created ++ [r.1], st)

/-- One iteration of the outer domain loop of `initialize_seed_folders`
(domain-level metadata has no `parent_id` key). -/
def initSeedDomain (svc : EmbeddingOracle) (acc : List FolderEntity × MatcherState)
    (dom : SeedDomain) : List FolderEntity × MatcherState :=
  let (created, st) := acc
  let fid := freshId st.nextId
  let st := { st with nextId := st.nextId + 1 }
  let ent₀ : FolderEntity :=
    { folder_id := fid, path := dom.label, label := dom.label, depth := 1,
      aliases := dom.aliases, is_seed := true }
  let r : FolderEntity × MatcherState :=
    match svc.embed dom.label with
    | some emb =>
      let eid := embeddingIdFor fid
      let md : Metadata :=
        [("type", .str "folder"), ("folder_id", .str fid), ("path", .str dom.label),
         ("depth", .nat 1), ("is_seed", .bool true)]
      ({ ent₀ with embedding_id := some eid, embedding := some emb },
       { st with vectors := dictInsert eid (emb, md) st.vectors })
    | none => (ent₀, st)
  let st := { r.2 with folderCache := dictInsert fid r.1 r.2.folderCache }
  let st := { st with byDepth1 := st.byDepth1 ++ [r.1] }
  dom.subdomains.foldl (initSeedSubdomain svc dom.label fid) (created ++ [r.1], st)

/-- `initialize_seed_folders()`. -/
def initializeSeedFolders (svc : EmbeddingOracle) (st : MatcherState) :
    List FolderEntity × MatcherState :=
  SEED_DOMAINS.foldl (initSeedDomain svc) ([], st)

/-! ### Label cleaning (`taxonomy_generator.py`, `_clean_label`) -/

def FORBIDDEN_LABEL_WORDS : List String :=
  ["saved", "stash", "stashed", "bookmark", "bookmarked",
   "like", "liked", "favorite", "favourited", "favorited",
   "share", "shared", "post", "posted", "tweet", "tweeted",
   "instagram", "tiktok", "youtube", "twitter", "facebook",
   "video", "image", "photo", "picture", "link", "url",
   "content", "item", "thing", "stuff", "misc", "miscellaneous",
   "other", "general", "various", "random", "untitled", "unknown"]

/-- The post-filter pipeline of `_clean_label`: join with spaces, Python
`title()`, strip punctuation except `&` and `-` (`re.sub(r'[^\w\s&-]', '')`
keeps word characters, whitespace, `&`, `-`), final `strip()`. -/
def finalizeLabel (ws : List String) : String :=
  let t := pyTitle (joinSpace ws)
  pyStrip ⟨t.data.filter (fun c => c.isAlphanum || c == '_' || c.isWhitespace || c == '&' || c == '-')⟩

/-- `_clean_label(label, max_words)`.  The initial
`label = ' '.join(label.split())` only collapses whitespace, after which
`label.split()` returns the same word list, so the model splits once. -/
def cleanLabel (label : String) (maxWords : Nat) : String :=
  if label == "" then ""
  else
    let words := pySplitWs label
    let cleanedWords := words.filter (fun w => !FORBIDDEN_LABEL_WORDS.contains (pyLower w))
    let cleanedWords := if cleanedWords.isEmpty then words else cleanedWords
    finalizeLabel (cleanedWords.take maxWords)

/-! ### Cosine similarity (`embedding_service.py`, `cosine_similarity`)

Vector entries are floats, i.e. rationals; the result needs a real square
root.  The Python guard `norm_a == 0 or norm_b == 0` is equivalent to the sum
of squares being zero (a real square root vanishes iff its argument does). -/

def listDot (a b : List ℚ) : ℚ := (List.zipWith (fun x y => x * y) a b).sum

def listSumSq (a : List ℚ) : ℚ := (a.map (fun x => x * x)).sum

noncomputable def cosine_similarity (a b : List ℚ) : Except String ℝ :=
  if a.length ≠ b.length then .error "Embedding dimensions must match"
  else if listSumSq a = 0 ∨ listSumSq b = 0 then .ok 0
  else .ok (max 0 (min 1 ((listDot a b : ℝ) /
    (Real.sqrt (listSumSq a : ℝ) * Real.sqrt (listSumSq b : ℝ)))))

/-! ### Spec-side reformulations (written from the claims, for comparison) -/

/-- C8's two-stage description of `search`: first discard every stored vector
whose metadata does not exact-match all keys of the filter, then score the
survivors (a vector a scoring attempt fails on, i.e. of mismatched dimension,
yields no entry). -/
def specFilterThenScore (sim : List ℚ → List ℚ → ℚ) (vectors : List VectorRow)
    (query : List ℚ) (fil : Metadata) : List SearchEntry :=
  (vectors.filter (fun row => matchesFilter row.2.2 fil)).filterMap
    (fun row =>
      if row.2.1.length = query.length then
        some ((some row.1, sim query row.2.1, row.2.2) : SearchEntry)
      else none)

/-! ### Well-formedness of the matcher state

The invariants a store populated through the matcher (seed initialization,
`load_existing_folders`/`load_folders_from_store`, lazy creation) satisfies:
vector rows resolve through the folder cache, the per-depth lists are
cache-consistent, depth-1 folders are single-segment (`path = label`), cached
embeddings agree with the vector store, vector ids are unique, and ids drawn
from the fresh-id source are unused. -/

/-- The cache branch of `resolveEntry`. -/
def cacheResolve (st : MatcherState) (e : SearchEntry) : Option FolderEntity :=
  match (SearchEntry.md e).get "folder_id" with
  | .str fid => List.lookup fid st.folderCache
  | _ => none

structure WFState (st : MatcherState) : Prop where
  store_res : ∀ row ∈ st.vectors, ∃ fid f,
    Metadata.get row.2.2 "folder_id" = .str fid ∧
    List.lookup fid st.folderCache = some f ∧
    (Metadata.get row.2.2 "depth" = .nat 1 → f.path = f.label ∧ '/' ∉ f.path.data)
  byd_mem : ∀ d, ∀ f ∈ st.byDepth d, List.lookup f.folder_id st.folderCache = some f
  byd1_shape : ∀ f ∈ st.byDepth1, f.path = f.label ∧ '/' ∉ f.path.data
  emb_link : ∀ d, ∀ f ∈ st.byDepth d, ∀ emb, f.embedding = some emb →
    ∃ eid md, f.embedding_id = some eid ∧
      List.lookup eid st.vectors = some (emb, md) ∧
      Metadata.get md "folder_id" = .str f.folder_id
  vec_nodup : (st.vectors.map Prod.fst).Nodup
  fresh_cache : ∀ n, st.nextId ≤ n → List.lookup (freshId n) st.folderCache = none
  fresh_vec : ∀ n, st.nextId ≤ n → List.lookup (embeddingIdFor (freshId n)) st.vectors = none

/-- Conservative extension of a state with respect to one search level
`(depth, parentId)`: only vector rows invisible to that level's filter were
appended, cache lookups that used to succeed still return the same folder,
and the per-depth list of that level is unchanged. -/
structure ConsExt (d : Nat) (pid : Option String) (stA stB : MatcherState) : Prop where
  vec : ∃ extra, stB.vectors = stA.vectors ++ extra ∧
    ∀ row ∈ extra, filterOk (some (levelFilter d pid)) row.2.2 = false
  cache : ∀ k f, List.lookup k stA.folderCache = some f →
    List.lookup k stB.folderCache = some f
  byd : stB.byDepth d = stA.byDepth d

/-! ### Concrete instances used by witnesses and counterexamples -/

/-- An oracle whose embedding backend always fails. -/
def noEmbedOracle : EmbeddingOracle := ⟨fun _ => none, fun _ _ => 0⟩

/-- An empty matcher state (empty store, empty cache). -/
def emptyState : MatcherState := ⟨[], [], [], [], [], 0⟩

/-- Candidate with an optional leaf, used against the failing oracle. -/
def cexCand : TaxonomyCandidate :=
  { domain := { label := "Astronomy" }, subdomain := { label := "Stars" },
    leaf_topic := some { label := "Nebulae", optional := true }, confidence := 1 }

/-- A depth-1 folder whose stored embedding scores exactly at the domain
threshold against the query, for the threshold-boundary witness. -/
def w3folder : FolderEntity :=
  { folder_id := "f1", path := "Cooking", label := "Cooking", depth := 1,
    embedding_id := some "folder_f1", embedding := some [1] }

def w3state : MatcherState :=
  { vectors := [("folder_f1", ([1],
      [("type", .str "folder"), ("folder_id", .str "f1"), ("path", .str "Cooking"),
       ("depth", .nat 1), ("is_seed", .bool true)]))],
    folderCache := [("f1", w3folder)],
    byDepth1 := [w3folder], byDepth2 := [], byDepth3 := [], nextId := 0 }

/-- Scores the stored vector exactly at the domain threshold `0.82`. -/
def w3oracle : EmbeddingOracle :=
  ⟨fun t => if t = "Cooking" then some [1] else none,
   fun q e => if q = [1] ∧ e = [1] then mkRat 82 100 else 0⟩

/-- Scores the stored vector strictly below the domain threshold. -/
def w3oracleLow : EmbeddingOracle :=
  ⟨fun t => if t = "Cooking" then some [1] else none,
   fun q e => if q = [1] ∧ e = [1] then mkRat 81 100 else 0⟩

def w3cand : TaxonomyCandidate :=
  { domain := { label := "Cooking" }, subdomain := { label := "Recipes" } }

/-- Deterministic oracle: a single embedding for every text, self-similarity 1
on non-empty vectors (as for cosine on unit vectors). -/
def w4oracle : EmbeddingOracle :=
  ⟨fun _ => some [1], fun u v => if u = v ∧ u ≠ [] then 1 else 0⟩

def w4cand : TaxonomyCandidate :=
  { domain := { label := "Astronomy" }, subdomain := { label := "Stars" } }

def dummyHM : HierarchicalMatch :=
  { domain_result := { level := .DOMAIN, action := .SKIP },
    subdomain_result := { level := .SUBDOMAIN, action := .SKIP } }

/-- The run of the full matcher against the failing oracle. -/
def c1run : HierarchicalMatch × MatcherState :=
  (matchCandidate noEmbedOracle defaultThresholds emptyState cexCand).getD
    (dummyHM, emptyState)

def w4run1 : HierarchicalMatch × MatcherState :=
  (matchCandidate w4oracle defaultThresholds emptyState w4cand).getD (dummyHM, emptyState)

def w4run2 : HierarchicalMatch × MatcherState :=
  (matchCandidate w4oracle defaultThresholds w4run1.2 w4cand).getD (dummyHM, emptyState)

/-- Deterministic embedding table separating the leaf search text
`"Astronomy/Stars > Nebulae"` from the stored leaf embedding text
`"Astronomy > Stars > Nebulae"` (an orthonormal pair, so the similarity
table is what cosine would return). -/
def c4embed : String → Option (List ℚ) :=
  fun t => if t = "Astronomy/Stars > Nebulae" then some [0, 1] else some [1, 0]

def c4oracle : EmbeddingOracle := ⟨c4embed, fun u v => if u = v then 1 else 0⟩

/-- Candidate with a non-optional leaf. -/
def c4cand : TaxonomyCandidate :=
  { domain := { label := "Astronomy" }, subdomain := { label := "Stars" },
    leaf_topic := some { label := "Nebulae", optional := false }, confidence := 1 }

def c4run1 : HierarchicalMatch × MatcherState :=
  (matchCandidate c4oracle defaultThresholds emptyState c4cand).getD (dummyHM, emptyState)

def c4run2 : HierarchicalMatch × MatcherState :=
  (matchCandidate c4oracle defaultThresholds c4run1.2 c4cand).getD (dummyHM, emptyState)

/-- A resolved depth-2 subdomain result, for the optional-leaf witness. -/
def w5sub : MatchResult :=
  { level := .SUBDOMAIN, action := .REUSE_EXISTING,
    matched_folder := some { folder_id := "s1", path := "A/B", label := "B", depth := 2 } }

def w5cand : TaxonomyCandidate :=
  { domain := { label := "A" }, subdomain := { label := "B" },
    leaf_topic := some { label := "C", optional := true }, confidence := mkRat 60 100 }

/-- The path/parent well-formedness of one folder relative to a scope of
folders (used for C6): depth counts path segments, parentless folders have
`path = label`, and a folder with a parent id extends that parent's path by
one segment. -/
def FolderLinked (scope : List FolderEntity) (f : FolderEntity) : Prop :=
  f.depth = segments f.path ∧
  (f.parent_id = none → f.path = f.label) ∧
  (∀ pid, f.parent_id = some pid → ∃ p ∈ scope,
    p.folder_id = pid ∧ f.path = p.path ++ "/" ++ f.label ∧ f.depth = p.depth + 1)

/-- The per-depth candidate scan of the cache-augmentation pass (the folder
list `cacheAugment` folds over, after its parent filtering). -/
def augCands (st : MatcherState) (depth : Nat) (parentId : Option String) :
    List FolderEntity :=
  let candidates := st.byDepth depth
  match parentId with
  | some pid =>
    if pid == "" then candidates
    else candidates.filter (fun f => f.parent_id == some pid)
  | none => candidates

/-- One step of the cache-augmentation fold. -/
def augStep (svc : EmbeddingOracle) (query : List ℚ)
    (acc : List SearchEntry) (f : FolderEntity) : List SearchEntry :=
  match f.embedding with
  | some emb =>
    if emb.isEmpty then acc
    else if emb.length ≠ query.length then acc
    else if acc.any (fun r => r.1 == f.embedding_id) then acc
    else acc ++ [((f.embedding_id, svc.sim query emb,
      [("folder_id", MVal.str f.folder_id), ("path", MVal.str f.path)]) : SearchEntry)]
  | none => acc

/-- Failure of a resolved candidate inside the selection loop: the score is
below the threshold or the sanity check rejects the pair. -/
def entryFails (cfg : ThresholdConfig) (text : String) (thr : ℚ)
    (f : FolderEntity) (s : ℚ) : Prop :=
  s < thr ∨ sanityCheck cfg text f.path s = false

/-- The leaf contribution to `get_final_path` (the third chunk of `parts`). -/
def leafParts (lr : Option MatchResult) : List String :=
  match lr with
  | some r =>
    (match r.get_folder with
     | some f => if r.action ≠ MatchAction.SKIP then [f.label] else []
     | none => [])
  | none => []

/-- The leaf contribution to `get_created_folders`. -/
def leafCreatedList (lr : Option MatchResult) : List FolderEntity :=
  match lr with
  | some r =>
    if r.action = MatchAction.CREATE_NEW ∨ r.action = MatchAction.ATTACH_AS_CHILD then
      match r.new_folder with
      | some f => [f]
      | none => []
    else []
  | none => []

/-- The filtered-and-scored row list of `storeSearch`, before sorting and
truncation. -/
def scoredRows (sim : List ℚ → List ℚ → ℚ) (vectors : List VectorRow)
    (query : List ℚ) (fil : Option Metadata) : List SearchEntry :=
  vectors.filterMap (fun row =>
    let (vid, emb, md) := row
    if filterOk fil md then
      if emb.length = query.length then some ((some vid, sim query emb, md) : SearchEntry)
      else none
    else none)

/-! ## Lemmas -/

/-! ### Dictionaries and lookups -/

theorem lookup_cons_eq {β : Type} (k : String) (p : String × β) (tl : List (String × β)) :
    List.lookup k (p :: tl) = if k = p.1 then some p.2 else List.lookup k tl := by
  obtain ⟨k₀, v₀⟩ := p
  rw [List.lookup_cons]
  by_cases h : k = k₀
  · simp [h]
  · simp [h, beq_eq_false_iff_ne.mpr h]

theorem lookup_dictInsert_self {β : Type} (k : String) (v : β) (l : List (String × β)) :
    List.lookup k (dictInsert k v l) = some v := by
  induction l with
  | nil => simp [dictInsert, lookup_cons_eq]
  | cons hd tl ih =>
    by_cases h : hd.1 = k
    · simp [dictInsert, h, lookup_cons_eq]
    · rw [dictInsert, if_neg h, lookup_cons_eq, if_neg (Ne.symm h)]
      exact ih

theorem lookup_dictInsert_ne {β : Type} {k k' : String} (v : β) (l : List (String × β))
    (h : k' ≠ k) : List.lookup k' (dictInsert k v l) = List.lookup k' l := by
  induction l with
  | nil => simp [dictInsert, lookup_cons_eq, h]
  | cons hd tl ih =>
    by_cases h₀ : hd.1 = k
    · rw [dictInsert, if_pos h₀, lookup_cons_eq, if_neg h, lookup_cons_eq,
        if_neg (fun hq => h (hq.trans h₀))]
    · rw [dictInsert, if_neg h₀, lookup_cons_eq, lookup_cons_eq]
      by_cases h₁ : k' = hd.1
      · simp [h₁]
      · rw [if_neg h₁, if_neg h₁]
        exact ih

theorem dictInsert_eq_append {β : Type} (k : String) (v : β) (l : List (String × β))
    (h : List.lookup k l = none) : dictInsert k v l = l ++ [(k, v)] := by
  induction l with
  | nil => simp [dictInsert]
  | cons hd tl ih =>
    rw [lookup_cons_eq] at h
    by_cases h₀ : k = hd.1
    · rw [if_pos h₀] at h
      cases h
    · rw [if_neg h₀] at h
      rw [dictInsert, if_neg (Ne.symm h₀), ih h]
      simp

theorem lookup_eq_of_mem_of_nodup {β : Type} {l : List (String × β)}
    (hnd : (l.map Prod.fst).Nodup) {row : String × β} (hrow : row ∈ l) :
    List.lookup row.1 l = some row.2 := by
  induction l with
  | nil => cases hrow
  | cons hd tl ih =>
    simp only [List.map_cons, List.nodup_cons] at hnd
    rcases List.mem_cons.mp hrow with h | h
    · subst h
      simp [lookup_cons_eq]
    · have hne : row.1 ≠ hd.1 := by
        intro hcontra
        exact hnd.1 (hcontra ▸ List.mem_map_of_mem Prod.fst h)
      rw [lookup_cons_eq, if_neg hne]
      exact ih hnd.2 h

theorem freshId_injective : Function.Injective freshId := by
  intro a b h
  have hdata : ('u' :: List.replicate a 'u') = ('u' :: List.replicate b 'u') :=
    congrArg String.data h
  have hlen := congrArg List.length hdata
  simpa using hlen

/-! ### The stable descending sort -/

theorem sortScoreDesc_nil {β : Type} (key : β → ℚ) : sortScoreDesc key [] = [] := rfl

theorem sortScoreDesc_cons {β : Type} (key : β → ℚ) (x : β) (l : List β) :
    sortScoreDesc key (x :: l) = insertScoreDesc key x (sortScoreDesc key l) := rfl

theorem insertScoreDesc_perm {β : Type} (key : β → ℚ) (x : β) (l : List β) :
    List.Perm (insertScoreDesc key x l) (x :: l) := by
  induction l with
  | nil => simp [insertScoreDesc]
  | cons y ys ih =>
    by_cases h : key y ≤ key x
    · simp [insertScoreDesc, h]
    · rw [insertScoreDesc, if_neg h]
      exact ((ih.cons y).trans (List.Perm.swap x y ys))

theorem sortScoreDesc_perm {β : Type} (key : β → ℚ) (l : List β) :
    List.Perm (sortScoreDesc key l) l := by
  induction l with
  | nil => simp [sortScoreDesc]
  | cons x xs ih =>
    rw [sortScoreDesc_cons]
    exact (insertScoreDesc_perm key x _).trans (ih.cons x)

theorem mem_sortScoreDesc {β : Type} {key : β → ℚ} {l : List β} {a : β} :
    a ∈ sortScoreDesc key l ↔ a ∈ l :=
  (sortScoreDesc_perm key l).mem_iff

theorem insertScoreDesc_sorted {β : Type} (key : β → ℚ) (x : β) {l : List β}
    (hl : l.Pairwise (fun a b => key b ≤ key a)) :
    (insertScoreDesc key x l).Pairwise (fun a b => key b ≤ key a) := by
  induction l with
  | nil => simp [insertScoreDesc]
  | cons y ys ih =>
    rcases List.pairwise_cons.mp hl with ⟨hy, hys⟩
    by_cases h : key y ≤ key x
    · rw [insertScoreDesc, if_pos h]
      refine List.pairwise_cons.mpr ⟨?_, hl⟩
      intro b hb
      rcases List.mem_cons.mp hb with rfl | hb
      · exact h
      · exact (hy b hb).trans h
    · rw [insertScoreDesc, if_neg h]
      refine List.pairwise_cons.mpr ⟨?_, ih hys⟩
      intro b hb
      rcases List.mem_cons.mp ((insertScoreDesc_perm key x ys).mem_iff.mp hb) with rfl | hb
      · exact le_of_not_le h
      · exact hy b hb

theorem sortScoreDesc_sorted {β : Type} (key : β → ℚ) (l : List β) :
    (sortScoreDesc key l).Pairwise (fun a b => key b ≤ key a) := by
  induction l with
  | nil => simp [sortScoreDesc]
  | cons x xs ih =>
    rw [sortScoreDesc_cons]
    exact insertScoreDesc_sorted key x ih

theorem filter_insertScoreDesc {β : Type} (key : β → ℚ) (x : β) (l : List β) (s : ℚ) :
    (insertScoreDesc key x l).filter (fun y => decide (key y = s)) =
      if key x = s then x :: l.filter (fun y => decide (key y = s))
      else l.filter (fun y => decide (key y = s)) := by
  induction l with
  | nil => by_cases h : key x = s <;> simp [insertScoreDesc, h]
  | cons y ys ih =>
    by_cases hle : key y ≤ key x
    · rw [insertScoreDesc, if_pos hle]
      by_cases h : key x = s
      · simp [List.filter_cons, h]
      · simp [List.filter_cons, h]
    · have hlt : key x < key y := lt_of_not_le hle
      rw [insertScoreDesc, if_neg hle, List.filter_cons, List.filter_cons]
      by_cases h : key x = s
      · have hy : ¬ key y = s := by
          intro hy
          exact absurd (h ▸ hy ▸ hlt) (lt_irrefl _)
        simp [hy, ih, h]
      · simp [ih, h]

theorem sortScoreDesc_stable {β : Type} (key : β → ℚ) (l : List β) (s : ℚ) :
    (sortScoreDesc key l).filter (fun y => decide (key y = s)) =
      l.filter (fun y => decide (key y = s)) := by
  induction l with
  | nil => simp [sortScoreDesc]
  | cons x xs ih =>
    rw [sortScoreDesc_cons, filter_insertScoreDesc, List.filter_cons]
    by_cases hx : key x = s
    · simp [hx, ih]
    · simp [hx, ih]

theorem foldr_insertScoreDesc_max {β : Type} (key : β → ℚ) (x : β) (l : List β)
    (h : ∀ y ∈ l, key y < key x) :
    l.foldr (insertScoreDesc key) [x] = x :: l.foldr (insertScoreDesc key) [] := by
  induction l with
  | nil => rfl
  | cons a as ih =>
    have ha : key a < key x := h a (List.mem_cons_self a as)
    have ih' := ih (fun y hy => h y (List.mem_cons_of_mem a hy))
    simp only [List.foldr_cons, ih']
    rw [insertScoreDesc, if_neg (not_le.mpr ha)]

theorem sortScoreDesc_append_max {β : Type} (key : β → ℚ) (x : β) (l : List β)
    (h : ∀ y ∈ l, key y < key x) :
    sortScoreDesc key (l ++ [x]) = x :: sortScoreDesc key l := by
  unfold sortScoreDesc
  rw [List.foldr_append]
  exact foldr_insertScoreDesc_max key x l h

/-! ### String facts -/

theorem string_mk_append (a b : List Char) :
    (⟨a⟩ : String) ++ (⟨b⟩ : String) = ⟨a ++ b⟩ := rfl

theorem flatMap_slash_id {l : List Char} (h : '/' ∉ l) :
    l.flatMap (fun c => if c = '/' then [' ', '>', ' '] else [c]) = l := by
  induction l with
  | nil => rfl
  | cons c cs ih =>
    simp only [List.mem_cons, not_or] at h
    have hc : ¬ c = '/' := fun hq => h.1 hq.symm
    simp [List.flatMap_cons, hc, ih h.2]

theorem replaceSlashGt_of_no_slash {s : String} (h : '/' ∉ s.data) :
    replaceSlashGt s = s := by
  unfold replaceSlashGt
  rw [flatMap_slash_id h]

theorem replaceSlashGt_append (a b : String) (ha : '/' ∉ a.data) (hb : '/' ∉ b.data) :
    replaceSlashGt (a ++ "/" ++ b) = a ++ " > " ++ b := by
  unfold replaceSlashGt
  have hdata : (a ++ "/" ++ b).data = a.data ++ ['/'] ++ b.data := by
    rw [String.data_append, String.data_append]
  rw [hdata, List.flatMap_append, List.flatMap_append, flatMap_slash_id ha,
    flatMap_slash_id hb]
  have hmid : (['/'] : List Char).flatMap
      (fun c => if c = '/' then [' ', '>', ' '] else [c]) = [' ', '>', ' '] := by
    simp
  rw [hmid]
  cases a with
  | mk da =>
    cases b with
    | mk db =>
      show String.mk (da ++ [' ', '>', ' '] ++ db) =
        String.mk da ++ String.mk [' ', '>', ' '] ++ String.mk db
      rfl

theorem segments_of_no_slash {s : String} (h : '/' ∉ s.data) : segments s = 1 := by
  unfold segments
  rw [List.count_eq_zero.mpr h]

theorem segments_append (a b : String) (hb : '/' ∉ b.data) :
    segments (a ++ "/" ++ b) = segments a + 1 := by
  unfold segments
  have hdata : (a ++ "/" ++ b).data = a.data ++ ['/'] ++ b.data := by
    rw [String.data_append, String.data_append]
  rw [hdata, List.count_append, List.count_append, List.count_eq_zero.mpr hb,
    show List.count '/' (['/'] : List Char) = 1 from rfl]

/-! ### Cosine similarity (C7) -/

theorem listDot_self (a : List ℚ) : listDot a a = listSumSq a := by
  induction a with
  | nil => rfl
  | cons x xs ih =>
    simp only [listDot, listSumSq, List.zipWith_cons_cons, List.map_cons, List.sum_cons] at *
    rw [ih]

theorem listSumSq_nonneg (a : List ℚ) : 0 ≤ listSumSq a := by
  induction a with
  | nil => simp [listSumSq]
  | cons x xs ih =>
    simp only [listSumSq, List.map_cons, List.sum_cons]
    exact add_nonneg (mul_self_nonneg x) ih

theorem listSumSq_eq_zero_iff (a : List ℚ) : listSumSq a = 0 ↔ ∀ x ∈ a, x = 0 := by
  induction a with
  | nil => simp [listSumSq]
  | cons x xs ih =>
    simp only [listSumSq, List.map_cons, List.sum_cons, List.mem_cons]
    constructor
    · intro h
      have hx : x * x = 0 ∧ (xs.map (fun y => y * y)).sum = 0 :=
        (add_eq_zero_iff_of_nonneg (mul_self_nonneg x)
          (listSumSq_nonneg xs)).mp h
      intro y hy
      rcases hy with rfl | hy
      · exact mul_self_eq_zero.mp hx.1
      · exact ih.mp hx.2 y hy
    · intro h
      have hx : x = 0 := h x (Or.inl rfl)
      have hxs : listSumSq xs = 0 := ih.mpr (fun y hy => h y (Or.inr hy))
      simp [hx, listSumSq] at *
      exact hxs

/-- C7: `cosine_similarity` fails exactly on a dimension mismatch; otherwise
it returns a value clamped into `[0, 1]`, returns `0.0` when either norm is
zero (in particular against a zero vector of matching length), and returns
`1.0` on any non-zero vector paired with itself. -/
theorem C7_cosine_similarity :
    (∀ a b : List ℚ, (∃ msg, cosine_similarity a b = .error msg) ↔ a.length ≠ b.length) ∧
    (∀ (a b : List ℚ) (r : ℝ), cosine_similarity a b = .ok r → 0 ≤ r ∧ r ≤ 1) ∧
    (∀ a : List ℚ, ¬ (∀ x ∈ a, x = (0 : ℚ)) → cosine_similarity a a = .ok 1) ∧
    (∀ a z : List ℚ, z.length = a.length → (∀ x ∈ z, x = (0 : ℚ)) →
      cosine_similarity a z = .ok 0) := by
  refine ⟨fun a b => ⟨?_, ?_⟩, fun a b r h => ?_, fun a ha => ?_, fun a z hlen hz => ?_⟩
  · rintro ⟨msg, h⟩
    by_contra hlen
    rw [cosine_similarity, if_neg (fun hc => hc hlen)] at h
    split_ifs at h
  · intro hne
    exact ⟨_, by rw [cosine_similarity, if_pos hne]⟩
  · by_cases hlen : a.length ≠ b.length
    · rw [cosine_similarity, if_pos hlen] at h
      cases h
    · rw [cosine_similarity, if_neg hlen] at h
      by_cases hz : listSumSq a = 0 ∨ listSumSq b = 0
      · rw [if_pos hz] at h
        cases h
        norm_num
      · rw [if_neg hz] at h
        cases h
        refine ⟨le_max_left _ _, max_le (by norm_num) ?_⟩
        exact min_le_left _ _
  · have hs : listSumSq a ≠ 0 := fun h0 => ha ((listSumSq_eq_zero_iff a).mp h0)
    have hpos : (0 : ℝ) < (listSumSq a : ℝ) := by
      have := listSumSq_nonneg a
      have hne : (0 : ℚ) < listSumSq a := lt_of_le_of_ne this (Ne.symm hs)
      exact_mod_cast hne
    rw [cosine_similarity, if_neg (by simp), if_neg (by simp [hs])]
    have hdot : ((listDot a a : ℚ) : ℝ) = ((listSumSq a : ℚ) : ℝ) := by
      exact_mod_cast congrArg (fun (q : ℚ) => (q : ℝ)) (listDot_self a)
    have hsqrt : Real.sqrt (listSumSq a : ℝ) * Real.sqrt (listSumSq a : ℝ) =
        (listSumSq a : ℝ) := Real.mul_self_sqrt (le_of_lt hpos)
    rw [hdot, hsqrt, div_self (ne_of_gt hpos)]
    norm_num
  · have hz0 : listSumSq z = 0 := (listSumSq_eq_zero_iff z).mpr hz
    rw [cosine_similarity, if_neg (by omega), if_pos (Or.inr hz0)]

/-- Witness for C7 at concrete inputs. -/
theorem C7_cosine_similarity_witness :
    cosine_similarity [3, 4] [3, 4] = .ok 1 ∧
    cosine_similarity [3, 4] [0, 0] = .ok 0 ∧
    (∃ msg, cosine_similarity [3, 4] [1] = .error msg) := by
  refine ⟨?_, ?_, ?_⟩
  · exact C7_cosine_similarity.2.2.1 [3, 4] (by decide)
  · exact C7_cosine_similarity.2.2.2 [3, 4] [0, 0] (by decide) (by decide)
  · exact (C7_cosine_similarity.1 [3, 4] [1]).mpr (by decide)

/-! ### The sanity check (C2, C9) -/

/-- C2: the sanity check accepts exactly when similarity exceeds `0.95`, or
else neither the high-similarity/low-overlap rejection (`> 0.85` with overlap
below the configured minimum) nor a cross-domain confusion pair fires; in
particular any pair at similarity `0.90` with zero keyword overlap is
rejected (for a positive configured minimum, default `0.20`). -/
theorem C2_sanity_check_characterization :
    (∀ (cfg : ThresholdConfig) (a b : String) (s : ℚ),
      sanityCheck cfg a b s = true ↔
        (mkRat 95 100 < s ∨
          (¬(mkRat 85 100 < s ∧ keywordOverlap a b < cfg.min_keyword_overlap) ∧
            confusionHit a b = false))) ∧
    (∀ (cfg : ThresholdConfig) (a b : String),
      keywordOverlap a b = 0 → 0 < cfg.min_keyword_overlap →
      sanityCheck cfg a b (mkRat 90 100) = false) := by
  constructor
  · intro cfg a b s
    simp only [sanityCheck]
    by_cases h1 : mkRat 95 100 < s
    · rw [if_pos h1]
      simp [h1]
    · rw [if_neg h1]
      by_cases h2 : mkRat 85 100 < s ∧ keywordOverlap a b < cfg.min_keyword_overlap
      · rw [if_pos h2]
        simp [h1, h2]
      · rw [if_neg h2]
        by_cases h3 : confusionHit a b = true
        · simp [h1, h2, h3]
        · simp [h1, h2, h3]
  · intro cfg a b hov hmin
    unfold sanityCheck
    rw [if_neg (by decide), if_pos ⟨by decide, by rw [hov]; exact hmin⟩]

/-- Witness for C2: similarity 0.90 with zero keyword overlap is rejected. -/
theorem C2_sanity_check_characterization_witness :
    keywordOverlap "Cooking Tips" "Startup Advice" = 0 ∧
    sanityCheck defaultThresholds "Cooking Tips" "Startup Advice" (mkRat 90 100) = false := by
  refine ⟨by decide, ?_⟩
  exact C2_sanity_check_characterization.2 defaultThresholds _ _ (by decide) (by decide)

/-- C9: the keyword overlap is 0 whenever either text has no keyword (no
token longer than two characters outside the stop-word list), so the sanity
check rejects any such pair with similarity in `(0.85, 0.95]` — even two
identical strings. -/
theorem C9_empty_keywords_reject :
    (∀ a b : String, extractKeywords a = ∅ ∨ extractKeywords b = ∅ →
      keywordOverlap a b = 0) ∧
    (∀ (cfg : ThresholdConfig) (a b : String) (s : ℚ),
      extractKeywords a = ∅ ∨ extractKeywords b = ∅ →
      mkRat 85 100 < s → ¬ mkRat 95 100 < s → 0 < cfg.min_keyword_overlap →
      sanityCheck cfg a b s = false) := by
  have hov : ∀ a b : String, extractKeywords a = ∅ ∨ extractKeywords b = ∅ →
      keywordOverlap a b = 0 := by
    intro a b h
    unfold keywordOverlap
    rw [if_pos h]
  refine ⟨hov, ?_⟩
  intro cfg a b s h h85 h95 hmin
  unfold sanityCheck
  rw [if_neg h95, if_pos ⟨h85, by rw [hov a b h]; exact hmin⟩]

/-- Witness for C9: two identical strings with no keywords are rejected at
similarity 0.90. -/
theorem C9_empty_keywords_reject_witness :
    extractKeywords "AI" = ∅ ∧
    sanityCheck defaultThresholds "AI" "AI" (mkRat 90 100) = false := by
  refine ⟨by decide, ?_⟩
  exact C9_empty_keywords_reject.2 defaultThresholds "AI" "AI" (mkRat 90 100)
    (Or.inl (by decide)) (by decide) (by decide) (by decide)

/-! ### Label cleaning (C10) -/

/-- C10: when every word of a (non-empty) label is in the forbidden set, the
forbidden-word filter keeps the original words, so the cleaned label is just
the truncated/title-cased/punctuation-stripped original — in particular the
forbidden word `"video"` survives verbatim (`cleanLabel "Video" = "Video"`). -/
theorem C10_clean_label_forbidden :
    (∀ (label : String) (maxWords : Nat), label ≠ "" →
      (∀ w ∈ pySplitWs label, FORBIDDEN_LABEL_WORDS.contains (pyLower w) = true) →
      cleanLabel label maxWords = finalizeLabel ((pySplitWs label).take maxWords)) ∧
    (cleanLabel "Video" 4 = "Video" ∧ "video" ∈ FORBIDDEN_LABEL_WORDS) := by
  constructor
  · intro label maxWords hne hall
    have hfilter : (pySplitWs label).filter
        (fun w => !FORBIDDEN_LABEL_WORDS.contains (pyLower w)) = [] := by
      rw [List.filter_eq_nil_iff]
      intro w hw
      simpa using hall w hw
    have hbeq : ¬ (label == "") = true := by
      simpa using hne
    simp only [cleanLabel, if_neg hbeq, hfilter, List.isEmpty_nil, if_true]
  · exact ⟨by decide, by decide⟩

/-- Witness for C10: an all-forbidden label keeps its words. -/
theorem C10_clean_label_forbidden_witness :
    "Video Stash" ≠ "" ∧
    cleanLabel "Video Stash" 4 = finalizeLabel ((pySplitWs "Video Stash").take 4) ∧
    cleanLabel "Video Stash" 4 = "Video Stash" := by
  refine ⟨by decide, ?_, by decide⟩
  exact C10_clean_label_forbidden.1 "Video Stash" 4 (by decide) (by decide)

/-! ### Optional leaves (C5) -/

/-- C5: with an optional leaf topic present, `match_leaf` never answers
`CREATE_NEW` or `ATTACH_AS_CHILD` and never touches the store, cache or
depth-3 list; when additionally the candidate confidence is strictly below
`leaf_confidence_threshold`, the result is the low-confidence SKIP and the
state is returned untouched. -/
theorem C5_optional_leaf_never_creates :
    ∀ (svc : EmbeddingOracle) (cfg : ThresholdConfig) (st : MatcherState)
      (cand : TaxonomyCandidate) (sdres : MatchResult) (lt : LabelWithAliases),
      cand.leaf_topic = some lt → lt.optional = true →
      ((∀ res st', matchLeaf svc cfg st cand sdres = (some res, st') →
        (res.action = MatchAction.SKIP ∨ res.action = MatchAction.REUSE_EXISTING) ∧
        st'.vectors = st.vectors ∧ st'.folderCache = st.folderCache ∧
        st'.byDepth3 = st.byDepth3) ∧
      (cand.confidence < cfg.leaf_confidence_threshold →
        matchLeaf svc cfg st cand sdres =
          (some { level := .LEAF, action := .SKIP, similarity_score := 0,
                  label_used := lt.label,
                  notes := "Skipped leaf topic - confidence too low" }, st))) := by
  intro svc cfg st cand sdres lt hleaf hopt
  constructor
  · intro res st' h
    simp only [matchLeaf, hleaf] at h
    by_cases hconf : cand.confidence < cfg.leaf_confidence_threshold
    · rw [if_pos ⟨hopt, hconf⟩] at h
      injection h with h1 h2
      injection h1 with h1
      subst h1
      subst h2
      exact ⟨Or.inl rfl, rfl, rfl, rfl⟩
    · rw [if_neg (fun hc => hconf hc.2)] at h
      cases hgf : sdres.get_folder with
      | none =>
        rw [hgf] at h
        injection h with h1 h2
        cases h1
      | some sf =>
        rw [hgf] at h
        dsimp only at h
        rcases hfb : findBestMatch svc cfg st (sf.path ++ " > " ++ lt.label) 3
            (some sf.folder_id) cfg.leaf_threshold with ⟨⟨mf, sc⟩, ctr⟩
        rw [hfb] at h
        cases mf with
        | some f =>
          dsimp only at h
          injection h with h1 h2
          injection h1 with h1
          subst h1
          subst h2
          exact ⟨Or.inr rfl, rfl, rfl, rfl⟩
        | none =>
          dsimp only at h
          by_cases hmd : cfg.max_depth ≤ sf.depth
          · rw [if_pos hmd] at h
            injection h with h1 h2
            injection h1 with h1
            subst h1
            subst h2
            exact ⟨Or.inl rfl, rfl, rfl, rfl⟩
          · rw [if_neg hmd, if_pos hopt] at h
            injection h with h1 h2
            injection h1 with h1
            subst h1
            subst h2
            exact ⟨Or.inl rfl, rfl, rfl, rfl⟩
  · intro hconf
    simp only [matchLeaf, hleaf]
    rw [if_pos ⟨hopt, hconf⟩]

/-- Witness for C5: a low-confidence optional leaf is skipped untouched. -/
theorem C5_optional_leaf_never_creates_witness :
    matchLeaf noEmbedOracle defaultThresholds emptyState w5cand w5sub =
      (some { level := .LEAF, action := .SKIP, similarity_score := 0,
              label_used := "C",
              notes := "Skipped leaf topic - confidence too low" }, emptyState) :=
  (C5_optional_leaf_never_creates noEmbedOracle defaultThresholds emptyState
    w5cand w5sub { label := "C", optional := true } rfl rfl).2 (by decide)

/-! ### Folder creation invariants (C6) -/

theorem createFolder_fields (svc : EmbeddingOracle) (st : MatcherState) (label : String)
    (depth : Nat) (parent : Option FolderEntity) (aliases : List String) :
    (createFolder svc st label depth parent aliases).1.path =
      (match parent with | some p => p.path ++ "/" ++ label | none => label) ∧
    (createFolder svc st label depth parent aliases).1.label = label ∧
    (createFolder svc st label depth parent aliases).1.depth = depth ∧
    (createFolder svc st label depth parent aliases).1.folder_id = freshId st.nextId ∧
    (createFolder svc st label depth parent aliases).1.parent_id =
      parent.map (fun p => p.folder_id) := by
  cases parent with
  | none =>
    cases hemb : svc.embed (replaceSlashGt label) <;> simp [createFolder, hemb]
  | some p =>
    cases hemb : svc.embed (replaceSlashGt (p.path ++ "/" ++ label)) <;>
      simp [createFolder, hemb]

theorem FolderLinked.mono {scope scope' : List FolderEntity} {f : FolderEntity}
    (hsub : ∀ x ∈ scope, x ∈ scope') (h : FolderLinked scope f) :
    FolderLinked scope' f := by
  obtain ⟨h1, h2, h3⟩ := h
  refine ⟨h1, h2, fun pid hpid => ?_⟩
  obtain ⟨p, hpmem, hrest⟩ := h3 pid hpid
  exact ⟨p, hsub p hpmem, hrest⟩

theorem initSeedSubdomain_shape (svc : EmbeddingOracle) (dLabel dId : String)
    (acc : List FolderEntity × MatcherState) (sub : SeedSubdomain) :
    ∃ ent, (initSeedSubdomain svc dLabel dId acc sub).1 = acc.1 ++ [ent] ∧
      ent.path = dLabel ++ "/" ++ sub.label ∧ ent.label = sub.label ∧
      ent.depth = 2 ∧ ent.parent_id = some dId := by
  obtain ⟨created, st⟩ := acc
  cases hemb : svc.embed (dLabel ++ " > " ++ sub.label) with
  | none =>
    refine ⟨{ folder_id := freshId st.nextId, path := dLabel ++ "/" ++ sub.label,
              label := sub.label, depth := 2, parent_id := some dId,
              aliases := sub.aliases, is_seed := true }, ?_, rfl, rfl, rfl, rfl⟩
    simp [initSeedSubdomain, hemb]
  | some emb =>
    refine ⟨{ folder_id := freshId st.nextId, path := dLabel ++ "/" ++ sub.label,
              label := sub.label, depth := 2, parent_id := some dId,
              aliases := sub.aliases, is_seed := true,
              embedding_id := some (embeddingIdFor (freshId st.nextId)),
              embedding := some emb }, ?_, rfl, rfl, rfl, rfl⟩
    simp [initSeedSubdomain, hemb]

theorem seedSubs_fold (svc : EmbeddingOracle) (dLabel dId : String) :
    ∀ (subs : List SeedSubdomain) (acc : List FolderEntity × MatcherState),
      '/' ∉ dLabel.data → (∀ s ∈ subs, '/' ∉ s.label.data) →
      (∀ f ∈ acc.1, FolderLinked acc.1 f) →
      (∃ dp ∈ acc.1, dp.folder_id = dId ∧ dp.path = dLabel ∧ dp.depth = 1) →
      (∀ f ∈ (subs.foldl (initSeedSubdomain svc dLabel dId) acc).1,
        FolderLinked (subs.foldl (initSeedSubdomain svc dLabel dId) acc).1 f) ∧
      (∀ f ∈ acc.1, f ∈ (subs.foldl (initSeedSubdomain svc dLabel dId) acc).1) := by
  intro subs
  induction subs with
  | nil =>
    intro acc _ _ hinv _
    exact ⟨hinv, fun f hf => hf⟩
  | cons s ss ih =>
    intro acc hd hs hinv hdp
    obtain ⟨ent, hshape, hpath, hlabel, hdepth, hparent⟩ :=
      initSeedSubdomain_shape svc dLabel dId acc s
    have hsub : ∀ x ∈ acc.1, x ∈ (initSeedSubdomain svc dLabel dId acc s).1 := by
      intro x hx
      rw [hshape]
      exact List.mem_append_left _ hx
    have hinv' : ∀ f ∈ (initSeedSubdomain svc dLabel dId acc s).1,
        FolderLinked (initSeedSubdomain svc dLabel dId acc s).1 f := by
      intro f hf
      rw [hshape] at hf
      rcases List.mem_append.mp hf with hf | hf
      · exact (hinv f hf).mono hsub
      · obtain rfl := List.mem_singleton.mp hf
        obtain ⟨dp, hdpmem, hdpid, hdppath, hdpdepth⟩ := hdp
        refine ⟨?_, ?_, ?_⟩
        · rw [hdepth, hpath, segments_append _ _ (hs s (List.mem_cons_self s ss)),
            segments_of_no_slash hd]
        · intro hnone
          rw [hparent] at hnone
          cases hnone
        · intro pid hpid
          rw [hparent] at hpid
          injection hpid with hpid
          refine ⟨dp, hsub dp hdpmem, ?_, ?_, ?_⟩
          · rw [hdpid, hpid]
          · rw [hpath, hlabel, hdppath]
          · rw [hdepth, hdpdepth]
    have hdp' : ∃ dp ∈ (initSeedSubdomain svc dLabel dId acc s).1,
        dp.folder_id = dId ∧ dp.path = dLabel ∧ dp.depth = 1 := by
      obtain ⟨dp, hdpmem, hrest⟩ := hdp
      exact ⟨dp, hsub dp hdpmem, hrest⟩
    have hih := ih (initSeedSubdomain svc dLabel dId acc s) hd
      (fun x hx => hs x (List.mem_cons_of_mem s hx)) hinv' hdp'
    rw [List.foldl_cons]
    exact ⟨hih.1, fun f hf => hih.2 f (hsub f hf)⟩

theorem initSeedDomain_shape (svc : EmbeddingOracle)
    (acc : List FolderEntity × MatcherState) (dom : SeedDomain) :
    ∃ ent st₂, initSeedDomain svc acc dom =
        dom.subdomains.foldl (initSeedSubdomain svc dom.label ent.folder_id)
          (acc.1 ++ [ent], st₂) ∧
      ent.path = dom.label ∧ ent.label = dom.label ∧
      ent.depth = 1 ∧ ent.parent_id = none := by
  obtain ⟨created, st⟩ := acc
  cases hemb : svc.embed dom.label with
  | none =>
    simp only [initSeedDomain, hemb]
    exact ⟨{ folder_id := freshId st.nextId, path := dom.label, label := dom.label,
             depth := 1, aliases := dom.aliases, is_seed := true },
           _, rfl, rfl, rfl, rfl, rfl⟩
  | some emb =>
    simp only [initSeedDomain, hemb]
    exact ⟨{ folder_id := freshId st.nextId, path := dom.label, label := dom.label,
             depth := 1, aliases := dom.aliases, is_seed := true,
             embedding_id := some (embeddingIdFor (freshId st.nextId)),
             embedding := some emb },
           _, rfl, rfl, rfl, rfl, rfl⟩

theorem seedDomains_fold (svc : EmbeddingOracle) :
    ∀ (doms : List SeedDomain) (acc : List FolderEntity × MatcherState),
      (∀ d ∈ doms, '/' ∉ d.label.data ∧ ∀ s ∈ d.subdomains, '/' ∉ s.label.data) →
      (∀ f ∈ acc.1, FolderLinked acc.1 f) →
      (∀ f ∈ (doms.foldl (initSeedDomain svc) acc).1,
        FolderLinked (doms.foldl (initSeedDomain svc) acc).1 f) := by
  intro doms
  induction doms with
  | nil =>
    intro acc _ hinv
    exact hinv
  | cons d ds ih =>
    intro acc hok hinv
    obtain ⟨hd, hsubs⟩ := hok d (List.mem_cons_self d ds)
    obtain ⟨ent, st₂, hshape, hpath, hlabel, hdepth, hparent⟩ :=
      initSeedDomain_shape svc acc d
    have hinv₀ : ∀ f ∈ acc.1 ++ [ent], FolderLinked (acc.1 ++ [ent]) f := by
      intro f hf
      rcases List.mem_append.mp hf with hf | hf
      · exact (hinv f hf).mono (fun x hx => List.mem_append_left _ hx)
      · obtain rfl := List.mem_singleton.mp hf
        refine ⟨?_, fun _ => by rw [hpath, hlabel], fun pid hpid => ?_⟩
        · rw [hdepth, hpath, segments_of_no_slash hd]
        · rw [hparent] at hpid
          cases hpid
    have hdp : ∃ dp ∈ acc.1 ++ [ent],
        dp.folder_id = ent.folder_id ∧ dp.path = d.label ∧ dp.depth = 1 := by
      refine ⟨ent, List.mem_append_right _ (List.mem_singleton_self ent), rfl, hpath, hdepth⟩
    have hsf := seedSubs_fold svc d.label ent.folder_id d.subdomains
      (acc.1 ++ [ent], st₂) hd hsubs
      (by simpa using hinv₀) (by simpa using hdp)
    rw [List.foldl_cons, hshape]
    exact ih _ (fun x hx => hok x (List.mem_cons_of_mem d hx)) hsf.1

/-- C6: every folder the matcher creates satisfies the path/depth invariant:
`_create_folder` always sets `path = parent.path + "/" + label` (or `label`
at the root); when the label is slash-free and the parent (if any) already
satisfies `depth = segments path` with the depth the call sites pass
(parent depth + 1, or 1 at the root), the created folder does too; and every
folder of `initialize_seed_folders` satisfies the invariant with its parent
among the created seed folders. -/
theorem C6_created_folder_paths :
    (∀ (svc : EmbeddingOracle) (st : MatcherState) (label : String) (depth : Nat)
       (parent : Option FolderEntity) (aliases : List String),
      (createFolder svc st label depth parent aliases).1.path =
        (match parent with | some p => p.path ++ "/" ++ label | none => label)) ∧
    (∀ (svc : EmbeddingOracle) (st : MatcherState) (label : String)
       (aliases : List String), '/' ∉ label.data →
      (createFolder svc st label 1 none aliases).1.depth =
        segments (createFolder svc st label 1 none aliases).1.path) ∧
    (∀ (svc : EmbeddingOracle) (st : MatcherState) (label : String) (depth : Nat)
       (p : FolderEntity) (aliases : List String), '/' ∉ label.data →
      depth = p.depth + 1 → p.depth = segments p.path →
      (createFolder svc st label depth (some p) aliases).1.depth =
        segments (createFolder svc st label depth (some p) aliases).1.path) ∧
    (∀ (svc : EmbeddingOracle) (st : MatcherState),
      ∀ f ∈ (initializeSeedFolders svc st).1,
        FolderLinked (initializeSeedFolders svc st).1 f) := by
  refine ⟨?_, ?_, ?_, ?_⟩
  · intro svc st label depth parent aliases
    exact (createFolder_fields svc st label depth parent aliases).1
  · intro svc st label aliases hl
    obtain ⟨hp, _, hd, _⟩ := createFolder_fields svc st label 1 none aliases
    rw [hd, hp, segments_of_no_slash hl]
  · intro svc st label depth p aliases hl hdep hpseg
    obtain ⟨hp, _, hd, _⟩ := createFolder_fields svc st label depth (some p) aliases
    rw [hd, hp, segments_append _ _ hl, ← hpseg, hdep]
  · intro svc st
    exact seedDomains_fold svc SEED_DOMAINS ([], st) (by decide) (by intro f hf; cases hf)



/-- Witness for C6 at concrete inputs (a concrete lazy creation under a
depth-2 parent, and the first seed folder of a fresh initialization). -/
theorem C6_created_folder_paths_witness :
    (createFolder noEmbedOracle emptyState "Nebulae" 3
        (some { folder_id := "p1", path := "A/B", label := "B", depth := 2 }) []).1.depth =
      segments (createFolder noEmbedOracle emptyState "Nebulae" 3
        (some { folder_id := "p1", path := "A/B", label := "B", depth := 2 }) []).1.path ∧
    FolderLinked (initializeSeedFolders noEmbedOracle emptyState).1
      { folder_id := "u", path := "Health & Fitness", label := "Health & Fitness",
        depth := 1,
        aliases := ["health", "fitness", "wellness", "exercise", "workout", "gym"],
        is_seed := true } := by
  constructor
  · exact C6_created_folder_paths.2.2.1 noEmbedOracle emptyState "Nebulae" 3
      { folder_id := "p1", path := "A/B", label := "B", depth := 2 } []
      (by decide) (by decide) (by decide)
  · exact C6_created_folder_paths.2.2.2 noEmbedOracle emptyState _ (by decide)


/-! ### The in-memory vector store search (C8) -/

theorem filterOk_some (fil : Metadata) (md : Metadata) :
    filterOk (some fil) md = matchesFilter md fil := by
  cases fil with
  | nil => simp [filterOk, matchesFilter]
  | cons kv rest => simp [filterOk]

theorem storeScored_eq_spec (sim : List ℚ → List ℚ → ℚ) (vectors : List VectorRow)
    (query : List ℚ) (fil : Metadata) :
    (vectors.filterMap (fun row =>
      if filterOk (some fil) row.2.2 then
        if row.2.1.length = query.length then
          some ((some row.1, sim query row.2.1, row.2.2) : SearchEntry)
        else none
      else none)) = specFilterThenScore sim vectors query fil := by
  have hfun : (fun (row : VectorRow) =>
      if filterOk (some fil) row.2.2 then
        if row.2.1.length = query.length then
          some ((some row.1, sim query row.2.1, row.2.2) : SearchEntry)
        else none
      else none) = (fun (row : VectorRow) =>
      if matchesFilter row.2.2 fil then
        if row.2.1.length = query.length then
          some ((some row.1, sim query row.2.1, row.2.2) : SearchEntry)
        else none
      else none) := by
    funext row
    rw [filterOk_some]
  rw [hfun]
  unfold specFilterThenScore
  induction vectors with
  | nil => rfl
  | cons row rows ih =>
    by_cases h : matchesFilter row.2.2 fil = true
    · by_cases hlen : row.2.1.length = query.length
      · simp [List.filterMap_cons, List.filter_cons, h, hlen, ih]
      · simp [List.filterMap_cons, List.filter_cons, h, hlen, ih]
    · simp [List.filterMap_cons, List.filter_cons, h, ih]

/-- C8: `InMemoryVectorStore.search` equals the claim's two-stage pipeline
(discard rows failing the exact-match metadata filter, then score), returns
at most `top_k` entries, sorted by score descending, and the sort is stable:
entries of any equal score stay in insertion order (their filtered sublist is
unchanged by the sort). -/
theorem C8_vector_search (sim : List ℚ → List ℚ → ℚ) (vectors : List VectorRow)
    (query : List ℚ) (topK : Nat) (fil : Metadata) :
    storeSearch sim vectors query topK (some fil) =
      (sortScoreDesc SearchEntry.score
        (specFilterThenScore sim vectors query fil)).take topK ∧
    (storeSearch sim vectors query topK (some fil)).length ≤ topK ∧
    (storeSearch sim vectors query topK (some fil)).Pairwise
      (fun a b => SearchEntry.score b ≤ SearchEntry.score a) ∧
    ∀ s : ℚ,
      (sortScoreDesc SearchEntry.score
          (specFilterThenScore sim vectors query fil)).filter
          (fun e => decide (SearchEntry.score e = s)) =
        (specFilterThenScore sim vectors query fil).filter
          (fun e => decide (SearchEntry.score e = s)) := by
  have h1 : storeSearch sim vectors query topK (some fil) =
      (sortScoreDesc SearchEntry.score
        (specFilterThenScore sim vectors query fil)).take topK := by
    rw [storeSearch, storeScored_eq_spec]
  refine ⟨h1, ?_, ?_, fun s => sortScoreDesc_stable SearchEntry.score _ s⟩
  · rw [h1]
    exact List.length_take_le topK _
  · rw [h1]
    exact (sortScoreDesc_sorted SearchEntry.score _).sublist (List.take_sublist topK _)


/-! ### Embedding failures degrade, they do not abort (C1) -/

theorem findBestMatch_embed_none (svc : EmbeddingOracle) (cfg : ThresholdConfig)
    (st : MatcherState) (t : String) (d : Nat) (pid : Option String) (thr : ℚ)
    (h : svc.embed t = none) :
    findBestMatch svc cfg st t d pid thr = ((none, 0), st.nextId) := by
  simp [findBestMatch, h]

/-- C1 falsified as stated: with an embedding backend that always fails, a
full classification still resolves a folder path — the domain level answers
`CREATE_NEW` (it does not abort and a folder path is resolved), and the final
path is `"Astronomy/Stars"`. -/
theorem C1_counterexample :
    matchCandidate noEmbedOracle defaultThresholds emptyState cexCand = some c1run ∧
    c1run.1.domain_result.action = MatchAction.CREATE_NEW ∧
    (c1run.1.domain_result.get_folder).isSome = true ∧
    c1run.1.get_final_path = "Astronomy/Stars" ∧
    c1run.1.leaf_result.map (fun r => r.action) = some MatchAction.SKIP := by
  decide

/-- C1 (amended): an embedding-generation failure never aborts.  At the
domain level `_find_best_match` swallows it into a no-match, so the level
degrades to `CREATE_NEW` with a resolved folder; at the subdomain level it
degrades to `ATTACH_AS_CHILD` with a resolved folder; at the optional leaf
level (with confidence at or above the threshold) it degrades to `SKIP`. -/
theorem C1_embedding_failure_degrades :
    (∀ (svc : EmbeddingOracle) (cfg : ThresholdConfig) (st : MatcherState)
       (cand : TaxonomyCandidate),
      svc.embed cand.domain.label = none →
      (matchDomain svc cfg st cand).1.action = MatchAction.CREATE_NEW ∧
      ((matchDomain svc cfg st cand).1.get_folder).isSome = true) ∧
    (∀ (svc : EmbeddingOracle) (cfg : ThresholdConfig) (st : MatcherState)
       (cand : TaxonomyCandidate) (dres : MatchResult) (df : FolderEntity),
      dres.get_folder = some df →
      svc.embed (df.label ++ " > " ++ cand.subdomain.label) = none →
      ∃ r st', matchSubdomain svc cfg st cand dres = some (r, st') ∧
        r.action = MatchAction.ATTACH_AS_CHILD ∧ (r.get_folder).isSome = true) ∧
    (∀ (svc : EmbeddingOracle) (cfg : ThresholdConfig) (st : MatcherState)
       (cand : TaxonomyCandidate) (sdres : MatchResult) (lt : LabelWithAliases)
       (sf : FolderEntity),
      cand.leaf_topic = some lt → lt.optional = true →
      ¬ cand.confidence < cfg.leaf_confidence_threshold →
      sdres.get_folder = some sf →
      svc.embed (sf.path ++ " > " ++ lt.label) = none →
      ∃ r, (matchLeaf svc cfg st cand sdres).1 = some r ∧
        r.action = MatchAction.SKIP) := by
  refine ⟨?_, ?_, ?_⟩
  · intro svc cfg st cand h
    rw [matchDomain, findBestMatch_embed_none svc cfg st _ 1 none _ h]
    exact ⟨rfl, rfl⟩
  · intro svc cfg st cand dres df hg h
    simp only [matchSubdomain, hg]
    rw [findBestMatch_embed_none svc cfg st _ 2 (some df.folder_id) _ h]
    exact ⟨_, _, rfl, rfl, rfl⟩
  · intro svc cfg st cand sdres lt sf hleaf hopt hconf hg h
    simp only [matchLeaf, hleaf]
    rw [if_neg (fun hc => hconf hc.2)]
    simp only [hg]
    rw [findBestMatch_embed_none svc cfg st _ 3 (some sf.folder_id) _ h]
    by_cases hmd : cfg.max_depth ≤ sf.depth
    · rw [if_pos hmd]
      exact ⟨_, rfl, rfl⟩
    · rw [if_neg hmd, if_pos hopt]
      exact ⟨_, rfl, rfl⟩

/-- Witness for the amended C1 at a concrete failing oracle. -/
theorem C1_embedding_failure_degrades_witness :
    (matchDomain noEmbedOracle defaultThresholds emptyState cexCand).1.action =
      MatchAction.CREATE_NEW ∧
    ((matchDomain noEmbedOracle defaultThresholds emptyState cexCand).1.get_folder).isSome
      = true :=
  C1_embedding_failure_degrades.1 noEmbedOracle defaultThresholds emptyState cexCand rfl

/-! ### The selection walk (C3) -/

theorem resolveEntry_of_cacheResolve (st : MatcherState) (d ctr : Nat) (e : SearchEntry)
    (f : FolderEntity) (h : cacheResolve st e = some f) :
    resolveEntry st d ctr e = (some f, ctr) := by
  unfold cacheResolve at h
  unfold resolveEntry
  cases hv : Metadata.get (SearchEntry.md e) "folder_id" with
  | str s =>
    rw [hv] at h
    dsimp only at h
    dsimp only [Option.bind]
    rw [h]
  | nat n => rw [hv] at h; dsimp only at h; cases h
  | bool b => rw [hv] at h; dsimp only at h; cases h
  | null => rw [hv] at h; dsimp only at h; cases h

theorem walk_none_of_all_below (cfg : ThresholdConfig) (st : MatcherState) (text : String)
    (d : Nat) (thr : ℚ) :
    ∀ (l : List SearchEntry) (ctr : Nat),
      (∀ e ∈ l, SearchEntry.score e < thr) →
      walkCandidates cfg st text d thr l ctr = ((none, 0), ctr) := by
  intro l
  induction l with
  | nil => intro ctr _; rfl
  | cons e rest ih =>
    intro ctr h
    have he := h e (List.mem_cons_self e rest)
    simp only [walkCandidates]
    rw [if_pos he]
    exact ih ctr fun x hx => h x (List.mem_cons_of_mem e hx)

theorem walk_skip_below (cfg : ThresholdConfig) (st : MatcherState) (text : String)
    (d : Nat) (thr : ℚ) :
    ∀ (l : List SearchEntry) (ctr : Nat),
      walkCandidates cfg st text d thr l ctr =
        walkCandidates cfg st text d thr
          (l.filter fun e => decide (thr ≤ SearchEntry.score e)) ctr := by
  intro l
  induction l with
  | nil => intro ctr; rfl
  | cons e rest ih =>
    intro ctr
    by_cases he : SearchEntry.score e < thr
    · rw [List.filter_cons_of_neg (by simpa using not_le.mpr he)]
      simp only [walkCandidates]
      rw [if_pos he]
      exact ih ctr
    · rw [List.filter_cons_of_pos (by simpa using not_lt.mp he)]
      simp only [walkCandidates]
      rw [if_neg he, if_neg he]
      rcases hre : resolveEntry st d ctr e with ⟨of, ctr₂⟩
      cases of with
      | some f =>
        dsimp only
        by_cases hs : sanityCheck cfg text f.path (SearchEntry.score e) = true
        · rw [if_pos hs, if_pos hs]
        · rw [if_neg hs, if_neg hs]
          exact ih ctr₂
      | none =>
        dsimp only
        exact ih ctr₂

theorem walk_isSome_of_passer (cfg : ThresholdConfig) (st : MatcherState) (text : String)
    (d : Nat) (thr : ℚ) :
    ∀ (l : List SearchEntry) (ctr : Nat),
      (∃ e ∈ l, thr ≤ SearchEntry.score e ∧ ∃ f, cacheResolve st e = some f ∧
        sanityCheck cfg text f.path (SearchEntry.score e) = true) →
      ((walkCandidates cfg st text d thr l ctr).1.1).isSome = true := by
  intro l
  induction l with
  | nil =>
    rintro ctr ⟨e, he, _⟩
    exact absurd he (List.not_mem_nil e)
  | cons a rest ih =>
    rintro ctr ⟨e, he, hth, f, hcr, hs⟩
    simp only [walkCandidates]
    by_cases ha : SearchEntry.score a < thr
    · rw [if_pos ha]
      rcases List.mem_cons.mp he with rfl | hrest
      · exact absurd hth (not_le.mpr ha)
      · exact ih ctr ⟨e, hrest, hth, f, hcr, hs⟩
    · rw [if_neg ha]
      rcases hre : resolveEntry st d ctr a with ⟨of, ctr₂⟩
      cases of with
      | some g =>
        dsimp only
        by_cases hg : sanityCheck cfg text g.path (SearchEntry.score a) = true
        · rw [if_pos hg]; rfl
        · rw [if_neg hg]
          rcases List.mem_cons.mp he with rfl | hrest
          · have hres := resolveEntry_of_cacheResolve st d ctr e f hcr
            rw [hres] at hre
            injection hre with h1 h2
            injection h1 with h1
            exact absurd (h1 ▸ hs) hg
          · exact ih ctr₂ ⟨e, hrest, hth, f, hcr, hs⟩
      | none =>
        dsimp only
        rcases List.mem_cons.mp he with rfl | hrest
        · have hres := resolveEntry_of_cacheResolve st d ctr e f hcr
          rw [hres] at hre
          injection hre with h1 h2
          cases h1
        · exact ih ctr₂ ⟨e, hrest, hth, f, hcr, hs⟩

theorem walk_some_provenance (cfg : ThresholdConfig) (st : MatcherState) (text : String)
    (d : Nat) (thr : ℚ) :
    ∀ (l : List SearchEntry) (ctr : Nat) (f : FolderEntity) (s : ℚ) (ctr' : Nat),
      walkCandidates cfg st text d thr l ctr = ((some f, s), ctr') →
      ∃ e ∈ l, s = SearchEntry.score e ∧ thr ≤ s ∧
        sanityCheck cfg text f.path s = true := by
  intro l
  induction l with
  | nil =>
    intro ctr f s ctr' h
    simp only [walkCandidates] at h
    simp at h
  | cons a rest ih =>
    intro ctr f s ctr' h
    simp only [walkCandidates] at h
    by_cases ha : SearchEntry.score a < thr
    · rw [if_pos ha] at h
      obtain ⟨e, he, h1, h2, h3⟩ := ih ctr f s ctr' h
      exact ⟨e, List.mem_cons_of_mem a he, h1, h2, h3⟩
    · rw [if_neg ha] at h
      rcases hre : resolveEntry st d ctr a with ⟨of, ctr₂⟩
      rw [hre] at h
      cases of with
      | some g =>
        dsimp only at h
        by_cases hg : sanityCheck cfg text g.path (SearchEntry.score a) = true
        · rw [if_pos hg] at h
          injection h with h1 h2
          injection h1 with h1a h1b
          injection h1a with h1a
          refine ⟨a, List.mem_cons_self a rest, h1b.symm, ?_, ?_⟩
          · rw [← h1b]; exact not_lt.mp ha
          · rw [← h1b, ← h1a]; exact hg
        · rw [if_neg hg] at h
          obtain ⟨e, he, h1, h2, h3⟩ := ih ctr₂ f s ctr' h
          exact ⟨e, List.mem_cons_of_mem a he, h1, h2, h3⟩
      | none =>
        dsimp only at h
        obtain ⟨e, he, h1, h2, h3⟩ := ih ctr₂ f s ctr' h
        exact ⟨e, List.mem_cons_of_mem a he, h1, h2, h3⟩

theorem findBestMatch_some_embed (svc : EmbeddingOracle) (cfg : ThresholdConfig)
    (st : MatcherState) (t : String) (d : Nat) (pid : Option String) (thr : ℚ)
    (q : List ℚ) (hq : svc.embed t = some q) :
    findBestMatch svc cfg st t d pid thr =
      walkCandidates cfg st t d thr (levelCandidates svc st q d pid) st.nextId := by
  unfold findBestMatch levelCandidates
  rw [hq]

theorem matchDomain_of_some (svc : EmbeddingOracle) (cfg : ThresholdConfig)
    (st : MatcherState) (cand : TaxonomyCandidate) (f : FolderEntity) (s : ℚ) (ctr' : Nat)
    (h : findBestMatch svc cfg st cand.domain.label 1 none cfg.domain_threshold =
      ((some f, s), ctr')) :
    (matchDomain svc cfg st cand).1 =
      { level := .DOMAIN, action := .REUSE_EXISTING, matched_folder := some f,
        similarity_score := s, label_used := f.label,
        notes := "Reused existing domain " ++ f.label } := by
  simp only [matchDomain]
  rw [h]

theorem matchDomain_of_none (svc : EmbeddingOracle) (cfg : ThresholdConfig)
    (st : MatcherState) (cand : TaxonomyCandidate) (s : ℚ) (ctr' : Nat)
    (h : findBestMatch svc cfg st cand.domain.label 1 none cfg.domain_threshold =
      ((none, s), ctr')) :
    matchDomain svc cfg st cand =
      (let c := createFolder svc { st with nextId := ctr' } cand.domain.label 1 none
        cand.domain.aliases
       ({ level := .DOMAIN, action := .CREATE_NEW, new_folder := some c.1,
          similarity_score := 0, label_used := c.1.label,
          notes := "Created new domain " ++ c.1.label }, c.2)) := by
  simp only [matchDomain]
  rw [h]

/-- C3: the selection loop of `_find_best_match` skips exactly the candidates
scoring strictly below the threshold (the walk is unchanged by filtering them
away); a domain candidate whose scores are all at most `domain_threshold` but
that contains a cache-resolvable candidate scoring exactly `domain_threshold`
and passing the sanity check is matched with `REUSE_EXISTING` at similarity
exactly `domain_threshold` (the comparison is inclusive); and a domain
candidate whose scores are all strictly below the threshold is not matched:
`match_domain` falls through to `CREATE_NEW` and a fresh depth-1 folder. -/
theorem C3_threshold_walk :
    (∀ (cfg : ThresholdConfig) (st : MatcherState) (text : String) (d : Nat) (thr : ℚ)
       (l : List SearchEntry) (ctr : Nat),
      walkCandidates cfg st text d thr l ctr =
        walkCandidates cfg st text d thr
          (l.filter fun e => decide (thr ≤ SearchEntry.score e)) ctr) ∧
    (∀ (svc : EmbeddingOracle) (cfg : ThresholdConfig) (st : MatcherState)
       (cand : TaxonomyCandidate) (q : List ℚ),
      svc.embed cand.domain.label = some q →
      (∀ e ∈ levelCandidates svc st q 1 none,
        SearchEntry.score e ≤ cfg.domain_threshold) →
      (∃ e ∈ levelCandidates svc st q 1 none,
        SearchEntry.score e = cfg.domain_threshold ∧
        Option.any (fun f => sanityCheck cfg cand.domain.label f.path cfg.domain_threshold)
          (cacheResolve st e) = true) →
      (matchDomain svc cfg st cand).1.action = MatchAction.REUSE_EXISTING ∧
      (matchDomain svc cfg st cand).1.similarity_score = cfg.domain_threshold) ∧
    (∀ (svc : EmbeddingOracle) (cfg : ThresholdConfig) (st : MatcherState)
       (cand : TaxonomyCandidate) (q : List ℚ),
      svc.embed cand.domain.label = some q →
      (∀ e ∈ levelCandidates svc st q 1 none,
        SearchEntry.score e < cfg.domain_threshold) →
      (matchDomain svc cfg st cand).1.action = MatchAction.CREATE_NEW ∧
      ∃ nf, (matchDomain svc cfg st cand).1.new_folder = some nf ∧ nf.depth = 1) := by
  refine ⟨walk_skip_below, ?_, ?_⟩
  · intro svc cfg st cand q hq hall hex
    obtain ⟨e, he, hse, hany⟩ := hex
    have hf : ∃ f, cacheResolve st e = some f ∧
        sanityCheck cfg cand.domain.label f.path (SearchEntry.score e) = true := by
      cases hcr : cacheResolve st e with
      | none => rw [hcr] at hany; cases hany
      | some f =>
        rw [hcr] at hany
        refine ⟨f, rfl, ?_⟩
        rw [hse]
        simpa [Option.any] using hany
    have hsome := walk_isSome_of_passer cfg st cand.domain.label 1 cfg.domain_threshold
      (levelCandidates svc st q 1 none) st.nextId ⟨e, he, le_of_eq hse.symm, hf⟩
    rcases hw : walkCandidates cfg st cand.domain.label 1 cfg.domain_threshold
        (levelCandidates svc st q 1 none) st.nextId with ⟨⟨of, s⟩, ctr'⟩
    rw [hw] at hsome
    cases of with
    | none => cases hsome
    | some f =>
      have hfb : findBestMatch svc cfg st cand.domain.label 1 none cfg.domain_threshold =
          ((some f, s), ctr') := by
        rw [findBestMatch_some_embed svc cfg st cand.domain.label 1 none
          cfg.domain_threshold q hq]
        exact hw
      obtain ⟨e', he', hs', hth', _⟩ := walk_some_provenance cfg st cand.domain.label 1
        cfg.domain_threshold (levelCandidates svc st q 1 none) st.nextId f s ctr' hw
      have hs_eq : s = cfg.domain_threshold := le_antisymm (hs' ▸ hall e' he') hth'
      rw [matchDomain_of_some svc cfg st cand f s ctr' hfb]
      exact ⟨rfl, hs_eq⟩
  · intro svc cfg st cand q hq hall
    have hwalk := walk_none_of_all_below cfg st cand.domain.label 1 cfg.domain_threshold
      (levelCandidates svc st q 1 none) st.nextId hall
    have hfb : findBestMatch svc cfg st cand.domain.label 1 none cfg.domain_threshold =
        ((none, 0), st.nextId) := by
      rw [findBestMatch_some_embed svc cfg st cand.domain.label 1 none
        cfg.domain_threshold q hq]
      exact hwalk
    rw [matchDomain_of_none svc cfg st cand 0 st.nextId hfb]
    refine ⟨rfl, (createFolder svc { st with nextId := st.nextId } cand.domain.label 1 none
      cand.domain.aliases).1, rfl, ?_⟩
    exact (createFolder_fields svc { st with nextId := st.nextId } cand.domain.label 1 none
      cand.domain.aliases).2.2.1

/-- Witness for C3: against a store holding one depth-1 folder `Cooking`,
a query scoring it exactly at the default domain threshold `0.82` is reused
with similarity exactly `0.82`, and one scoring `0.81` creates a new
depth-1 folder. -/
theorem C3_threshold_walk_witness :
    ((matchDomain w3oracle defaultThresholds w3state w3cand).1.action =
        MatchAction.REUSE_EXISTING ∧
      (matchDomain w3oracle defaultThresholds w3state w3cand).1.similarity_score =
        defaultThresholds.domain_threshold) ∧
    ((matchDomain w3oracleLow defaultThresholds w3state w3cand).1.action =
        MatchAction.CREATE_NEW ∧
      ∃ nf, (matchDomain w3oracleLow defaultThresholds w3state w3cand).1.new_folder =
        some nf ∧ nf.depth = 1) :=
  ⟨C3_threshold_walk.2.1 w3oracle defaultThresholds w3state w3cand [1] (by decide)
      (by decide) (by decide),
    C3_threshold_walk.2.2 w3oracleLow defaultThresholds w3state w3cand [1] (by decide)
      (by decide)⟩

/-! ### Re-classification (C4) -/

/-- Counterexample to C4 as stated: re-classifying the same candidate against
the unchanged store with a deterministic embedding function reuses domain and
subdomain and yields the same `final_path`, yet the second call still creates
a folder — a duplicate of the first call's leaf (the leaf search text
`subdomain.path + " > " + label` never matches the stored leaf embedding text
`path.replace("/", " > ")`, so the leaf row scores 0 and falls through to
creation). -/
theorem C4_counterexample :
    matchCandidate c4oracle defaultThresholds emptyState c4cand = some c4run1 ∧
    matchCandidate c4oracle defaultThresholds c4run1.2 c4cand = some c4run2 ∧
    c4run2.1.get_final_path = c4run1.1.get_final_path ∧
    c4run2.1.domain_result.action = MatchAction.REUSE_EXISTING ∧
    c4run2.1.subdomain_result.action = MatchAction.REUSE_EXISTING ∧
    c4run2.1.get_created_folders ≠ [] ∧
    (c4run2.1.get_created_folders.map FolderEntity.path).any
      (fun p => (c4run1.1.get_created_folders.map FolderEntity.path).contains p) = true := by
  decide

/-! ### Infrastructure for the re-classification analysis (C4) -/

theorem storeSearch_eq (sim : List ℚ → List ℚ → ℚ) (vectors : List VectorRow)
    (query : List ℚ) (topK : Nat) (fil : Option Metadata) :
    storeSearch sim vectors query topK fil =
      (sortScoreDesc SearchEntry.score (scoredRows sim vectors query fil)).take topK := rfl

theorem cacheAugment_eq (svc : EmbeddingOracle) (st : MatcherState) (query : List ℚ)
    (depth : Nat) (parentId : Option String) (results : List SearchEntry) :
    cacheAugment svc st query depth parentId results =
      (augCands st depth parentId).foldl (augStep svc query) results := rfl

theorem levelCandidates_eq (svc : EmbeddingOracle) (st : MatcherState) (query : List ℚ)
    (depth : Nat) (parentId : Option String) :
    levelCandidates svc st query depth parentId =
      (let results := (sortScoreDesc SearchEntry.score
          (scoredRows svc.sim st.vectors query (some (levelFilter depth parentId)))).take 5
       sortScoreDesc SearchEntry.score
        (if results.length < 3 then
          (augCands st depth parentId).foldl (augStep svc query) results
         else results)) := rfl

theorem augStep_sub (svc : EmbeddingOracle) (q : List ℚ) (acc : List SearchEntry)
    (f : FolderEntity) : ∀ r ∈ acc, r ∈ augStep svc q acc f := by
  intro r hr
  unfold augStep
  cases hf : f.embedding with
  | none => exact hr
  | some emb =>
    dsimp only
    split_ifs <;> first
      | exact hr
      | exact List.mem_append_left _ hr

theorem augFold_sub (svc : EmbeddingOracle) (q : List ℚ) :
    ∀ (cands : List FolderEntity) (acc : List SearchEntry),
      ∀ r ∈ acc, r ∈ cands.foldl (augStep svc q) acc := by
  intro cands
  induction cands with
  | nil => intro acc r hr; exact hr
  | cons f rest ih =>
    intro acc r hr
    exact ih (augStep svc q acc f) r (augStep_sub svc q acc f r hr)

theorem augFold_sound (svc : EmbeddingOracle) (q : List ℚ) :
    ∀ (cands : List FolderEntity) (acc : List SearchEntry),
      ∀ r ∈ cands.foldl (augStep svc q) acc,
        r ∈ acc ∨ ∃ f ∈ cands, ∃ emb, f.embedding = some emb ∧ emb.isEmpty = false ∧
          emb.length = q.length ∧
          r = (f.embedding_id, svc.sim q emb,
            [("folder_id", MVal.str f.folder_id), ("path", MVal.str f.path)]) := by
  intro cands
  induction cands with
  | nil => intro acc r hr; exact Or.inl hr
  | cons f rest ih =>
    intro acc r hr
    rcases ih (augStep svc q acc f) r hr with hacc | ⟨g, hg, rest'⟩
    · unfold augStep at hacc
      cases hf : f.embedding with
      | none => rw [hf] at hacc; exact Or.inl hacc
      | some emb =>
        rw [hf] at hacc
        dsimp only at hacc
        by_cases h1 : emb.isEmpty = true
        · rw [if_pos h1] at hacc; exact Or.inl hacc
        · rw [if_neg h1] at hacc
          by_cases h2 : emb.length ≠ q.length
          · rw [if_pos h2] at hacc; exact Or.inl hacc
          · rw [if_neg h2] at hacc
            by_cases h3 : (acc.any fun r => r.1 == f.embedding_id) = true
            · rw [if_pos h3] at hacc; exact Or.inl hacc
            · rw [if_neg h3] at hacc
              rcases List.mem_append.mp hacc with h | h
              · exact Or.inl h
              · exact Or.inr ⟨f, List.mem_cons_self f rest, emb, hf,
                  Bool.eq_false_iff.mpr h1, not_ne_iff.mp h2, List.mem_singleton.mp h⟩
    · exact Or.inr ⟨g, List.mem_cons_of_mem f hg, rest'⟩

theorem augFold_covers (svc : EmbeddingOracle) (q : List ℚ) :
    ∀ (cands : List FolderEntity) (acc : List SearchEntry)
      (f : FolderEntity) (emb : List ℚ), f ∈ cands → f.embedding = some emb →
      emb.isEmpty = false → emb.length = q.length →
      ∃ r ∈ cands.foldl (augStep svc q) acc, r.1 = f.embedding_id := by
  intro cands
  induction cands with
  | nil => intro acc f emb hf; exact absurd hf (List.not_mem_nil f)
  | cons g rest ih =>
    intro acc f emb hf hfe h1 h2
    rcases List.mem_cons.mp hf with rfl | hrest
    · rw [List.foldl_cons]
      by_cases h3 : (acc.any fun r => r.1 == f.embedding_id) = true
      · obtain ⟨r, hr, hrq⟩ := List.any_eq_true.mp h3
        exact ⟨r, augFold_sub svc q rest _ r (augStep_sub svc q acc f r hr),
          by simpa using hrq⟩
      · have hstep : augStep svc q acc f = acc ++ [(f.embedding_id, svc.sim q emb,
            [("folder_id", MVal.str f.folder_id), ("path", MVal.str f.path)])] := by
          unfold augStep
          rw [hfe]
          dsimp only
          rw [if_neg (by simp [h1]), if_neg (not_ne_iff.mpr h2), if_neg h3]
        refine ⟨(f.embedding_id, svc.sim q emb,
          [("folder_id", MVal.str f.folder_id), ("path", MVal.str f.path)]),
          augFold_sub svc q rest _ _ ?_, rfl⟩
        rw [hstep]
        exact List.mem_append_right _ (List.mem_singleton.mpr rfl)
    · exact ih (augStep svc q acc g) f emb hrest hfe h1 h2

theorem ins_erase {β : Type} (key : β → ℚ) (y x : β) :
    ∀ (u v : List β), (∀ b ∈ v, key b ≤ key x) →
      ∃ u' v', insertScoreDesc key y (u ++ x :: v) = u' ++ x :: v' ∧
        insertScoreDesc key y (u ++ v) = u' ++ v' ∧ (∀ b ∈ v', key b ≤ key x) := by
  intro u
  induction u with
  | nil =>
    intro v hv
    by_cases hxy : key x ≤ key y
    · refine ⟨[y], v, ?_, ?_, hv⟩
      · show (if key x ≤ key y then y :: x :: v else x :: insertScoreDesc key y v) =
          [y] ++ x :: v
        rw [if_pos hxy]
        rfl
      · cases v with
        | nil => simp [insertScoreDesc]
        | cons w ws =>
          show (if key w ≤ key y then y :: w :: ws else w :: insertScoreDesc key y ws) =
            [y] ++ w :: ws
          rw [if_pos (le_trans (hv w (List.mem_cons_self w ws)) hxy)]
          rfl
    · refine ⟨[], insertScoreDesc key y v, ?_, ?_, ?_⟩
      · show (if key x ≤ key y then y :: x :: v else x :: insertScoreDesc key y v) =
          [] ++ x :: insertScoreDesc key y v
        rw [if_neg hxy]
        rfl
      · simp
      · intro b hb
        rcases List.mem_cons.mp ((insertScoreDesc_perm key y v).mem_iff.mp hb) with rfl | hbv
        · exact le_of_not_le hxy
        · exact hv b hbv
  | cons a u₀ ih =>
    intro v hv
    by_cases hay : key a ≤ key y
    · refine ⟨y :: a :: u₀, v, ?_, ?_, hv⟩
      · show (if key a ≤ key y then y :: a :: (u₀ ++ x :: v)
            else a :: insertScoreDesc key y (u₀ ++ x :: v)) = (y :: a :: u₀) ++ x :: v
        rw [if_pos hay]
        rfl
      · show (if key a ≤ key y then y :: a :: (u₀ ++ v)
            else a :: insertScoreDesc key y (u₀ ++ v)) = (y :: a :: u₀) ++ v
        rw [if_pos hay]
        rfl
    · obtain ⟨u', v', h1, h2, h3⟩ := ih v hv
      refine ⟨a :: u', v', ?_, ?_, h3⟩
      · show (if key a ≤ key y then y :: a :: (u₀ ++ x :: v)
            else a :: insertScoreDesc key y (u₀ ++ x :: v)) = (a :: u') ++ x :: v'
        rw [if_neg hay, h1]
        rfl
      · show (if key a ≤ key y then y :: a :: (u₀ ++ v)
            else a :: insertScoreDesc key y (u₀ ++ v)) = (a :: u') ++ v'
        rw [if_neg hay, h2]
        rfl

theorem sortScoreDesc_append_one {β : Type} (key : β → ℚ) (l : List β) (x : β) :
    ∃ u v, sortScoreDesc key (l ++ [x]) = u ++ x :: v ∧
      sortScoreDesc key l = u ++ v ∧ (∀ b ∈ v, key b ≤ key x) := by
  induction l with
  | nil => exact ⟨[], [], rfl, rfl, by simp⟩
  | cons y l ih =>
    obtain ⟨u, v, h1, h2, h3⟩ := ih
    obtain ⟨u', v', g1, g2, g3⟩ := ins_erase key y x u v h3
    refine ⟨u', v', ?_, ?_, g3⟩
    · rw [show (y :: l) ++ [x] = y :: (l ++ [x]) from rfl, sortScoreDesc_cons, h1, g1]
    · rw [sortScoreDesc_cons, h2, g2]

theorem take_sub_take {β : Type} (l : List β) (m n : Nat) (h : m ≤ n) :
    ∀ e ∈ l.take m, e ∈ l.take n := by
  intro e he
  have heq : l.take m = (l.take n).take m := by rw [List.take_take, Nat.min_eq_left h]
  rw [heq] at he
  exact List.take_subset m (l.take n) he

theorem mem_take_sortScoreDesc_append {β : Type} (key : β → ℚ) (l : List β) (x : β)
    (k : Nat) (e : β) (he : e ∈ (sortScoreDesc key (l ++ [x])).take k) :
    e = x ∨ e ∈ (sortScoreDesc key l).take k := by
  obtain ⟨u, v, h1, h2, h3⟩ := sortScoreDesc_append_one key l x
  rw [h1] at he
  rw [h2]
  rw [List.take_append_eq_append_take] at he ⊢
  rcases List.mem_append.mp he with h | h
  · exact Or.inr (List.mem_append_left _ h)
  · cases hk : k - u.length with
    | zero => rw [hk] at h; simp at h
    | succ m =>
      rw [hk] at h
      rw [List.take_succ_cons] at h
      rcases List.mem_cons.mp h with rfl | h
      · exact Or.inl rfl
      · exact Or.inr (List.mem_append_right _
          (take_sub_take v m (m + 1) (Nat.le_succ m) e h))

theorem sanity_false_le (cfg : ThresholdConfig) (a b : String) (s : ℚ)
    (h : sanityCheck cfg a b s = false) : s ≤ mkRat 95 100 := by
  by_cases hs : mkRat 95 100 < s
  · rw [sanityCheck, if_pos hs] at h; cases h
  · exact not_lt.mp hs

theorem sanity_big_accepts (cfg : ThresholdConfig) (a b : String) (s : ℚ)
    (h : mkRat 95 100 < s) : sanityCheck cfg a b s = true := by
  rw [sanityCheck, if_pos h]

theorem lookup_append_some {β : Type} (k : String) (l₁ l₂ : List (String × β)) (v : β)
    (h : List.lookup k l₁ = some v) : List.lookup k (l₁ ++ l₂) = some v := by
  induction l₁ with
  | nil => cases h
  | cons p tl ih =>
    rw [lookup_cons_eq] at h
    rw [List.cons_append, lookup_cons_eq]
    by_cases hk : k = p.1
    · rw [if_pos hk] at h ⊢; exact h
    · rw [if_neg hk] at h ⊢; exact ih h

theorem lookup_append_left_none {β : Type} (k : String) (l₁ l₂ : List (String × β))
    (h : List.lookup k l₁ = none) : List.lookup k (l₁ ++ l₂) = List.lookup k l₂ := by
  induction l₁ with
  | nil => rfl
  | cons p tl ih =>
    rw [lookup_cons_eq] at h
    rw [List.cons_append, lookup_cons_eq]
    by_cases hk : k = p.1
    · rw [if_pos hk] at h; cases h
    · rw [if_neg hk] at h ⊢; exact ih h

theorem lookup_eq_none_forall {β : Type} (k : String) (l : List (String × β)) :
    List.lookup k l = none ↔ ∀ p ∈ l, p.1 ≠ k := by
  induction l with
  | nil => simp
  | cons p tl ih =>
    rw [lookup_cons_eq]
    by_cases hk : k = p.1
    · rw [if_pos hk]
      simp only [List.mem_cons]
      constructor
      · intro h; cases h
      · intro h; exact absurd hk.symm (h p (Or.inl rfl))
    · rw [if_neg hk]
      simp only [List.mem_cons]
      constructor
      · intro h q hq
        rcases hq with rfl | hq
        · exact fun hc => hk hc.symm
        · exact ih.mp h q hq
      · intro h
        exact ih.mpr fun q hq => h q (Or.inr hq)

theorem mem_fst_of_lookup_some {β : Type} {k : String} {l : List (String × β)} {v : β}
    (h : List.lookup k l = some v) : k ∈ l.map Prod.fst := by
  by_contra hmem
  have : List.lookup k l = none := by
    rw [lookup_eq_none_forall]
    intro p hp hpk
    exact hmem (hpk ▸ List.mem_map_of_mem Prod.fst hp)
  rw [this] at h
  cases h

theorem cacheResolve_mono (stA stB : MatcherState) (e : SearchEntry) (f : FolderEntity)
    (hcons : ∀ k g, List.lookup k stA.folderCache = some g →
      List.lookup k stB.folderCache = some g)
    (h : cacheResolve stA e = some f) : cacheResolve stB e = some f := by
  unfold cacheResolve at h ⊢
  cases hv : Metadata.get (SearchEntry.md e) "folder_id" with
  | str s =>
    rw [hv] at h
    dsimp only at h
    dsimp only
    exact hcons s f h
  | nat n => rw [hv] at h; dsimp only at h; cases h
  | bool b => rw [hv] at h; dsimp only at h; cases h
  | null => rw [hv] at h; dsimp only at h; cases h

theorem walk_ext (cfg : ThresholdConfig) (stA stB : MatcherState) (text : String)
    (d : Nat) (thr : ℚ)
    (hcons : ∀ k g, List.lookup k stA.folderCache = some g →
      List.lookup k stB.folderCache = some g) :
    ∀ (l : List SearchEntry) (ctr : Nat),
      (∀ e ∈ l, ∃ f, cacheResolve stA e = some f) →
      walkCandidates cfg stB text d thr l ctr =
        walkCandidates cfg stA text d thr l ctr := by
  intro l
  induction l with
  | nil => intro ctr _; rfl
  | cons e rest ih =>
    intro ctr hres
    obtain ⟨f, hf⟩ := hres e (List.mem_cons_self e rest)
    have hfB := cacheResolve_mono stA stB e f hcons hf
    simp only [walkCandidates]
    by_cases hlt : SearchEntry.score e < thr
    · rw [if_pos hlt, if_pos hlt]
      exact ih ctr fun x hx => hres x (List.mem_cons_of_mem e hx)
    · rw [if_neg hlt, if_neg hlt]
      rw [resolveEntry_of_cacheResolve stB d ctr e f hfB,
        resolveEntry_of_cacheResolve stA d ctr e f hf]
      dsimp only
      by_cases hs : sanityCheck cfg text f.path (SearchEntry.score e) = true
      · rw [if_pos hs, if_pos hs]
      · rw [if_neg hs, if_neg hs]
        exact ih ctr fun x hx => hres x (List.mem_cons_of_mem e hx)

theorem walk_ctr_irrel (cfg : ThresholdConfig) (st : MatcherState) (text : String)
    (d : Nat) (thr : ℚ) :
    ∀ (l : List SearchEntry) (ctr ctr' : Nat),
      (∀ e ∈ l, ∃ f, cacheResolve st e = some f) →
      (walkCandidates cfg st text d thr l ctr).1 =
        (walkCandidates cfg st text d thr l ctr').1 := by
  intro l
  induction l with
  | nil => intro ctr ctr' _; rfl
  | cons e rest ih =>
    intro ctr ctr' hres
    obtain ⟨f, hf⟩ := hres e (List.mem_cons_self e rest)
    simp only [walkCandidates]
    by_cases hlt : SearchEntry.score e < thr
    · rw [if_pos hlt, if_pos hlt]
      exact ih ctr ctr' fun x hx => hres x (List.mem_cons_of_mem e hx)
    · rw [if_neg hlt, if_neg hlt]
      rw [resolveEntry_of_cacheResolve st d ctr e f hf,
        resolveEntry_of_cacheResolve st d ctr' e f hf]
      dsimp only
      by_cases hs : sanityCheck cfg text f.path (SearchEntry.score e) = true
      · rw [if_pos hs, if_pos hs]
      · rw [if_neg hs, if_neg hs]
        exact ih ctr ctr' fun x hx => hres x (List.mem_cons_of_mem e hx)

theorem walk_none_forall (cfg : ThresholdConfig) (st : MatcherState) (text : String)
    (d : Nat) (thr : ℚ) :
    ∀ (l : List SearchEntry) (ctr : Nat),
      ((walkCandidates cfg st text d thr l ctr).1).1 = none →
      ∀ e ∈ l, ∀ f, cacheResolve st e = some f →
        SearchEntry.score e < thr ∨
          sanityCheck cfg text f.path (SearchEntry.score e) = false := by
  intro l
  induction l with
  | nil => intro ctr _ e he; exact absurd he (List.not_mem_nil e)
  | cons a rest ih =>
    intro ctr h e he f hf
    simp only [walkCandidates] at h
    by_cases ha : SearchEntry.score a < thr
    · rw [if_pos ha] at h
      rcases List.mem_cons.mp he with rfl | hrest
      · exact Or.inl ha
      · exact ih ctr h e hrest f hf
    · rw [if_neg ha] at h
      rcases hre : resolveEntry st d ctr a with ⟨of, ctr₂⟩
      rw [hre] at h
      cases of with
      | some g =>
        dsimp only at h
        by_cases hg : sanityCheck cfg text g.path (SearchEntry.score a) = true
        · rw [if_pos hg] at h
          simp at h
        · rw [if_neg hg] at h
          rcases List.mem_cons.mp he with rfl | hrest
          · have hres := resolveEntry_of_cacheResolve st d ctr e f hf
            rw [hres] at hre
            injection hre with hre1 hre2
            injection hre1 with hre1
            refine Or.inr ?_
            rw [hre1]
            exact Bool.eq_false_iff.mpr hg
          · exact ih ctr₂ h e hrest f hf
      | none =>
        dsimp only at h
        rcases List.mem_cons.mp he with rfl | hrest
        · have hres := resolveEntry_of_cacheResolve st d ctr e f hf
          rw [hres] at hre
          injection hre with hre1 hre2
          cases hre1
        · exact ih ctr₂ h e hrest f hf

theorem walk_resolve_cases (cfg : ThresholdConfig) (st : MatcherState) (text : String)
    (d : Nat) (thr : ℚ) :
    ∀ (l : List SearchEntry) (ctr : Nat),
      (∀ e ∈ l, ∃ f, cacheResolve st e = some f) →
      (walkCandidates cfg st text d thr l ctr).2 = ctr ∧
      ((walkCandidates cfg st text d thr l ctr).1 = (none, 0) ∨
        ∃ e ∈ l, ∃ f, cacheResolve st e = some f ∧
          (walkCandidates cfg st text d thr l ctr).1 = (some f, SearchEntry.score e) ∧
          thr ≤ SearchEntry.score e ∧
          sanityCheck cfg text f.path (SearchEntry.score e) = true) := by
  intro l
  induction l with
  | nil => intro ctr _; exact ⟨rfl, Or.inl rfl⟩
  | cons a rest ih =>
    intro ctr hres
    obtain ⟨f, hf⟩ := hres a (List.mem_cons_self a rest)
    simp only [walkCandidates]
    by_cases ha : SearchEntry.score a < thr
    · rw [if_pos ha]
      obtain ⟨h1, h2⟩ := ih ctr fun x hx => hres x (List.mem_cons_of_mem a hx)
      refine ⟨h1, ?_⟩
      rcases h2 with h2 | ⟨e, he, g, hg, hw, hth, hs⟩
      · exact Or.inl h2
      · exact Or.inr ⟨e, List.mem_cons_of_mem a he, g, hg, hw, hth, hs⟩
    · rw [if_neg ha]
      rw [resolveEntry_of_cacheResolve st d ctr a f hf]
      dsimp only
      by_cases hs : sanityCheck cfg text f.path (SearchEntry.score a) = true
      · rw [if_pos hs]
        exact ⟨rfl, Or.inr ⟨a, List.mem_cons_self a rest, f, hf, rfl, not_lt.mp ha, hs⟩⟩
      · rw [if_neg hs]
        obtain ⟨h1, h2⟩ := ih ctr fun x hx => hres x (List.mem_cons_of_mem a hx)
        refine ⟨h1, ?_⟩
        rcases h2 with h2 | ⟨e, he, g, hg, hw, hth, hs'⟩
        · exact Or.inl h2
        · exact Or.inr ⟨e, List.mem_cons_of_mem a he, g, hg, hw, hth, hs'⟩

theorem mem_scoredRows (sim : List ℚ → List ℚ → ℚ) (vectors : List VectorRow)
    (q : List ℚ) (fil : Option Metadata) (e : SearchEntry)
    (he : e ∈ scoredRows sim vectors q fil) :
    ∃ row ∈ vectors, filterOk fil row.2.2 = true ∧ row.2.1.length = q.length ∧
      e = (some row.1, sim q row.2.1, row.2.2) := by
  obtain ⟨row, hrow, heq⟩ := List.mem_filterMap.mp he
  obtain ⟨vid, emb, md⟩ := row
  dsimp only at heq
  by_cases hfil : filterOk fil md = true
  · rw [if_pos hfil] at heq
    by_cases hlen : emb.length = q.length
    · rw [if_pos hlen] at heq
      injection heq with heq
      exact ⟨(vid, emb, md), hrow, hfil, hlen, heq.symm⟩
    · rw [if_neg hlen] at heq; cases heq
  · rw [if_neg hfil] at heq; cases heq

theorem augCands_sub (st : MatcherState) (d : Nat) (pid : Option String) :
    ∀ f ∈ augCands st d pid, f ∈ st.byDepth d := by
  intro f hf
  unfold augCands at hf
  cases pid with
  | none => exact hf
  | some p =>
    dsimp only at hf
    by_cases hp : (p == "") = true
    · rw [if_pos hp] at hf; exact hf
    · rw [if_neg hp] at hf; exact List.mem_of_mem_filter hf

theorem mem_levelCandidates (svc : EmbeddingOracle) (st : MatcherState) (q : List ℚ)
    (d : Nat) (pid : Option String) (e : SearchEntry)
    (he : e ∈ levelCandidates svc st q d pid) :
    (∃ row ∈ st.vectors, filterOk (some (levelFilter d pid)) row.2.2 = true ∧
      row.2.1.length = q.length ∧ e = (some row.1, svc.sim q row.2.1, row.2.2)) ∨
    (∃ f ∈ augCands st d pid, ∃ emb, f.embedding = some emb ∧ emb.isEmpty = false ∧
      emb.length = q.length ∧
      e = (f.embedding_id, svc.sim q emb,
        [("folder_id", MVal.str f.folder_id), ("path", MVal.str f.path)])) := by
  rw [levelCandidates_eq] at he
  dsimp only at he
  have hstore : ∀ x : SearchEntry, x ∈ (sortScoreDesc SearchEntry.score
      (scoredRows svc.sim st.vectors q (some (levelFilter d pid)))).take 5 →
      ∃ row ∈ st.vectors, filterOk (some (levelFilter d pid)) row.2.2 = true ∧
        row.2.1.length = q.length ∧ x = (some row.1, svc.sim q row.2.1, row.2.2) := by
    intro x hx
    exact mem_scoredRows svc.sim st.vectors q (some (levelFilter d pid)) x
      (mem_sortScoreDesc.mp (List.take_subset 5 _ hx))
  by_cases hlen : ((sortScoreDesc SearchEntry.score
      (scoredRows svc.sim st.vectors q (some (levelFilter d pid)))).take 5).length < 3
  · rw [if_pos hlen] at he
    rcases augFold_sound svc q (augCands st d pid) _ e (mem_sortScoreDesc.mp he) with
      hr | ⟨f, hfc, emb, hemb, h1, h2, heq⟩
    · exact Or.inl (hstore e hr)
    · exact Or.inr ⟨f, hfc, emb, hemb, h1, h2, heq⟩
  · rw [if_neg hlen] at he
    exact Or.inl (hstore e (mem_sortScoreDesc.mp he))

theorem filterOk_levelFilter_depth (d : Nat) (pid : Option String) (md : Metadata)
    (h : filterOk (some (levelFilter d pid)) md = true) :
    Metadata.get md "depth" = MVal.nat d := by
  unfold filterOk at h
  dsimp only at h
  have hne : (levelFilter d pid).isEmpty = false := rfl
  rw [if_neg (by rw [hne]; simp)] at h
  have hall := List.all_eq_true.mp h
  have hmem : (("depth", MVal.nat d) : String × MVal) ∈ levelFilter d pid := by
    unfold levelFilter
    exact List.mem_append_left _ (by simp)
  have hd := hall ("depth", MVal.nat d) hmem
  simpa using hd

theorem cacheResolve_store_row (st : MatcherState) (hwf : WFState st) (vid : String)
    (emb : List ℚ) (md : Metadata) (hrow : (vid, (emb, md)) ∈ st.vectors) (s : ℚ) :
    ∃ f, cacheResolve st ((some vid, s, md) : SearchEntry) = some f ∧
      (Metadata.get md "depth" = MVal.nat 1 → f.path = f.label ∧ '/' ∉ f.path.data) := by
  obtain ⟨fid, f, hfid, hlk, hshape⟩ := hwf.store_res (vid, (emb, md)) hrow
  refine ⟨f, ?_, hshape⟩
  unfold cacheResolve
  show (match Metadata.get md "folder_id" with
    | MVal.str fid => List.lookup fid st.folderCache
    | _ => none) = some f
  rw [hfid]
  exact hlk

theorem cacheResolve_aug_entry (st : MatcherState) (hwf : WFState st) (d : Nat)
    (f : FolderEntity) (hf : f ∈ st.byDepth d) (oid : Option String) (s : ℚ) :
    cacheResolve st ((oid, s,
      [("folder_id", MVal.str f.folder_id), ("path", MVal.str f.path)]) : SearchEntry) =
      some f := by
  unfold cacheResolve
  show (match Metadata.get [("folder_id", MVal.str f.folder_id), ("path", MVal.str f.path)]
      "folder_id" with
    | MVal.str fid => List.lookup fid st.folderCache
    | _ => none) = some f
  have hget : Metadata.get
      [("folder_id", MVal.str f.folder_id), ("path", MVal.str f.path)] "folder_id" =
      MVal.str f.folder_id := rfl
  rw [hget]
  exact hwf.byd_mem d f hf

theorem levelCandidates_resolve (svc : EmbeddingOracle) (st : MatcherState)
    (hwf : WFState st) (q : List ℚ) (d : Nat) (pid : Option String) :
    ∀ e ∈ levelCandidates svc st q d pid, ∃ f, cacheResolve st e = some f ∧
      (d = 1 → f.path = f.label ∧ '/' ∉ f.path.data) := by
  intro e he
  rcases mem_levelCandidates svc st q d pid e he with
    ⟨row, hrow, hfil, hlen, heq⟩ | ⟨f, hfc, emb, hemb, h1, h2, heq⟩
  · subst heq
    obtain ⟨f, hres, hshape⟩ := cacheResolve_store_row st hwf row.1 row.2.1 row.2.2 hrow
      (svc.sim q row.2.1)
    exact ⟨f, hres, fun hd1 => hshape (hd1 ▸ filterOk_levelFilter_depth d pid row.2.2 hfil)⟩
  · subst heq
    refine ⟨f, cacheResolve_aug_entry st hwf d f (augCands_sub st d pid f hfc) _ _, ?_⟩
    intro hd1
    exact hwf.byd1_shape f (by
      have := augCands_sub st d pid f hfc
      rw [hd1] at this
      exact this)

theorem row_of_eid (st : MatcherState) (hwf : WFState st) (d : Nat) (f : FolderEntity)
    (hf : f ∈ st.byDepth d) (emb : List ℚ) (hemb : f.embedding = some emb)
    (row : VectorRow) (hrow : row ∈ st.vectors) (hid : some row.1 = f.embedding_id) :
    row.2.1 = emb ∧ Metadata.get row.2.2 "folder_id" = MVal.str f.folder_id := by
  obtain ⟨eid, md, heid, hlk, hmd⟩ := hwf.emb_link d f hf emb hemb
  rw [heid] at hid
  injection hid with hid
  have hlk2 := lookup_eq_of_mem_of_nodup hwf.vec_nodup hrow
  rw [hid] at hlk2
  rw [hlk2] at hlk
  injection hlk with hlk
  constructor
  · rw [hlk]
  · rw [hlk]
    exact hmd

theorem eid_unique (st : MatcherState) (hwf : WFState st) (d d' : Nat)
    (f g : FolderEntity) (hf : f ∈ st.byDepth d) (hg : g ∈ st.byDepth d')
    (ef eg : List ℚ) (hef : f.embedding = some ef) (heg : g.embedding = some eg)
    (hid : f.embedding_id = g.embedding_id) : f = g ∧ ef = eg := by
  obtain ⟨e1, m1, h1, l1, fd1⟩ := hwf.emb_link d f hf ef hef
  obtain ⟨e2, m2, h2, l2, fd2⟩ := hwf.emb_link d' g hg eg heg
  rw [h1, h2] at hid
  injection hid with hid
  rw [hid] at l1
  rw [l2] at l1
  injection l1 with l1
  have hm : m1 = m2 := congrArg Prod.snd l1.symm
  have hemb : ef = eg := congrArg Prod.fst l1.symm
  rw [hm] at fd1
  rw [fd2] at fd1
  injection fd1 with ffid
  have hcf := hwf.byd_mem d f hf
  have hcg := hwf.byd_mem d' g hg
  rw [← ffid] at hcf
  rw [hcg] at hcf
  injection hcf with hcf
  exact ⟨hcf.symm, hemb⟩

theorem sortScoreDesc_length {β : Type} (key : β → ℚ) (l : List β) :
    (sortScoreDesc key l).length = l.length :=
  (sortScoreDesc_perm key l).length_eq

theorem cacheResolve_entry_of_md (st : MatcherState) (e : SearchEntry) (fid : String)
    (f : FolderEntity) (hmd : Metadata.get (SearchEntry.md e) "folder_id" = MVal.str fid)
    (hlk : List.lookup fid st.folderCache = some f) : cacheResolve st e = some f := by
  unfold cacheResolve
  rw [hmd]
  exact hlk

theorem results_sub_levelCandidates (svc : EmbeddingOracle) (st : MatcherState)
    (q : List ℚ) (d : Nat) (pid : Option String) :
    ∀ x ∈ (sortScoreDesc SearchEntry.score
        (scoredRows svc.sim st.vectors q (some (levelFilter d pid)))).take 5,
      x ∈ levelCandidates svc st q d pid := by
  intro x hx
  rw [levelCandidates_eq]
  dsimp only
  by_cases hl : ((sortScoreDesc SearchEntry.score
      (scoredRows svc.sim st.vectors q (some (levelFilter d pid)))).take 5).length < 3
  · rw [if_pos hl]
    exact mem_sortScoreDesc.mpr (augFold_sub svc q _ _ x hx)
  · rw [if_neg hl]
    exact mem_sortScoreDesc.mpr hx

theorem fbm_nextId (svc : EmbeddingOracle) (cfg : ThresholdConfig) (st : MatcherState)
    (hwf : WFState st) (t : String) (d : Nat) (pid : Option String) (thr : ℚ) :
    (findBestMatch svc cfg st t d pid thr).2 = st.nextId := by
  cases hq : svc.embed t with
  | none => rw [findBestMatch_embed_none svc cfg st t d pid thr hq]
  | some q =>
    rw [findBestMatch_some_embed svc cfg st t d pid thr q hq]
    exact (walk_resolve_cases cfg st t d thr (levelCandidates svc st q d pid) st.nextId
      (fun e he => (levelCandidates_resolve svc st hwf q d pid e he).imp
        fun f hf => hf.1)).1

theorem fbm_cases (svc : EmbeddingOracle) (cfg : ThresholdConfig) (st : MatcherState)
    (hwf : WFState st) (t : String) (d : Nat) (pid : Option String) (thr : ℚ)
    (q : List ℚ) (hq : svc.embed t = some q) :
    findBestMatch svc cfg st t d pid thr = ((none, 0), st.nextId) ∨
    ∃ f s, findBestMatch svc cfg st t d pid thr = ((some f, s), st.nextId) ∧
      thr ≤ s ∧ sanityCheck cfg t f.path s = true ∧
      (d = 1 → f.path = f.label ∧ '/' ∉ f.path.data) := by
  rw [findBestMatch_some_embed svc cfg st t d pid thr q hq]
  have hres : ∀ e ∈ levelCandidates svc st q d pid, ∃ f, cacheResolve st e = some f :=
    fun e he => (levelCandidates_resolve svc st hwf q d pid e he).imp fun f hf => hf.1
  obtain ⟨hctr, hval⟩ := walk_resolve_cases cfg st t d thr
    (levelCandidates svc st q d pid) st.nextId hres
  rcases hval with hnone | ⟨e, he, f, hf, hw, hth, hs⟩
  · exact Or.inl (Prod.ext hnone hctr)
  · refine Or.inr ⟨f, SearchEntry.score e, Prod.ext hw hctr, hth, hs, ?_⟩
    obtain ⟨g, hg, hshape⟩ := levelCandidates_resolve svc st hwf q d pid e he
    rw [hf] at hg
    injection hg with hg
    subst hg
    exact hshape

theorem levelCandidates_ext (svc : EmbeddingOracle) (stA stB : MatcherState) (q : List ℚ)
    (d : Nat) (pid : Option String)
    (hsc : scoredRows svc.sim stB.vectors q (some (levelFilter d pid)) =
      scoredRows svc.sim stA.vectors q (some (levelFilter d pid)))
    (haug : augCands stB d pid = augCands stA d pid) :
    levelCandidates svc stB q d pid = levelCandidates svc stA q d pid := by
  rw [levelCandidates_eq, levelCandidates_eq, hsc, haug]

theorem fbm_reuse_replay (svc : EmbeddingOracle) (cfg : ThresholdConfig)
    (stA stB : MatcherState) (hwfA : WFState stA)
    (hcons : ∀ k g, List.lookup k stA.folderCache = some g →
      List.lookup k stB.folderCache = some g)
    (t : String) (d : Nat) (pid : Option String) (thr : ℚ) (q : List ℚ)
    (hq : svc.embed t = some q)
    (hsc : scoredRows svc.sim stB.vectors q (some (levelFilter d pid)) =
      scoredRows svc.sim stA.vectors q (some (levelFilter d pid)))
    (haug : augCands stB d pid = augCands stA d pid) :
    findBestMatch svc cfg stB t d pid thr =
      ((findBestMatch svc cfg stA t d pid thr).1, stB.nextId) := by
  rw [findBestMatch_some_embed svc cfg stB t d pid thr q hq,
    findBestMatch_some_embed svc cfg stA t d pid thr q hq,
    levelCandidates_ext svc stA stB q d pid hsc haug]
  have hres : ∀ e ∈ levelCandidates svc stA q d pid, ∃ f, cacheResolve stA e = some f :=
    fun e he => (levelCandidates_resolve svc stA hwfA q d pid e he).imp fun f hf => hf.1
  rw [walk_ext cfg stA stB t d thr hcons (levelCandidates svc stA q d pid)
    stB.nextId hres]
  exact Prod.ext
    (walk_ctr_irrel cfg stA t d thr (levelCandidates svc stA q d pid)
      stB.nextId stA.nextId hres)
    (walk_resolve_cases cfg stA t d thr (levelCandidates svc stA q d pid)
      stB.nextId hres).1

theorem fbm_create_replay (svc : EmbeddingOracle) (cfg : ThresholdConfig)
    (stA stB : MatcherState) (hwfA : WFState stA)
    (hcons : ∀ k g, List.lookup k stA.folderCache = some g →
      List.lookup k stB.folderCache = some g)
    (t : String) (d : Nat) (pid : Option String) (thr : ℚ) (q : List ℚ)
    (hq : svc.embed t = some q)
    (N : FolderEntity) (Ne : SearchEntry)
    (hsc : scoredRows svc.sim stB.vectors q (some (levelFilter d pid)) =
      scoredRows svc.sim stA.vectors q (some (levelFilter d pid)) ++ [Ne])
    (haug : augCands stB d pid = augCands stA d pid ++ [N])
    (hNres : cacheResolve stB Ne = some N)
    (hNcache : List.lookup N.folder_id stB.folderCache = some N)
    (hNemb : ∀ emb, N.embedding = some emb → svc.sim q emb = SearchEntry.score Ne)
    (hfail : ∀ e ∈ levelCandidates svc stA q d pid, ∀ f, cacheResolve stA e = some f →
      entryFails cfg t thr f (SearchEntry.score e)) :
    findBestMatch svc cfg stB t d pid thr = ((none, 0), stB.nextId) ∨
    findBestMatch svc cfg stB t d pid thr =
      ((some N, SearchEntry.score Ne), stB.nextId) := by
  have hcharStore : ∀ x ∈ (sortScoreDesc SearchEntry.score
      (scoredRows svc.sim stB.vectors q (some (levelFilter d pid)))).take 5,
      x = Ne ∨ x ∈ (sortScoreDesc SearchEntry.score
        (scoredRows svc.sim stA.vectors q (some (levelFilter d pid)))).take 5 := by
    intro x hx
    rw [hsc] at hx
    exact mem_take_sortScoreDesc_append SearchEntry.score _ Ne 5 x hx
  have holdRes : ∀ e ∈ levelCandidates svc stA q d pid, ∃ f, cacheResolve stB e = some f ∧
      entryFails cfg t thr f (SearchEntry.score e) := by
    intro e he
    obtain ⟨f, hf, _⟩ := levelCandidates_resolve svc stA hwfA q d pid e he
    exact ⟨f, cacheResolve_mono stA stB e f hcons hf, hfail e he f hf⟩
  have hchar : ∀ e ∈ levelCandidates svc stB q d pid, ∃ f, cacheResolve stB e = some f ∧
      (entryFails cfg t thr f (SearchEntry.score e) ∨
        (f = N ∧ SearchEntry.score e = SearchEntry.score Ne)) := by
    intro e he
    rw [levelCandidates_eq] at he
    dsimp only at he
    by_cases hlB : ((sortScoreDesc SearchEntry.score
        (scoredRows svc.sim stB.vectors q (some (levelFilter d pid)))).take 5).length < 3
    · rw [if_pos hlB] at he
      have he' := mem_sortScoreDesc.mp he
      rw [haug] at he'
      rcases augFold_sound svc q _ _ e he' with hr | ⟨g, hgmem, emb, hgemb, hni, hlen, heq⟩
      · rcases hcharStore e hr with rfl | hold
        · exact ⟨N, hNres, Or.inr ⟨rfl, rfl⟩⟩
        · obtain ⟨f, hfB, hff⟩ := holdRes e (results_sub_levelCandidates svc stA q d pid e hold)
          exact ⟨f, hfB, Or.inl hff⟩
      · rcases List.mem_append.mp hgmem with hgA | hgN
        · subst heq
          have hgB : g ∈ stA.byDepth d := augCands_sub stA d pid g hgA
          refine ⟨g, cacheResolve_entry_of_md stB _ g.folder_id g rfl
            (hcons g.folder_id g (hwfA.byd_mem d g hgB)), Or.inl ?_⟩
          by_cases hlA : ((sortScoreDesc SearchEntry.score
              (scoredRows svc.sim stA.vectors q (some (levelFilter d pid)))).take 5).length < 3
          · obtain ⟨r, hrmem, hrid⟩ := augFold_covers svc q (augCands stA d pid)
              ((sortScoreDesc SearchEntry.score
                (scoredRows svc.sim stA.vectors q (some (levelFilter d pid)))).take 5)
              g emb hgA hgemb hni hlen
            have hrlc : r ∈ levelCandidates svc stA q d pid := by
              rw [levelCandidates_eq]
              dsimp only
              rw [if_pos hlA]
              exact mem_sortScoreDesc.mpr hrmem
            have hrprop : cacheResolve stA r = some g ∧
                SearchEntry.score r = svc.sim q emb := by
              rcases augFold_sound svc q _ _ r hrmem with
                hrstore | ⟨g', hg'A, emb', hg'emb, _, _, heq'⟩
              · obtain ⟨row, hrow, hfil, hlen', heqr⟩ := mem_scoredRows svc.sim
                  stA.vectors q _ r (mem_sortScoreDesc.mp (List.take_subset 5 _ hrstore))
                subst heqr
                obtain ⟨hvec, hmd⟩ := row_of_eid stA hwfA d g hgB emb hgemb row hrow hrid
                constructor
                · exact cacheResolve_entry_of_md stA _ g.folder_id g hmd
                    (hwfA.byd_mem d g hgB)
                · show svc.sim q row.2.1 = svc.sim q emb
                  rw [hvec]
              · subst heq'
                obtain ⟨hg'g, hembeq⟩ := eid_unique stA hwfA d d g' g
                  (augCands_sub stA d pid g' hg'A) hgB emb' emb hg'emb hgemb hrid
                constructor
                · rw [← hg'g]
                  exact cacheResolve_aug_entry stA hwfA d g'
                    (augCands_sub stA d pid g' hg'A) _ _
                · show svc.sim q emb' = svc.sim q emb
                  rw [hembeq]
            have hff := hfail r hrlc g hrprop.1
            rw [hrprop.2] at hff
            exact hff
          · exfalso
            have h1 : ((sortScoreDesc SearchEntry.score
                (scoredRows svc.sim stB.vectors q (some (levelFilter d pid)))).take 5).length =
                min 5 ((scoredRows svc.sim stA.vectors q
                  (some (levelFilter d pid))).length + 1) := by
              rw [List.length_take, sortScoreDesc_length, hsc, List.length_append]
              rfl
            have h2 : ((sortScoreDesc SearchEntry.score
                (scoredRows svc.sim stA.vectors q (some (levelFilter d pid)))).take 5).length =
                min 5 (scoredRows svc.sim stA.vectors q
                  (some (levelFilter d pid))).length := by
              rw [List.length_take, sortScoreDesc_length]
            rw [h2] at hlA
            rw [h1] at hlB
            omega
        · have hgN' : g = N := List.mem_singleton.mp hgN
          subst hgN'
          subst heq
          exact ⟨g, cacheResolve_entry_of_md stB _ g.folder_id g rfl hNcache,
            Or.inr ⟨rfl, hNemb emb hgemb⟩⟩
    · rw [if_neg hlB] at he
      have he' := mem_sortScoreDesc.mp he
      rcases hcharStore e he' with rfl | hold
      · exact ⟨N, hNres, Or.inr ⟨rfl, rfl⟩⟩
      · obtain ⟨f, hfB, hff⟩ := holdRes e (results_sub_levelCandidates svc stA q d pid e hold)
        exact ⟨f, hfB, Or.inl hff⟩
  rw [findBestMatch_some_embed svc cfg stB t d pid thr q hq]
  have hresB : ∀ e ∈ levelCandidates svc stB q d pid, ∃ f, cacheResolve stB e = some f :=
    fun e he => (hchar e he).imp fun f hf => hf.1
  obtain ⟨hctr, hval⟩ := walk_resolve_cases cfg stB t d thr
    (levelCandidates svc stB q d pid) stB.nextId hresB
  rcases hval with hnone | ⟨e, he, f, hf, hw, hth, hs⟩
  · exact Or.inl (Prod.ext hnone hctr)
  · obtain ⟨f', hf', hdisj⟩ := hchar e he
    rw [hf] at hf'
    injection hf' with hf'
    subst hf'
    rcases hdisj with hfails | ⟨rfl, hscore⟩
    · rcases hfails with hlt | hfalse
      · exact absurd hth (not_le.mpr hlt)
      · rw [hs] at hfalse; cases hfalse
    · rw [hscore] at hw
      exact Or.inr (Prod.ext hw hctr)

theorem setNextId_self (st : MatcherState) : { st with nextId := st.nextId } = st := rfl

theorem addByDepth_vectors (st : MatcherState) (d : Nat) (f : FolderEntity) :
    (st.addByDepth d f).vectors = st.vectors := by
  rcases d with _ | _ | _ | _ | d <;> rfl

theorem addByDepth_folderCache (st : MatcherState) (d : Nat) (f : FolderEntity) :
    (st.addByDepth d f).folderCache = st.folderCache := by
  rcases d with _ | _ | _ | _ | d <;> rfl

theorem addByDepth_nextId (st : MatcherState) (d : Nat) (f : FolderEntity) :
    (st.addByDepth d f).nextId = st.nextId := by
  rcases d with _ | _ | _ | _ | d <;> rfl

theorem addByDepth_byDepth_self (st : MatcherState) (d : Nat) (f : FolderEntity)
    (hd : d = 1 ∨ d = 2 ∨ d = 3) :
    (st.addByDepth d f).byDepth d = st.byDepth d ++ [f] := by
  rcases hd with rfl | rfl | rfl <;> rfl

theorem addByDepth_byDepth_ne (st : MatcherState) (d d' : Nat) (f : FolderEntity)
    (hne : d ≠ d') : (st.addByDepth d f).byDepth d' = st.byDepth d' := by
  rcases d with _ | _ | _ | _ | d
  · rfl
  · rcases d' with _ | _ | _ | _ | d' <;> first | rfl | exact absurd rfl hne
  · rcases d' with _ | _ | _ | _ | d' <;> first | rfl | exact absurd rfl hne
  · rcases d' with _ | _ | _ | _ | d' <;> first | rfl | exact absurd rfl hne
  · rfl

theorem createFolder_some_eq (svc : EmbeddingOracle) (st : MatcherState) (label : String)
    (d : Nat) (parent : Option FolderEntity) (aliases : List String) (path : String)
    (hpath : (match parent with
      | some p => p.path ++ "/" ++ label | none => label) = path)
    (emb : List ℚ) (hemb : svc.embed (replaceSlashGt path) = some emb)
    (hfc : List.lookup (freshId st.nextId) st.folderCache = none)
    (hfv : List.lookup (embeddingIdFor (freshId st.nextId)) st.vectors = none) :
    createFolder svc st label d parent aliases =
      (({ folder_id := freshId st.nextId, path := path,
          label := label, depth := d,
          parent_id := parent.map (fun p => p.folder_id), aliases := aliases,
          embedding_id := some (embeddingIdFor (freshId st.nextId)),
          embedding := some emb } : FolderEntity),
        ({ st with
            vectors := st.vectors ++ [(embeddingIdFor (freshId st.nextId), (emb,
              [("type", MVal.str "folder"),
               ("folder_id", MVal.str (freshId st.nextId)),
               ("path", MVal.str path),
               ("depth", MVal.nat d),
               ("parent_id", optStrVal (parent.map (fun p => p.folder_id))),
               ("is_seed", MVal.bool false)]))],
            folderCache := st.folderCache ++ [(freshId st.nextId,
              { folder_id := freshId st.nextId, path := path,
                label := label, depth := d,
                parent_id := parent.map (fun p => p.folder_id), aliases := aliases,
                embedding_id := some (embeddingIdFor (freshId st.nextId)),
                embedding := some emb })],
            nextId := st.nextId + 1 } : MatcherState).addByDepth d
          { folder_id := freshId st.nextId, path := path,
            label := label, depth := d,
            parent_id := parent.map (fun p => p.folder_id), aliases := aliases,
            embedding_id := some (embeddingIdFor (freshId st.nextId)),
            embedding := some emb }) := by
  subst hpath
  simp only [createFolder]
  rw [hemb]
  dsimp only
  rw [dictInsert_eq_append _ _ _ hfv, dictInsert_eq_append _ _ _ hfc]

theorem embeddingIdFor_injective : Function.Injective embeddingIdFor := by
  intro a b h
  have h2 : "folder_".data ++ a.data = "folder_".data ++ b.data := congrArg String.data h
  exact congrArg String.mk (List.append_cancel_left h2)

theorem wf_extend (st : MatcherState) (hwf : WFState st) (Nf : FolderEntity)
    (mdN : Metadata) (emb : List ℚ) (d : Nat) (st' : MatcherState)
    (hvec : st'.vectors = st.vectors ++ [(embeddingIdFor (freshId st.nextId), (emb, mdN))])
    (hcache : st'.folderCache = st.folderCache ++ [(freshId st.nextId, Nf)])
    (hnext : st'.nextId = st.nextId + 1)
    (hbyd : ∀ d', st'.byDepth d' =
      if d' = d then st.byDepth d' ++ [Nf] else st.byDepth d')
    (hNfid : Nf.folder_id = freshId st.nextId)
    (hNeid : Nf.embedding_id = some (embeddingIdFor (freshId st.nextId)))
    (hNemb : Nf.embedding = some emb)
    (hmd_fid : Metadata.get mdN "folder_id" = MVal.str Nf.folder_id)
    (hmd_depth : Metadata.get mdN "depth" = MVal.nat d)
    (hshape1 : d = 1 → Nf.path = Nf.label ∧ '/' ∉ Nf.path.data) :
    WFState st' := by
  constructor
  · intro row hrow
    rw [hvec] at hrow
    rcases List.mem_append.mp hrow with hold | hnew
    · obtain ⟨fid0, f, h1, h2, h3⟩ := hwf.store_res row hold
      exact ⟨fid0, f, h1, by rw [hcache]; exact lookup_append_some _ _ _ _ h2, h3⟩
    · have heq := List.mem_singleton.mp hnew
      subst heq
      refine ⟨Nf.folder_id, Nf, hmd_fid, ?_, ?_⟩
      · rw [hcache, hNfid,
          lookup_append_left_none _ _ _ (hwf.fresh_cache st.nextId (le_refl _)),
          lookup_cons_eq, if_pos rfl]
      · intro hdepth1
        rw [hmd_depth] at hdepth1
        injection hdepth1 with hd1
        exact hshape1 hd1
  · intro d' f hf
    rw [hbyd d'] at hf
    by_cases hdd : d' = d
    · rw [if_pos hdd] at hf
      rcases List.mem_append.mp hf with hold | hnew
      · rw [hcache]; exact lookup_append_some _ _ _ _ (hwf.byd_mem d' f hold)
      · have heq := List.mem_singleton.mp hnew
        subst heq
        rw [hcache, hNfid,
          lookup_append_left_none _ _ _ (hwf.fresh_cache st.nextId (le_refl _)),
          lookup_cons_eq, if_pos rfl]
    · rw [if_neg hdd] at hf
      rw [hcache]; exact lookup_append_some _ _ _ _ (hwf.byd_mem d' f hf)
  · intro f hf
    have hf1 : f ∈ st'.byDepth 1 := hf
    rw [hbyd 1] at hf1
    by_cases h1d : 1 = d
    · rw [if_pos h1d] at hf1
      rcases List.mem_append.mp hf1 with hold | hnew
      · exact hwf.byd1_shape f hold
      · have heq := List.mem_singleton.mp hnew
        subst heq
        exact hshape1 h1d.symm
    · rw [if_neg h1d] at hf1
      exact hwf.byd1_shape f hf1
  · intro d' f hf emb' hemb'
    rw [hbyd d'] at hf
    by_cases hdd : d' = d
    · rw [if_pos hdd] at hf
      rcases List.mem_append.mp hf with hold | hnew
      · obtain ⟨eid0, md0, h1, h2, h3⟩ := hwf.emb_link d' f hold emb' hemb'
        exact ⟨eid0, md0, h1, by rw [hvec]; exact lookup_append_some _ _ _ _ h2, h3⟩
      · have heq := List.mem_singleton.mp hnew
        subst heq
        refine ⟨embeddingIdFor (freshId st.nextId), mdN, hNeid, ?_, hmd_fid⟩
        have hee : emb' = emb := by
          rw [hNemb] at hemb'
          injection hemb' with h
          exact h.symm
        rw [hee, hvec,
          lookup_append_left_none _ _ _ (hwf.fresh_vec st.nextId (le_refl _)),
          lookup_cons_eq, if_pos rfl]
    · rw [if_neg hdd] at hf
      obtain ⟨eid0, md0, h1, h2, h3⟩ := hwf.emb_link d' f hf emb' hemb'
      exact ⟨eid0, md0, h1, by rw [hvec]; exact lookup_append_some _ _ _ _ h2, h3⟩
  · rw [hvec, List.map_append, List.nodup_append]
    refine ⟨hwf.vec_nodup, by simp, ?_⟩
    intro a ha hb
    simp only [List.map_cons, List.map_nil, List.mem_singleton] at hb
    subst hb
    obtain ⟨row, hrow, hfst⟩ := List.mem_map.mp ha
    have hlk := lookup_eq_of_mem_of_nodup hwf.vec_nodup hrow
    rw [hfst] at hlk
    rw [hwf.fresh_vec st.nextId (le_refl _)] at hlk
    cases hlk
  · intro n hn
    rw [hnext] at hn
    have hne : freshId n ≠ freshId st.nextId :=
      fun hc => absurd (freshId_injective hc) (by omega)
    rw [hcache, lookup_append_left_none _ _ _ (hwf.fresh_cache n (by omega)),
      lookup_cons_eq, if_neg hne]
    rfl
  · intro n hn
    rw [hnext] at hn
    have hne : embeddingIdFor (freshId n) ≠ embeddingIdFor (freshId st.nextId) :=
      fun hc => absurd (freshId_injective (embeddingIdFor_injective hc)) (by omega)
    rw [hvec, lookup_append_left_none _ _ _ (hwf.fresh_vec n (by omega)),
      lookup_cons_eq, if_neg hne]
    rfl

theorem wf_createFolder_some (svc : EmbeddingOracle) (st : MatcherState) (label : String)
    (d : Nat) (parent : Option FolderEntity) (aliases : List String) (path : String)
    (hwf : WFState st)
    (hpath : (match parent with
      | some p => p.path ++ "/" ++ label | none => label) = path)
    (emb : List ℚ) (hemb : svc.embed (replaceSlashGt path) = some emb)
    (hd : d = 1 ∨ d = 2 ∨ d = 3)
    (hshape1 : d = 1 → path = label ∧ '/' ∉ path.data) :
    WFState (createFolder svc st label d parent aliases).2 := by
  have hfc := hwf.fresh_cache st.nextId (le_refl _)
  have hfv := hwf.fresh_vec st.nextId (le_refl _)
  rw [createFolder_some_eq svc st label d parent aliases path hpath emb hemb hfc hfv]
  dsimp only
  have hbase : ∀ k, (({ st with
      vectors := st.vectors ++ [(embeddingIdFor (freshId st.nextId), (emb,
        [("type", MVal.str "folder"),
         ("folder_id", MVal.str (freshId st.nextId)),
         ("path", MVal.str path),
         ("depth", MVal.nat d),
         ("parent_id", optStrVal (parent.map (fun p => p.folder_id))),
         ("is_seed", MVal.bool false)]))],
      folderCache := st.folderCache ++ [(freshId st.nextId,
        { folder_id := freshId st.nextId, path := path,
          label := label, depth := d,
          parent_id := parent.map (fun p => p.folder_id), aliases := aliases,
          embedding_id := some (embeddingIdFor (freshId st.nextId)),
          embedding := some emb })],
      nextId := st.nextId + 1 } : MatcherState)).byDepth k = st.byDepth k := by
    intro k
    rcases k with _ | _ | _ | _ | k <;> rfl
  refine wf_extend st hwf
    { folder_id := freshId st.nextId, path := path, label := label, depth := d,
      parent_id := parent.map (fun p => p.folder_id), aliases := aliases,
      embedding_id := some (embeddingIdFor (freshId st.nextId)), embedding := some emb }
    [("type", MVal.str "folder"), ("folder_id", MVal.str (freshId st.nextId)),
     ("path", MVal.str path), ("depth", MVal.nat d),
     ("parent_id", optStrVal (parent.map (fun p => p.folder_id))),
     ("is_seed", MVal.bool false)]
    emb d _ (by rw [addByDepth_vectors])
    (by rw [addByDepth_folderCache]) (by rw [addByDepth_nextId]) ?_ rfl rfl rfl rfl rfl
    (fun h1 => hshape1 h1)
  intro d'
  by_cases hdd : d' = d
  · subst hdd
    rw [if_pos rfl, addByDepth_byDepth_self _ _ _ hd, hbase d']
  · rw [if_neg hdd, addByDepth_byDepth_ne _ _ _ _ (fun h => hdd h.symm), hbase d']

theorem lookup_self_append {β : Type} (l : List (String × β)) (k : String) (v : β)
    (h : List.lookup k l = none) : List.lookup k (l ++ [(k, v)]) = some v := by
  rw [lookup_append_left_none _ _ _ h, lookup_cons_eq, if_pos rfl]

theorem scoredRows_append (sim : List ℚ → List ℚ → ℚ) (v₁ v₂ : List VectorRow)
    (q : List ℚ) (fil : Option Metadata) :
    scoredRows sim (v₁ ++ v₂) q fil = scoredRows sim v₁ q fil ++ scoredRows sim v₂ q fil := by
  unfold scoredRows
  rw [List.filterMap_append]

theorem scoredRows_singleton_pass (sim : List ℚ → List ℚ → ℚ) (vid : String)
    (emb : List ℚ) (md : Metadata) (q : List ℚ) (fil : Option Metadata)
    (hf : filterOk fil md = true) (hl : emb.length = q.length) :
    scoredRows sim [(vid, (emb, md))] q fil = [(some vid, sim q emb, md)] := by
  simp [scoredRows, hf, hl]

theorem scoredRows_singleton_fail (sim : List ℚ → List ℚ → ℚ) (vid : String)
    (emb : List ℚ) (md : Metadata) (q : List ℚ) (fil : Option Metadata)
    (hf : filterOk fil md = false) :
    scoredRows sim [(vid, (emb, md))] q fil = [] := by
  simp [scoredRows, hf]

theorem filterOk_levelFilter_ne (d₀ d : Nat) (pid₀ : Option String) (md : Metadata)
    (hmd : Metadata.get md "depth" = MVal.nat d) (hne : d ≠ d₀) :
    filterOk (some (levelFilter d₀ pid₀)) md = false := by
  cases hfo : filterOk (some (levelFilter d₀ pid₀)) md with
  | false => rfl
  | true =>
    have h1 := filterOk_levelFilter_depth d₀ pid₀ md hfo
    rw [hmd] at h1
    injection h1 with h1
    exact absurd h1 hne

theorem filterOk_levelFilter_intro (d : Nat) (pid : Option String) (md : Metadata)
    (htype : Metadata.get md "type" = MVal.str "folder")
    (hdepth : Metadata.get md "depth" = MVal.nat d)
    (hpar : ∀ p, pid = some p → (p == "") = false →
      Metadata.get md "parent_id" = MVal.str p) :
    filterOk (some (levelFilter d pid)) md = true := by
  unfold filterOk
  dsimp only
  rw [if_neg (by rw [show (levelFilter d pid).isEmpty = false from rfl]; simp)]
  unfold matchesFilter
  rw [List.all_eq_true]
  intro kv hkv
  unfold levelFilter at hkv
  rcases List.mem_append.mp hkv with h2 | h3
  · rcases List.mem_cons.mp h2 with rfl | h2'
    · simpa using htype
    · rcases List.mem_cons.mp h2' with rfl | h2''
      · simpa using hdepth
      · exact absurd h2'' (List.not_mem_nil kv)
  · cases pid with
    | none => exact absurd h3 (List.not_mem_nil kv)
    | some p =>
      dsimp only at h3
      by_cases hp : (p == "") = true
      · rw [if_pos hp] at h3
        exact absurd h3 (List.not_mem_nil kv)
      · rw [if_neg hp] at h3
        have hkv' := List.mem_singleton.mp h3
        subst hkv'
        simpa using hpar p rfl (Bool.eq_false_iff.mpr hp)

theorem augCands_congr (stA stB : MatcherState) (d : Nat) (pid : Option String)
    (h : stB.byDepth d = stA.byDepth d) : augCands stB d pid = augCands stA d pid := by
  unfold augCands
  rw [h]

theorem augCands_append (stA stB : MatcherState) (d : Nat) (pid : Option String)
    (Nf : FolderEntity) (hbyd : stB.byDepth d = stA.byDepth d ++ [Nf])
    (hpar : ∀ p, pid = some p → (p == "") = false → Nf.parent_id = some p) :
    augCands stB d pid = augCands stA d pid ++ [Nf] := by
  unfold augCands
  rw [hbyd]
  cases pid with
  | none => rfl
  | some p =>
    dsimp only
    by_cases hp : (p == "") = true
    · rw [if_pos hp, if_pos hp]
    · rw [if_neg hp, if_neg hp, List.filter_append]
      have hNf : Nf.parent_id = some p := hpar p rfl (Bool.eq_false_iff.mpr hp)
      simp [List.filter, hNf]

theorem matchDomain_eq_of_some (svc : EmbeddingOracle) (cfg : ThresholdConfig)
    (st : MatcherState) (cand : TaxonomyCandidate) (f : FolderEntity) (s : ℚ) (ctr' : Nat)
    (h : findBestMatch svc cfg st cand.domain.label 1 none cfg.domain_threshold =
      ((some f, s), ctr')) :
    matchDomain svc cfg st cand =
      ({ level := .DOMAIN, action := .REUSE_EXISTING, matched_folder := some f,
         similarity_score := s, label_used := f.label,
         notes := "Reused existing domain " ++ f.label }, { st with nextId := ctr' }) := by
  simp only [matchDomain]
  rw [h]

theorem matchSubdomain_eq_of_some (svc : EmbeddingOracle) (cfg : ThresholdConfig)
    (st : MatcherState) (cand : TaxonomyCandidate) (dres : MatchResult)
    (DF : FolderEntity) (f : FolderEntity) (s : ℚ) (ctr' : Nat)
    (hdf : dres.get_folder = some DF)
    (h : findBestMatch svc cfg st (DF.label ++ " > " ++ cand.subdomain.label) 2
      (some DF.folder_id) cfg.subdomain_threshold = ((some f, s), ctr')) :
    matchSubdomain svc cfg st cand dres =
      some ({ level := .SUBDOMAIN, action := .REUSE_EXISTING, matched_folder := some f,
              similarity_score := s, label_used := f.label,
              notes := "Reused existing subdomain " ++ f.label },
        { st with nextId := ctr' }) := by
  simp only [matchSubdomain]
  rw [hdf]
  dsimp only
  rw [h]

theorem matchSubdomain_eq_of_none (svc : EmbeddingOracle) (cfg : ThresholdConfig)
    (st : MatcherState) (cand : TaxonomyCandidate) (dres : MatchResult)
    (DF : FolderEntity) (s : ℚ) (ctr' : Nat)
    (hdf : dres.get_folder = some DF)
    (h : findBestMatch svc cfg st (DF.label ++ " > " ++ cand.subdomain.label) 2
      (some DF.folder_id) cfg.subdomain_threshold = ((none, s), ctr')) :
    matchSubdomain svc cfg st cand dres =
      (let st₁ : MatcherState := { st with nextId := ctr' }
       let probe := findBestMatch svc cfg st₁ cand.subdomain.label 2 none
         cfg.subdomain_threshold
       let st₂ : MatcherState := { st₁ with nextId := probe.2 }
       let c := createFolder svc st₂ cand.subdomain.label 2 (some DF)
         cand.subdomain.aliases
       some ({ level := .SUBDOMAIN, action := .ATTACH_AS_CHILD, new_folder := some c.1,
               similarity_score := 0, label_used := c.1.label,
               notes := "Created subdomain " ++ c.1.label ++ " under " ++ DF.label },
         c.2)) := by
  simp only [matchSubdomain]
  rw [hdf]
  dsimp only
  rw [h]

theorem matchDomain_reuse (svc : EmbeddingOracle) (cfg : ThresholdConfig)
    (st : MatcherState) (cand : TaxonomyCandidate) (f : FolderEntity) (s : ℚ)
    (h : findBestMatch svc cfg st cand.domain.label 1 none cfg.domain_threshold =
      ((some f, s), st.nextId)) :
    matchDomain svc cfg st cand =
      ({ level := .DOMAIN, action := .REUSE_EXISTING, matched_folder := some f,
         similarity_score := s, label_used := f.label,
         notes := "Reused existing domain " ++ f.label }, st) := by
  rw [matchDomain_eq_of_some svc cfg st cand f s st.nextId h, setNextId_self]

theorem matchDomain_create (svc : EmbeddingOracle) (cfg : ThresholdConfig)
    (st : MatcherState) (cand : TaxonomyCandidate)
    (h : findBestMatch svc cfg st cand.domain.label 1 none cfg.domain_threshold =
      ((none, 0), st.nextId)) :
    matchDomain svc cfg st cand =
      ({ level := .DOMAIN, action := .CREATE_NEW,
         new_folder := some (createFolder svc st cand.domain.label 1 none
           cand.domain.aliases).1,
         similarity_score := 0,
         label_used := (createFolder svc st cand.domain.label 1 none
           cand.domain.aliases).1.label,
         notes := "Created new domain " ++ (createFolder svc st cand.domain.label 1 none
           cand.domain.aliases).1.label },
       (createFolder svc st cand.domain.label 1 none cand.domain.aliases).2) := by
  simp only [matchDomain]
  rw [h]

theorem matchSubdomain_reuse (svc : EmbeddingOracle) (cfg : ThresholdConfig)
    (st : MatcherState) (cand : TaxonomyCandidate) (dres : MatchResult)
    (DF : FolderEntity) (f : FolderEntity) (s : ℚ)
    (hdf : dres.get_folder = some DF)
    (h : findBestMatch svc cfg st (DF.label ++ " > " ++ cand.subdomain.label) 2
      (some DF.folder_id) cfg.subdomain_threshold = ((some f, s), st.nextId)) :
    matchSubdomain svc cfg st cand dres =
      some ({ level := .SUBDOMAIN, action := .REUSE_EXISTING, matched_folder := some f,
              similarity_score := s, label_used := f.label,
              notes := "Reused existing subdomain " ++ f.label }, st) := by
  rw [matchSubdomain_eq_of_some svc cfg st cand dres DF f s st.nextId hdf h,
    setNextId_self]

theorem matchSubdomain_attach (svc : EmbeddingOracle) (cfg : ThresholdConfig)
    (st : MatcherState) (cand : TaxonomyCandidate) (dres : MatchResult)
    (DF : FolderEntity) (hwf : WFState st)
    (hdf : dres.get_folder = some DF)
    (h : findBestMatch svc cfg st (DF.label ++ " > " ++ cand.subdomain.label) 2
      (some DF.folder_id) cfg.subdomain_threshold = ((none, 0), st.nextId)) :
    matchSubdomain svc cfg st cand dres =
      some ({ level := .SUBDOMAIN, action := .ATTACH_AS_CHILD,
              new_folder := some (createFolder svc st cand.subdomain.label 2 (some DF)
                cand.subdomain.aliases).1,
              similarity_score := 0,
              label_used := (createFolder svc st cand.subdomain.label 2 (some DF)
                cand.subdomain.aliases).1.label,
              notes := "Created subdomain " ++ (createFolder svc st cand.subdomain.label 2
                (some DF) cand.subdomain.aliases).1.label ++ " under " ++ DF.label },
        (createFolder svc st cand.subdomain.label 2 (some DF)
          cand.subdomain.aliases).2) := by
  rw [matchSubdomain_eq_of_none svc cfg st cand dres DF 0 st.nextId hdf h]
  dsimp only
  rw [setNextId_self]
  rw [fbm_nextId svc cfg st hwf cand.subdomain.label 2 none cfg.subdomain_threshold]

theorem matchLeaf_none_topic (svc : EmbeddingOracle) (cfg : ThresholdConfig)
    (st : MatcherState) (cand : TaxonomyCandidate) (sdres : MatchResult)
    (h : cand.leaf_topic = none) : matchLeaf svc cfg st cand sdres = (none, st) := by
  simp only [matchLeaf, h]

theorem matchLeaf_lowconf (svc : EmbeddingOracle) (cfg : ThresholdConfig)
    (st : MatcherState) (cand : TaxonomyCandidate) (sdres : MatchResult)
    (lt : LabelWithAliases)
    (h : cand.leaf_topic = some lt) (hopt : lt.optional = true)
    (hconf : cand.confidence < cfg.leaf_confidence_threshold) :
    matchLeaf svc cfg st cand sdres =
      (some { level := .LEAF, action := .SKIP, similarity_score := 0,
              label_used := lt.label,
              notes := "Skipped leaf topic - confidence too low" }, st) := by
  simp only [matchLeaf, h]
  rw [if_pos ⟨hopt, hconf⟩]

theorem matchLeaf_reuse (svc : EmbeddingOracle) (cfg : ThresholdConfig)
    (st : MatcherState) (cand : TaxonomyCandidate) (sdres : MatchResult)
    (lt : LabelWithAliases) (SF : FolderEntity) (f : FolderEntity) (s : ℚ)
    (h : cand.leaf_topic = some lt)
    (hno : ¬(lt.optional = true ∧ cand.confidence < cfg.leaf_confidence_threshold))
    (hsf : sdres.get_folder = some SF)
    (hfb : findBestMatch svc cfg st (SF.path ++ " > " ++ lt.label) 3
      (some SF.folder_id) cfg.leaf_threshold = ((some f, s), st.nextId)) :
    matchLeaf svc cfg st cand sdres =
      (some { level := .LEAF, action := .REUSE_EXISTING, matched_folder := some f,
              similarity_score := s, label_used := f.label,
              notes := "Reused existing leaf " ++ f.label }, st) := by
  simp only [matchLeaf, h]
  rw [if_neg hno, hsf]
  dsimp only
  rw [hfb]

theorem matchLeaf_skip_maxdepth (svc : EmbeddingOracle) (cfg : ThresholdConfig)
    (st : MatcherState) (cand : TaxonomyCandidate) (sdres : MatchResult)
    (lt : LabelWithAliases) (SF : FolderEntity) (s : ℚ)
    (h : cand.leaf_topic = some lt)
    (hno : ¬(lt.optional = true ∧ cand.confidence < cfg.leaf_confidence_threshold))
    (hsf : sdres.get_folder = some SF)
    (hfb : findBestMatch svc cfg st (SF.path ++ " > " ++ lt.label) 3
      (some SF.folder_id) cfg.leaf_threshold = ((none, s), st.nextId))
    (hmd : cfg.max_depth ≤ SF.depth) :
    matchLeaf svc cfg st cand sdres =
      (some { level := .LEAF, action := .SKIP, similarity_score := 0,
              label_used := lt.label,
              notes := "Skipped leaf - max depth reached" }, st) := by
  simp only [matchLeaf, h]
  rw [if_neg hno, hsf]
  dsimp only
  rw [hfb]
  dsimp only
  rw [if_pos hmd, setNextId_self]

theorem matchLeaf_skip_optional (svc : EmbeddingOracle) (cfg : ThresholdConfig)
    (st : MatcherState) (cand : TaxonomyCandidate) (sdres : MatchResult)
    (lt : LabelWithAliases) (SF : FolderEntity) (s : ℚ)
    (h : cand.leaf_topic = some lt)
    (hno : ¬(lt.optional = true ∧ cand.confidence < cfg.leaf_confidence_threshold))
    (hsf : sdres.get_folder = some SF)
    (hfb : findBestMatch svc cfg st (SF.path ++ " > " ++ lt.label) 3
      (some SF.folder_id) cfg.leaf_threshold = ((none, s), st.nextId))
    (hmd : ¬cfg.max_depth ≤ SF.depth) (hopt : lt.optional = true) :
    matchLeaf svc cfg st cand sdres =
      (some { level := .LEAF, action := .SKIP, similarity_score := 0,
              label_used := lt.label,
              notes := "Skipped optional leaf topic - stored as tag instead" }, st) := by
  simp only [matchLeaf, h]
  rw [if_neg hno, hsf]
  dsimp only
  rw [hfb]
  dsimp only
  rw [if_neg hmd, if_pos hopt, setNextId_self]

theorem matchLeaf_attach (svc : EmbeddingOracle) (cfg : ThresholdConfig)
    (st : MatcherState) (cand : TaxonomyCandidate) (sdres : MatchResult)
    (lt : LabelWithAliases) (SF : FolderEntity) (s : ℚ)
    (h : cand.leaf_topic = some lt)
    (hno : ¬(lt.optional = true ∧ cand.confidence < cfg.leaf_confidence_threshold))
    (hsf : sdres.get_folder = some SF)
    (hfb : findBestMatch svc cfg st (SF.path ++ " > " ++ lt.label) 3
      (some SF.folder_id) cfg.leaf_threshold = ((none, s), st.nextId))
    (hmd : ¬cfg.max_depth ≤ SF.depth) (hopt : lt.optional = false) :
    matchLeaf svc cfg st cand sdres =
      (some { level := .LEAF, action := .ATTACH_AS_CHILD,
              new_folder := some (createFolder svc st lt.label 3 (some SF) lt.aliases).1,
              similarity_score := 0,
              label_used := (createFolder svc st lt.label 3 (some SF) lt.aliases).1.label,
              notes := "Created leaf folder " ++
                (createFolder svc st lt.label 3 (some SF) lt.aliases).1.label ++
                " under " ++ SF.label },
        (createFolder svc st lt.label 3 (some SF) lt.aliases).2) := by
  simp only [matchLeaf, h]
  rw [if_neg hno, hsf]
  dsimp only
  rw [hfb]
  dsimp only
  rw [if_neg hmd, if_neg (by rw [hopt]; simp), setNextId_self]

theorem createFolder_pack (svc : EmbeddingOracle) (st : MatcherState) (label : String)
    (d : Nat) (parent : Option FolderEntity) (aliases : List String) (path : String)
    (hwf : WFState st)
    (hpath : (match parent with
      | some p => p.path ++ "/" ++ label | none => label) = path)
    (emb : List ℚ) (hemb : svc.embed (replaceSlashGt path) = some emb)
    (hd : d = 1 ∨ d = 2 ∨ d = 3)
    (hshape1 : d = 1 → path = label ∧ '/' ∉ path.data) :
    (createFolder svc st label d parent aliases).1.folder_id = freshId st.nextId ∧
    (createFolder svc st label d parent aliases).1.path = path ∧
    (createFolder svc st label d parent aliases).1.label = label ∧
    (createFolder svc st label d parent aliases).1.depth = d ∧
    (createFolder svc st label d parent aliases).1.parent_id =
      parent.map (fun p => p.folder_id) ∧
    (createFolder svc st label d parent aliases).1.embedding = some emb ∧
    (createFolder svc st label d parent aliases).2.vectors =
      st.vectors ++ [(embeddingIdFor (freshId st.nextId), (emb,
        [("type", MVal.str "folder"), ("folder_id", MVal.str (freshId st.nextId)),
         ("path", MVal.str path), ("depth", MVal.nat d),
         ("parent_id", optStrVal (parent.map (fun p => p.folder_id))),
         ("is_seed", MVal.bool false)]))] ∧
    (createFolder svc st label d parent aliases).2.folderCache =
      st.folderCache ++ [(freshId st.nextId, (createFolder svc st label d parent aliases).1)] ∧
    (createFolder svc st label d parent aliases).2.nextId = st.nextId + 1 ∧
    (∀ d', (createFolder svc st label d parent aliases).2.byDepth d' =
      if d' = d then st.byDepth d' ++ [(createFolder svc st label d parent aliases).1]
      else st.byDepth d') ∧
    List.lookup (freshId st.nextId) (createFolder svc st label d parent aliases).2.folderCache =
      some (createFolder svc st label d parent aliases).1 ∧
    (∀ k g, List.lookup k st.folderCache = some g →
      List.lookup k (createFolder svc st label d parent aliases).2.folderCache = some g) ∧
    WFState (createFolder svc st label d parent aliases).2 := by
  have hfc := hwf.fresh_cache st.nextId (le_refl _)
  have hfv := hwf.fresh_vec st.nextId (le_refl _)
  have hwf' := wf_createFolder_some svc st label d parent aliases path hwf hpath emb hemb
    hd hshape1
  rw [createFolder_some_eq svc st label d parent aliases path hpath emb hemb hfc hfv]
    at hwf' ⊢
  have hbase : ∀ k, (({ st with
      vectors := st.vectors ++ [(embeddingIdFor (freshId st.nextId), (emb,
        [("type", MVal.str "folder"),
         ("folder_id", MVal.str (freshId st.nextId)),
         ("path", MVal.str path),
         ("depth", MVal.nat d),
         ("parent_id", optStrVal (parent.map (fun p => p.folder_id))),
         ("is_seed", MVal.bool false)]))],
      folderCache := st.folderCache ++ [(freshId st.nextId,
        { folder_id := freshId st.nextId, path := path,
          label := label, depth := d,
          parent_id := parent.map (fun p => p.folder_id), aliases := aliases,
          embedding_id := some (embeddingIdFor (freshId st.nextId)),
          embedding := some emb })],
      nextId := st.nextId + 1 } : MatcherState)).byDepth k = st.byDepth k := by
    intro k
    rcases k with _ | _ | _ | _ | k <;> rfl
  refine ⟨rfl, rfl, rfl, rfl, rfl, rfl, by rw [addByDepth_vectors],
    by rw [addByDepth_folderCache], by rw [addByDepth_nextId], ?_, ?_, ?_, hwf'⟩
  · intro d'
    by_cases hdd : d' = d
    · subst hdd
      rw [if_pos rfl, addByDepth_byDepth_self _ _ _ hd, hbase d']
    · rw [if_neg hdd, addByDepth_byDepth_ne _ _ _ _ (fun h => hdd h.symm), hbase d']
  · rw [addByDepth_folderCache]
    exact lookup_self_append _ _ _ hfc
  · intro k g hk
    rw [addByDepth_folderCache]
    exact lookup_append_some _ _ _ _ hk

theorem fails_lt_one (cfg : ThresholdConfig) (t : String) (thr : ℚ) (f : FolderEntity)
    (s : ℚ) (hf : entryFails cfg t thr f s) (hthr : thr ≤ 1) : s < 1 := by
  rcases hf with hlt | hfalse
  · exact lt_of_lt_of_le hlt hthr
  · have := sanity_false_le cfg t f.path s hfalse
    have h95 : mkRat 95 100 < 1 := by decide
    exact lt_of_le_of_lt this h95

theorem all_scores_lt (l : List SearchEntry) (c : ℚ)
    (htake : ∀ e ∈ (sortScoreDesc SearchEntry.score l).take 5, SearchEntry.score e < c) :
    ∀ e ∈ l, SearchEntry.score e < c := by
  intro e he
  have hmem : e ∈ sortScoreDesc SearchEntry.score l := mem_sortScoreDesc.mpr he
  rw [← List.take_append_drop 5 (sortScoreDesc SearchEntry.score l)] at hmem
  rcases List.mem_append.mp hmem with h | h
  · exact htake e h
  · have hsorted := sortScoreDesc_sorted SearchEntry.score l
    rw [← List.take_append_drop 5 (sortScoreDesc SearchEntry.score l)] at hsorted
    have hrel := (List.pairwise_append.mp hsorted).2.2
    have hne : (sortScoreDesc SearchEntry.score l).take 5 ≠ [] := by
      intro hnil
      rw [List.take_eq_nil_iff] at hnil
      rcases hnil with h5 | hsnil
      · cases h5
      · rw [hsnil] at h
        simp at h
    obtain ⟨a, ha⟩ := List.exists_mem_of_ne_nil _ hne
    exact lt_of_le_of_lt (hrel a ha e h) (htake a ha)

theorem fbm_none_fails (svc : EmbeddingOracle) (cfg : ThresholdConfig) (st : MatcherState)
    (t : String) (d : Nat) (pid : Option String) (thr : ℚ) (q : List ℚ) (ctr : Nat)
    (hq : svc.embed t = some q)
    (h : findBestMatch svc cfg st t d pid thr = ((none, 0), ctr)) :
    ∀ e ∈ levelCandidates svc st q d pid, ∀ f, cacheResolve st e = some f →
      entryFails cfg t thr f (SearchEntry.score e) := by
  rw [findBestMatch_some_embed svc cfg st t d pid thr q hq] at h
  intro e he f hf
  exact walk_none_forall cfg st t d thr (levelCandidates svc st q d pid) st.nextId
    (by rw [h]) e he f hf

theorem fbm_none_scores_lt (svc : EmbeddingOracle) (cfg : ThresholdConfig)
    (st : MatcherState) (hwf : WFState st) (t : String) (d : Nat) (pid : Option String)
    (thr : ℚ) (q : List ℚ) (ctr : Nat) (hq : svc.embed t = some q)
    (h : findBestMatch svc cfg st t d pid thr = ((none, 0), ctr)) (hthr : thr ≤ 1) :
    ∀ e ∈ scoredRows svc.sim st.vectors q (some (levelFilter d pid)),
      SearchEntry.score e < 1 := by
  apply all_scores_lt
  intro e he
  have helc := results_sub_levelCandidates svc st q d pid e he
  obtain ⟨f, hf, _⟩ := levelCandidates_resolve svc st hwf q d pid e helc
  exact fails_lt_one cfg t thr f (SearchEntry.score e)
    (fbm_none_fails svc cfg st t d pid thr q ctr hq h e helc f hf) hthr

theorem fbm_create_replay_match (svc : EmbeddingOracle) (cfg : ThresholdConfig)
    (stA stB : MatcherState) (hwfA : WFState stA)
    (hcons : ∀ k g, List.lookup k stA.folderCache = some g →
      List.lookup k stB.folderCache = some g)
    (t : String) (d : Nat) (pid : Option String) (thr : ℚ) (q : List ℚ)
    (hq : svc.embed t = some q)
    (N : FolderEntity) (Ne : SearchEntry)
    (hsc : scoredRows svc.sim stB.vectors q (some (levelFilter d pid)) =
      scoredRows svc.sim stA.vectors q (some (levelFilter d pid)) ++ [Ne])
    (haug : augCands stB d pid = augCands stA d pid ++ [N])
    (hNres : cacheResolve stB Ne = some N)
    (hNcache : List.lookup N.folder_id stB.folderCache = some N)
    (hNemb : ∀ emb, N.embedding = some emb → svc.sim q emb = SearchEntry.score Ne)
    (hfail : ∀ e ∈ levelCandidates svc stA q d pid, ∀ f, cacheResolve stA e = some f →
      entryFails cfg t thr f (SearchEntry.score e))
    (hth : thr ≤ SearchEntry.score Ne)
    (hsan : sanityCheck cfg t N.path (SearchEntry.score Ne) = true)
    (hmax : ∀ e ∈ scoredRows svc.sim stA.vectors q (some (levelFilter d pid)),
      SearchEntry.score e < SearchEntry.score Ne) :
    findBestMatch svc cfg stB t d pid thr =
      ((some N, SearchEntry.score Ne), stB.nextId) := by
  rcases fbm_create_replay svc cfg stA stB hwfA hcons t d pid thr q hq N Ne hsc haug
    hNres hNcache hNemb hfail with hnone | hsome
  · exfalso
    have hNe_take : Ne ∈ (sortScoreDesc SearchEntry.score
        (scoredRows svc.sim stB.vectors q (some (levelFilter d pid)))).take 5 := by
      rw [hsc, sortScoreDesc_append_max SearchEntry.score Ne _ hmax, List.take_succ_cons]
      exact List.mem_cons_self Ne _
    have hNe_lc := results_sub_levelCandidates svc stB q d pid Ne hNe_take
    have hsome := walk_isSome_of_passer cfg stB t d thr
      (levelCandidates svc stB q d pid) stB.nextId ⟨Ne, hNe_lc, hth, N, hNres, hsan⟩
    rw [findBestMatch_some_embed svc cfg stB t d pid thr q hq] at hnone
    rw [hnone] at hsome
    simp at hsome
  · exact hsome

theorem get_final_path_eq (m : HierarchicalMatch) :
    m.get_final_path = joinSlash (
      (match m.domain_result.get_folder with | some f => [f.label] | none => []) ++
      (match m.subdomain_result.get_folder with | some f => [f.label] | none => []) ++
      leafParts m.leaf_result) := rfl

theorem get_created_folders_eq (m : HierarchicalMatch) :
    m.get_created_folders =
      (match m.domain_result.action, m.domain_result.new_folder with
       | MatchAction.CREATE_NEW, some f => [f]
       | _, _ => []) ++
      (if m.subdomain_result.action = MatchAction.CREATE_NEW ∨
          m.subdomain_result.action = MatchAction.ATTACH_AS_CHILD then
         match m.subdomain_result.new_folder with
         | some f => [f]
         | none => []
       else []) ++
      leafCreatedList m.leaf_result := rfl

theorem consExt_refl (d : Nat) (pid : Option String) (st : MatcherState) :
    ConsExt d pid st st :=
  ⟨⟨[], by simp, by simp⟩, fun _ _ h => h, rfl⟩

theorem consExt_trans {d : Nat} {pid : Option String} {s1 s2 s3 : MatcherState}
    (h12 : ConsExt d pid s1 s2) (h23 : ConsExt d pid s2 s3) : ConsExt d pid s1 s3 := by
  obtain ⟨⟨e1, hv1, hf1⟩, hc1, hb1⟩ := h12
  obtain ⟨⟨e2, hv2, hf2⟩, hc2, hb2⟩ := h23
  refine ⟨⟨e1 ++ e2, ?_, ?_⟩, fun k g h => hc2 k g (hc1 k g h), hb2.trans hb1⟩
  · rw [hv2, hv1, List.append_assoc]
  · intro row hrow
    rcases List.mem_append.mp hrow with h | h
    · exact hf1 row h
    · exact hf2 row h

theorem consExt_of_create (st st' : MatcherState) (d₀ : Nat) (pid₀ : Option String)
    (dC : Nat) (rowmd : Metadata) (eid : String) (emb : List ℚ)
    (hvec : st'.vectors = st.vectors ++ [(eid, (emb, rowmd))])
    (hmd : Metadata.get rowmd "depth" = MVal.nat dC)
    (hcne : dC ≠ d₀)
    (hcache : ∀ k g, List.lookup k st.folderCache = some g →
      List.lookup k st'.folderCache = some g)
    (hbyd : st'.byDepth d₀ = st.byDepth d₀) :
    ConsExt d₀ pid₀ st st' := by
  refine ⟨⟨[(eid, (emb, rowmd))], hvec, ?_⟩, hcache, hbyd⟩
  intro row hrow
  have heq := List.mem_singleton.mp hrow
  subst heq
  exact filterOk_levelFilter_ne d₀ dC pid₀ rowmd hmd hcne

theorem scoredRows_of_consExt (svc : EmbeddingOracle) (q : List ℚ) (d : Nat)
    (pid : Option String) (stA stB : MatcherState) (hce : ConsExt d pid stA stB) :
    scoredRows svc.sim stB.vectors q (some (levelFilter d pid)) =
      scoredRows svc.sim stA.vectors q (some (levelFilter d pid)) := by
  obtain ⟨⟨extra, hv, hfail⟩, _, _⟩ := hce
  rw [hv, scoredRows_append]
  have hnil : scoredRows svc.sim extra q (some (levelFilter d pid)) = [] := by
    unfold scoredRows
    rw [List.filterMap_eq_nil_iff]
    intro row hrow
    obtain ⟨vid, emb, md⟩ := row
    dsimp only
    rw [if_neg (by simp [hfail (vid, (emb, md)) hrow])]
  rw [hnil, List.append_nil]

theorem matchCandidate_eq (svc : EmbeddingOracle) (cfg : ThresholdConfig)
    (st : MatcherState) (cand : TaxonomyCandidate) (dres : MatchResult)
    (stD : MatcherState) (sres : MatchResult) (stS : MatcherState)
    (lres : Option MatchResult) (stL : MatcherState)
    (hd : matchDomain svc cfg st cand = (dres, stD))
    (hs : matchSubdomain svc cfg stD cand dres = some (sres, stS))
    (hl : matchLeaf svc cfg stS cand sres = (lres, stL)) :
    matchCandidate svc cfg st cand =
      some ({ domain_result := dres, subdomain_result := sres, leaf_result := lres },
        stL) := by
  simp only [matchCandidate]
  rw [hd]
  dsimp only
  rw [hs]
  dsimp only
  rw [hl]

theorem matchLeaf_state (svc : EmbeddingOracle) (cfg : ThresholdConfig)
    (st : MatcherState) (cand : TaxonomyCandidate) (sres : MatchResult)
    (hwf : WFState st) (htot : ∀ t, (svc.embed t).isSome = true) :
    ∀ (lres : Option MatchResult) (stL : MatcherState),
      matchLeaf svc cfg st cand sres = (lres, stL) →
      WFState stL ∧ ∀ d₀ pid₀, d₀ ≠ 3 → ConsExt d₀ pid₀ st stL := by
  intro lres stL h
  cases hlt : cand.leaf_topic with
  | none =>
    rw [matchLeaf_none_topic svc cfg st cand sres hlt] at h
    injection h with h1 h2
    subst h2
    exact ⟨hwf, fun d₀ pid₀ _ => consExt_refl d₀ pid₀ st⟩
  | some lt =>
    by_cases hlc : lt.optional = true ∧ cand.confidence < cfg.leaf_confidence_threshold
    · rw [matchLeaf_lowconf svc cfg st cand sres lt hlt hlc.1 hlc.2] at h
      injection h with h1 h2
      subst h2
      exact ⟨hwf, fun d₀ pid₀ _ => consExt_refl d₀ pid₀ st⟩
    · cases hsf : sres.get_folder with
      | none =>
        have hred : matchLeaf svc cfg st cand sres = (none, st) := by
          simp only [matchLeaf, hlt]
          rw [if_neg hlc, hsf]
        rw [hred] at h
        injection h with h1 h2
        subst h2
        exact ⟨hwf, fun d₀ pid₀ _ => consExt_refl d₀ pid₀ st⟩
      | some SF =>
        obtain ⟨ql, hql⟩ := Option.isSome_iff_exists.mp
          (htot (SF.path ++ " > " ++ lt.label))
        rcases fbm_cases svc cfg st hwf (SF.path ++ " > " ++ lt.label) 3
            (some SF.folder_id) cfg.leaf_threshold ql hql with
          hL | ⟨fL, sL, hLfb, hLrest⟩
        · by_cases hmd : cfg.max_depth ≤ SF.depth
          · rw [matchLeaf_skip_maxdepth svc cfg st cand sres lt SF 0 hlt hlc hsf hL hmd]
              at h
            injection h with h1 h2
            subst h2
            exact ⟨hwf, fun d₀ pid₀ _ => consExt_refl d₀ pid₀ st⟩
          · cases hopt : lt.optional with
            | true =>
              rw [matchLeaf_skip_optional svc cfg st cand sres lt SF 0 hlt hlc hsf hL
                hmd hopt] at h
              injection h with h1 h2
              subst h2
              exact ⟨hwf, fun d₀ pid₀ _ => consExt_refl d₀ pid₀ st⟩
            | false =>
              rw [matchLeaf_attach svc cfg st cand sres lt SF 0 hlt hlc hsf hL hmd hopt]
                at h
              injection h with h1 h2
              subst h2
              obtain ⟨embL, hembL⟩ := Option.isSome_iff_exists.mp
                (htot (replaceSlashGt (SF.path ++ "/" ++ lt.label)))
              obtain ⟨hfid, hpathL, hlabL, hdepL, hparL, hembfL, hvecs, hcch, hnid,
                  hbydL, hlk, hcons, hwfL⟩ :=
                createFolder_pack svc st lt.label 3 (some SF) lt.aliases
                  (SF.path ++ "/" ++ lt.label) hwf rfl embL hembL (Or.inr (Or.inr rfl))
                  (fun hc => absurd hc (by omega))
              refine ⟨hwfL, fun d₀ pid₀ hne3 => ?_⟩
              refine consExt_of_create st _ d₀ pid₀ 3 _ _ _ hvecs rfl
                (fun hc => hne3 hc.symm) hcons ?_
              rw [hbydL d₀, if_neg hne3]
        · rw [matchLeaf_reuse svc cfg st cand sres lt SF fL sL hlt hlc hsf hLfb] at h
          injection h with h1 h2
          subst h2
          exact ⟨hwf, fun d₀ pid₀ _ => consExt_refl d₀ pid₀ st⟩

theorem matchLeaf_replay (svc : EmbeddingOracle) (cfg : ThresholdConfig)
    (st : MatcherState) (cand : TaxonomyCandidate) (sres₁ sres₂ : MatchResult)
    (SF : FolderEntity) (hwf : WFState st)
    (htot : ∀ t, (svc.embed t).isSome = true)
    (hdim : ∀ t₁ t₂ q₁ q₂, svc.embed t₁ = some q₁ → svc.embed t₂ = some q₂ →
      q₁.length = q₂.length)
    (hsf₁ : sres₁.get_folder = some SF) (hsf₂ : sres₂.get_folder = some SF) :
    ∀ (lres₁ : Option MatchResult) (stL : MatcherState),
      matchLeaf svc cfg st cand sres₁ = (lres₁, stL) →
      ∃ lres₂ stX, matchLeaf svc cfg stL cand sres₂ = (lres₂, stX) ∧
        leafParts lres₂ = leafParts lres₁ ∧
        ∀ f ∈ leafCreatedList lres₂, f.depth = 3 := by
  intro lres₁ stL h
  cases hlt : cand.leaf_topic with
  | none =>
    rw [matchLeaf_none_topic svc cfg st cand sres₁ hlt] at h
    injection h with h1 h2
    subst h1
    subst h2
    exact ⟨none, st, matchLeaf_none_topic svc cfg st cand sres₂ hlt, rfl,
      fun f hf => absurd hf (List.not_mem_nil f)⟩
  | some lt =>
    by_cases hlc : lt.optional = true ∧ cand.confidence < cfg.leaf_confidence_threshold
    · rw [matchLeaf_lowconf svc cfg st cand sres₁ lt hlt hlc.1 hlc.2] at h
      injection h with h1 h2
      subst h1
      subst h2
      exact ⟨_, st, matchLeaf_lowconf svc cfg st cand sres₂ lt hlt hlc.1 hlc.2, rfl,
        fun f hf => absurd hf (List.not_mem_nil f)⟩
    · obtain ⟨ql, hql⟩ := Option.isSome_iff_exists.mp
        (htot (SF.path ++ " > " ++ lt.label))
      rcases fbm_cases svc cfg st hwf (SF.path ++ " > " ++ lt.label) 3
          (some SF.folder_id) cfg.leaf_threshold ql hql with
        hL | ⟨fL, sL, hLfb, hLrest⟩
      · by_cases hmd : cfg.max_depth ≤ SF.depth
        · rw [matchLeaf_skip_maxdepth svc cfg st cand sres₁ lt SF 0 hlt hlc hsf₁ hL hmd]
            at h
          injection h with h1 h2
          subst h1
          subst h2
          exact ⟨_, st,
            matchLeaf_skip_maxdepth svc cfg st cand sres₂ lt SF 0 hlt hlc hsf₂ hL hmd,
            rfl, fun f hf => absurd hf (List.not_mem_nil f)⟩
        · cases hopt : lt.optional with
          | true =>
            rw [matchLeaf_skip_optional svc cfg st cand sres₁ lt SF 0 hlt hlc hsf₁ hL
              hmd hopt] at h
            injection h with h1 h2
            subst h1
            subst h2
            exact ⟨_, st, matchLeaf_skip_optional svc cfg st cand sres₂ lt SF 0 hlt hlc
              hsf₂ hL hmd hopt, rfl, fun f hf => absurd hf (List.not_mem_nil f)⟩
          | false =>
            rw [matchLeaf_attach svc cfg st cand sres₁ lt SF 0 hlt hlc hsf₁ hL hmd hopt]
              at h
            injection h with h1 h2
            subst h1
            subst h2
            obtain ⟨embL, hembL⟩ := Option.isSome_iff_exists.mp
              (htot (replaceSlashGt (SF.path ++ "/" ++ lt.label)))
            obtain ⟨hfid, hpathL, hlabL, hdepL, hparL, hembfL, hvecs, hcch, hnid,
                hbydL, hlk, hcons, hwfL⟩ :=
              createFolder_pack svc st lt.label 3 (some SF) lt.aliases
                (SF.path ++ "/" ++ lt.label) hwf rfl embL hembL (Or.inr (Or.inr rfl))
                (fun hc => absurd hc (by omega))
            have hdimL : embL.length = ql.length := hdim _ _ _ _ hembL hql
            have hfilter : filterOk (some (levelFilter 3 (some SF.folder_id)))
                [("type", MVal.str "folder"), ("folder_id", MVal.str (freshId st.nextId)),
                 ("path", MVal.str (SF.path ++ "/" ++ lt.label)), ("depth", MVal.nat 3),
                 ("parent_id", optStrVal (Option.map (fun p => p.folder_id) (some SF))),
                 ("is_seed", MVal.bool false)] = true :=
              filterOk_levelFilter_intro 3 (some SF.folder_id) _ rfl rfl
                (fun p hp _ => by injection hp with hp; subst hp; rfl)
            have hsc := congrArg (fun v => scoredRows svc.sim v ql
              (some (levelFilter 3 (some SF.folder_id)))) hvecs
            dsimp only at hsc
            rw [scoredRows_append,
              scoredRows_singleton_pass svc.sim _ embL _ ql _ hfilter hdimL] at hsc
            have haug := augCands_append st _ 3 (some SF.folder_id) _
              (by rw [hbydL 3, if_pos rfl])
              (fun p hp _ => by injection hp with hp; subst hp; exact hparL)
            have hNres := cacheResolve_entry_of_md
              ((createFolder svc st lt.label 3 (some SF) lt.aliases).2)
              ((some (embeddingIdFor (freshId st.nextId)), svc.sim ql embL,
                [("type", MVal.str "folder"), ("folder_id", MVal.str (freshId st.nextId)),
                 ("path", MVal.str (SF.path ++ "/" ++ lt.label)), ("depth", MVal.nat 3),
                 ("parent_id", optStrVal (Option.map (fun p => p.folder_id) (some SF))),
                 ("is_seed", MVal.bool false)]) : SearchEntry)
              (freshId st.nextId)
              ((createFolder svc st lt.label 3 (some SF) lt.aliases).1) rfl hlk
            have hNcache : List.lookup
                ((createFolder svc st lt.label 3 (some SF) lt.aliases).1).folder_id
                ((createFolder svc st lt.label 3 (some SF) lt.aliases).2).folderCache =
                some ((createFolder svc st lt.label 3 (some SF) lt.aliases).1) := by
              rw [hfid]
              exact hlk
            have hNemb : ∀ emb,
                ((createFolder svc st lt.label 3 (some SF) lt.aliases).1).embedding =
                  some emb → svc.sim ql emb = svc.sim ql embL := by
              intro emb hmb
              rw [hembfL] at hmb
              injection hmb with hmb
              rw [← hmb]
            have hfail := fbm_none_fails svc cfg st (SF.path ++ " > " ++ lt.label) 3
              (some SF.folder_id) cfg.leaf_threshold ql st.nextId hql hL
            rcases fbm_create_replay svc cfg st
                ((createFolder svc st lt.label 3 (some SF) lt.aliases).2) hwf hcons
                (SF.path ++ " > " ++ lt.label) 3 (some SF.folder_id) cfg.leaf_threshold
                ql hql ((createFolder svc st lt.label 3 (some SF) lt.aliases).1) _
                hsc haug hNres hNcache hNemb hfail with h2none | h2some
            · refine ⟨_, _, matchLeaf_attach svc cfg _ cand sres₂ lt SF 0 hlt hlc hsf₂
                h2none hmd hopt, ?_, ?_⟩
              · show [(createFolder svc
                    ((createFolder svc st lt.label 3 (some SF) lt.aliases).2)
                    lt.label 3 (some SF) lt.aliases).1.label] =
                  [(createFolder svc st lt.label 3 (some SF) lt.aliases).1.label]
                rw [(createFolder_fields svc
                  ((createFolder svc st lt.label 3 (some SF) lt.aliases).2)
                  lt.label 3 (some SF) lt.aliases).2.1, hlabL]
              · intro f hf
                have hf' := List.mem_singleton.mp hf
                rw [hf']
                exact (createFolder_fields svc
                  ((createFolder svc st lt.label 3 (some SF) lt.aliases).2)
                  lt.label 3 (some SF) lt.aliases).2.2.1
            · refine ⟨_, _, matchLeaf_reuse svc cfg _ cand sres₂ lt SF _ _ hlt hlc hsf₂
                h2some, rfl, fun f hf => absurd hf (List.not_mem_nil f)⟩
      · rw [matchLeaf_reuse svc cfg st cand sres₁ lt SF fL sL hlt hlc hsf₁ hLfb] at h
        injection h with h1 h2
        subst h1
        subst h2
        exact ⟨_, st, matchLeaf_reuse svc cfg st cand sres₂ lt SF fL sL hlt hlc hsf₂
          hLfb, rfl, fun f hf => absurd hf (List.not_mem_nil f)⟩

theorem matchDomain_replay_reuse (svc : EmbeddingOracle) (cfg : ThresholdConfig)
    (st₀ st₁ : MatcherState) (cand : TaxonomyCandidate) (hwf0 : WFState st₀)
    (qd : List ℚ) (hqd : svc.embed cand.domain.label = some qd)
    (hce : ConsExt 1 none st₀ st₁) (fD : FolderEntity) (sD : ℚ)
    (hDfb : findBestMatch svc cfg st₀ cand.domain.label 1 none cfg.domain_threshold =
      ((some fD, sD), st₀.nextId)) :
    matchDomain svc cfg st₁ cand =
      ({ level := .DOMAIN, action := .REUSE_EXISTING, matched_folder := some fD,
         similarity_score := sD, label_used := fD.label,
         notes := "Reused existing domain " ++ fD.label }, st₁) := by
  have h2 := fbm_reuse_replay svc cfg st₀ st₁ hwf0 hce.cache cand.domain.label 1 none
    cfg.domain_threshold qd hqd (scoredRows_of_consExt svc qd 1 none st₀ st₁ hce)
    (augCands_congr st₀ st₁ 1 none hce.byd)
  rw [hDfb] at h2
  exact matchDomain_reuse svc cfg st₁ cand fD sD h2

theorem matchDomain_replay_create (svc : EmbeddingOracle) (cfg : ThresholdConfig)
    (st₀ st₁ : MatcherState) (cand : TaxonomyCandidate) (hwf0 : WFState st₀)
    (qd : List ℚ) (hqd : svc.embed cand.domain.label = some qd)
    (hself1 : svc.sim qd qd = 1) (hdthr : cfg.domain_threshold ≤ 1)
    (hds : '/' ∉ cand.domain.label.data)
    (hD : findBestMatch svc cfg st₀ cand.domain.label 1 none cfg.domain_threshold =
      ((none, 0), st₀.nextId))
    (hce : ConsExt 1 none
      (createFolder svc st₀ cand.domain.label 1 none cand.domain.aliases).2 st₁) :
    matchDomain svc cfg st₁ cand =
      ({ level := .DOMAIN, action := .REUSE_EXISTING,
         matched_folder :=
           some (createFolder svc st₀ cand.domain.label 1 none cand.domain.aliases).1,
         similarity_score := 1,
         label_used :=
           (createFolder svc st₀ cand.domain.label 1 none cand.domain.aliases).1.label,
         notes := "Reused existing domain " ++
           (createFolder svc st₀ cand.domain.label 1 none
             cand.domain.aliases).1.label }, st₁) := by
  have hembD : svc.embed (replaceSlashGt cand.domain.label) = some qd := by
    rw [replaceSlashGt_of_no_slash hds]
    exact hqd
  obtain ⟨hfid, hpathD, hlabD, hdepD, hparD, hembfD, hvecs, hcch, hnid,
      hbydD, hlkD, hconsD, hwfD⟩ :=
    createFolder_pack svc st₀ cand.domain.label 1 none cand.domain.aliases
      cand.domain.label hwf0 rfl qd hembD (Or.inl rfl) (fun _ => ⟨rfl, hds⟩)
  have hfilter : filterOk (some (levelFilter 1 none))
      [("type", MVal.str "folder"), ("folder_id", MVal.str (freshId st₀.nextId)),
       ("path", MVal.str cand.domain.label), ("depth", MVal.nat 1),
       ("parent_id", optStrVal (Option.map (fun p => p.folder_id) (none : Option FolderEntity))),
       ("is_seed", MVal.bool false)] = true :=
    filterOk_levelFilter_intro 1 none _ rfl rfl
      (fun p hp _ => Option.noConfusion hp)
  have hsc := congrArg (fun v => scoredRows svc.sim v qd (some (levelFilter 1 none)))
    hvecs
  dsimp only at hsc
  rw [scoredRows_append, scoredRows_singleton_pass svc.sim _ qd _ qd _ hfilter rfl]
    at hsc
  have haug := augCands_append st₀ _ 1 none _
    (by rw [hbydD 1, if_pos rfl]) (fun p hp _ => Option.noConfusion hp)
  have hsc₁ := scoredRows_of_consExt svc qd 1 none _ st₁ hce
  rw [hsc] at hsc₁
  have haug₁ := (augCands_congr _ st₁ 1 none hce.byd).trans haug
  have hcons₁ : ∀ k g, List.lookup k st₀.folderCache = some g →
      List.lookup k st₁.folderCache = some g :=
    fun k g hk => hce.cache k g (hconsD k g hk)
  have hNres := cacheResolve_entry_of_md st₁
    ((some (embeddingIdFor (freshId st₀.nextId)), svc.sim qd qd,
      [("type", MVal.str "folder"), ("folder_id", MVal.str (freshId st₀.nextId)),
       ("path", MVal.str cand.domain.label), ("depth", MVal.nat 1),
       ("parent_id", optStrVal (Option.map (fun p => p.folder_id)
         (none : Option FolderEntity))),
       ("is_seed", MVal.bool false)]) : SearchEntry)
    (freshId st₀.nextId)
    ((createFolder svc st₀ cand.domain.label 1 none cand.domain.aliases).1) rfl
    (hce.cache _ _ hlkD)
  have hNcache : List.lookup
      ((createFolder svc st₀ cand.domain.label 1 none cand.domain.aliases).1).folder_id
      st₁.folderCache =
      some ((createFolder svc st₀ cand.domain.label 1 none cand.domain.aliases).1) := by
    rw [hfid]
    exact hce.cache _ _ hlkD
  have hNemb : ∀ emb,
      ((createFolder svc st₀ cand.domain.label 1 none
        cand.domain.aliases).1).embedding = some emb →
      svc.sim qd emb = svc.sim qd qd := by
    intro emb hmb
    rw [hembfD] at hmb
    injection hmb with hmb
    rw [← hmb]
  have hfail := fbm_none_fails svc cfg st₀ cand.domain.label 1 none
    cfg.domain_threshold qd st₀.nextId hqd hD
  have hth : cfg.domain_threshold ≤ svc.sim qd qd := by
    rw [hself1]
    exact hdthr
  have hsan : sanityCheck cfg cand.domain.label
      ((createFolder svc st₀ cand.domain.label 1 none
        cand.domain.aliases).1).path (svc.sim qd qd) = true := by
    rw [hself1]
    exact sanity_big_accepts cfg _ _ 1 (by decide)
  have hmax : ∀ e ∈ scoredRows svc.sim st₀.vectors qd (some (levelFilter 1 none)),
      SearchEntry.score e < svc.sim qd qd := by
    intro e he
    rw [hself1]
    exact fbm_none_scores_lt svc cfg st₀ hwf0 cand.domain.label 1 none
      cfg.domain_threshold qd st₀.nextId hqd hD hdthr e he
  have hfb₂ := fbm_create_replay_match svc cfg st₀ st₁ hwf0 hcons₁ cand.domain.label 1
    none cfg.domain_threshold qd hqd
    ((createFolder svc st₀ cand.domain.label 1 none cand.domain.aliases).1) _
    hsc₁ haug₁ hNres hNcache hNemb hfail hth hsan hmax
  rw [hself1] at hfb₂
  exact matchDomain_reuse svc cfg st₁ cand _ _ hfb₂

theorem matchSubdomain_replay_reuse (svc : EmbeddingOracle) (cfg : ThresholdConfig)
    (st_s st₁ : MatcherState) (cand : TaxonomyCandidate) (dres₂ : MatchResult)
    (D : FolderEntity) (hwfS : WFState st_s)
    (qs : List ℚ) (hqs : svc.embed (D.label ++ " > " ++ cand.subdomain.label) = some qs)
    (hce : ConsExt 2 (some D.folder_id) st_s st₁)
    (hdf₂ : dres₂.get_folder = some D) (fS : FolderEntity) (sS : ℚ)
    (hSfb : findBestMatch svc cfg st_s (D.label ++ " > " ++ cand.subdomain.label) 2
      (some D.folder_id) cfg.subdomain_threshold = ((some fS, sS), st_s.nextId)) :
    matchSubdomain svc cfg st₁ cand dres₂ =
      some ({ level := .SUBDOMAIN, action := .REUSE_EXISTING, matched_folder := some fS,
              similarity_score := sS, label_used := fS.label,
              notes := "Reused existing subdomain " ++ fS.label }, st₁) := by
  have h2 := fbm_reuse_replay svc cfg st_s st₁ hwfS hce.cache
    (D.label ++ " > " ++ cand.subdomain.label) 2 (some D.folder_id)
    cfg.subdomain_threshold qs hqs
    (scoredRows_of_consExt svc qs 2 (some D.folder_id) st_s st₁ hce)
    (augCands_congr st_s st₁ 2 (some D.folder_id) hce.byd)
  rw [hSfb] at h2
  exact matchSubdomain_reuse svc cfg st₁ cand dres₂ D fS sS hdf₂ h2

theorem matchSubdomain_replay_attach (svc : EmbeddingOracle) (cfg : ThresholdConfig)
    (st_s st₁ : MatcherState) (cand : TaxonomyCandidate) (dres₂ : MatchResult)
    (D : FolderEntity) (hwfS : WFState st_s)
    (qs : List ℚ) (hqs : svc.embed (D.label ++ " > " ++ cand.subdomain.label) = some qs)
    (hselfs : svc.sim qs qs = 1) (hsthr : cfg.subdomain_threshold ≤ 1)
    (hembS : svc.embed (replaceSlashGt (D.path ++ "/" ++ cand.subdomain.label)) =
      some qs)
    (hS : findBestMatch svc cfg st_s (D.label ++ " > " ++ cand.subdomain.label) 2
      (some D.folder_id) cfg.subdomain_threshold = ((none, 0), st_s.nextId))
    (hce : ConsExt 2 (some D.folder_id)
      (createFolder svc st_s cand.subdomain.label 2 (some D)
        cand.subdomain.aliases).2 st₁)
    (hdf₂ : dres₂.get_folder = some D) :
    matchSubdomain svc cfg st₁ cand dres₂ =
      some ({ level := .SUBDOMAIN, action := .REUSE_EXISTING,
              matched_folder := some (createFolder svc st_s cand.subdomain.label 2
                (some D) cand.subdomain.aliases).1,
              similarity_score := 1,
              label_used := (createFolder svc st_s cand.subdomain.label 2 (some D)
                cand.subdomain.aliases).1.label,
              notes := "Reused existing subdomain " ++
                (createFolder svc st_s cand.subdomain.label 2 (some D)
                  cand.subdomain.aliases).1.label }, st₁) := by
  obtain ⟨hfid, hpathS, hlabS, hdepS, hparS, hembfS, hvecs, hcch, hnid,
      hbydS, hlkS, hconsS, hwfS'⟩ :=
    createFolder_pack svc st_s cand.subdomain.label 2 (some D) cand.subdomain.aliases
      (D.path ++ "/" ++ cand.subdomain.label) hwfS rfl qs hembS (Or.inr (Or.inl rfl))
      (fun hc => absurd hc (by omega))
  have hfilter : filterOk (some (levelFilter 2 (some D.folder_id)))
      [("type", MVal.str "folder"), ("folder_id", MVal.str (freshId st_s.nextId)),
       ("path", MVal.str (D.path ++ "/" ++ cand.subdomain.label)), ("depth", MVal.nat 2),
       ("parent_id", optStrVal (Option.map (fun p => p.folder_id) (some D))),
       ("is_seed", MVal.bool false)] = true :=
    filterOk_levelFilter_intro 2 (some D.folder_id) _ rfl rfl
      (fun p hp _ => by injection hp with hp; subst hp; rfl)
  have hsc := congrArg (fun v => scoredRows svc.sim v qs
    (some (levelFilter 2 (some D.folder_id)))) hvecs
  dsimp only at hsc
  rw [scoredRows_append, scoredRows_singleton_pass svc.sim _ qs _ qs _ hfilter rfl]
    at hsc
  have haug := augCands_append st_s _ 2 (some D.folder_id) _
    (by rw [hbydS 2, if_pos rfl])
    (fun p hp _ => by injection hp with hp; subst hp; exact hparS)
  have hsc₁ := scoredRows_of_consExt svc qs 2 (some D.folder_id) _ st₁ hce
  rw [hsc] at hsc₁
  have haug₁ := (augCands_congr _ st₁ 2 (some D.folder_id) hce.byd).trans haug
  have hcons₁ : ∀ k g, List.lookup k st_s.folderCache = some g →
      List.lookup k st₁.folderCache = some g :=
    fun k g hk => hce.cache k g (hconsS k g hk)
  have hNres := cacheResolve_entry_of_md st₁
    ((some (embeddingIdFor (freshId st_s.nextId)), svc.sim qs qs,
      [("type", MVal.str "folder"), ("folder_id", MVal.str (freshId st_s.nextId)),
       ("path", MVal.str (D.path ++ "/" ++ cand.subdomain.label)), ("depth", MVal.nat 2),
       ("parent_id", optStrVal (Option.map (fun p => p.folder_id) (some D))),
       ("is_seed", MVal.bool false)]) : SearchEntry)
    (freshId st_s.nextId)
    ((createFolder svc st_s cand.subdomain.label 2 (some D)
      cand.subdomain.aliases).1) rfl
    (hce.cache _ _ hlkS)
  have hNcache : List.lookup
      ((createFolder svc st_s cand.subdomain.label 2 (some D)
        cand.subdomain.aliases).1).folder_id st₁.folderCache =
      some ((createFolder svc st_s cand.subdomain.label 2 (some D)
        cand.subdomain.aliases).1) := by
    rw [hfid]
    exact hce.cache _ _ hlkS
  have hNemb : ∀ emb,
      ((createFolder svc st_s cand.subdomain.label 2 (some D)
        cand.subdomain.aliases).1).embedding = some emb →
      svc.sim qs emb = svc.sim qs qs := by
    intro emb hmb
    rw [hembfS] at hmb
    injection hmb with hmb
    rw [← hmb]
  have hfail := fbm_none_fails svc cfg st_s (D.label ++ " > " ++ cand.subdomain.label) 2
    (some D.folder_id) cfg.subdomain_threshold qs st_s.nextId hqs hS
  have hth : cfg.subdomain_threshold ≤ svc.sim qs qs := by
    rw [hselfs]
    exact hsthr
  have hsan : sanityCheck cfg (D.label ++ " > " ++ cand.subdomain.label)
      ((createFolder svc st_s cand.subdomain.label 2 (some D)
        cand.subdomain.aliases).1).path (svc.sim qs qs) = true := by
    rw [hselfs]
    exact sanity_big_accepts cfg _ _ 1 (by decide)
  have hmax : ∀ e ∈ scoredRows svc.sim st_s.vectors qs
      (some (levelFilter 2 (some D.folder_id))),
      SearchEntry.score e < svc.sim qs qs := by
    intro e he
    rw [hselfs]
    exact fbm_none_scores_lt svc cfg st_s hwfS
      (D.label ++ " > " ++ cand.subdomain.label) 2 (some D.folder_id)
      cfg.subdomain_threshold qs st_s.nextId hqs hS hsthr e he
  have hfb₂ := fbm_create_replay_match svc cfg st_s st₁ hwfS hcons₁
    (D.label ++ " > " ++ cand.subdomain.label) 2 (some D.folder_id)
    cfg.subdomain_threshold qs hqs
    ((createFolder svc st_s cand.subdomain.label 2 (some D)
      cand.subdomain.aliases).1) _
    hsc₁ haug₁ hNres hNcache hNemb hfail hth hsan hmax
  rw [hselfs] at hfb₂
  exact matchSubdomain_reuse svc cfg st₁ cand dres₂ D _ _ hdf₂ hfb₂

/-- C4 amended: re-classifying the same candidate against the state produced by
the first classification (deterministic total embedding backend of fixed
dimension, exact self-similarity 1 on non-empty vectors, thresholds at most 1,
slash-free domain and subdomain labels, well-formed initial store) yields the
same `final_path`, the second call reuses the existing domain and subdomain
folders (`REUSE_EXISTING`), and every folder the second call creates is a
depth-3 leaf — the second call is not guaranteed to create nothing, because
the leaf search text differs from the stored leaf embedding text. -/
theorem C4_reclassify_reuse (svc : EmbeddingOracle) (cfg : ThresholdConfig)
    (st₀ : MatcherState) (cand : TaxonomyCandidate)
    (hwf : WFState st₀)
    (htot : ∀ t, (svc.embed t).isSome = true)
    (hne : ∀ t q, svc.embed t = some q → q ≠ [])
    (hdim : ∀ t₁ t₂ q₁ q₂, svc.embed t₁ = some q₁ → svc.embed t₂ = some q₂ →
      q₁.length = q₂.length)
    (hself : ∀ v, v ≠ [] → svc.sim v v = 1)
    (hdthr : cfg.domain_threshold ≤ 1) (hsthr : cfg.subdomain_threshold ≤ 1)
    (hds : '/' ∉ cand.domain.label.data) (hss : '/' ∉ cand.subdomain.label.data)
    (hm₁ hm₂ : HierarchicalMatch) (st₁ st₂ : MatcherState)
    (h1 : matchCandidate svc cfg st₀ cand = some (hm₁, st₁))
    (h2 : matchCandidate svc cfg st₁ cand = some (hm₂, st₂)) :
    hm₂.get_final_path = hm₁.get_final_path ∧
    hm₂.domain_result.action = MatchAction.REUSE_EXISTING ∧
    hm₂.subdomain_result.action = MatchAction.REUSE_EXISTING ∧
    ∀ f ∈ hm₂.get_created_folders, f.depth = 3 := by
  obtain ⟨qd, hqd⟩ := Option.isSome_iff_exists.mp (htot cand.domain.label)
  have hself_qd : svc.sim qd qd = 1 := hself qd (hne _ _ hqd)
  rcases fbm_cases svc cfg st₀ hwf cand.domain.label 1 none cfg.domain_threshold qd hqd
    with hD | ⟨fD, sD, hDfb, hDth, hDsan, hDshape⟩
  · -- domain CREATE
    have hdom1 := matchDomain_create svc cfg st₀ cand hD
    have hembD : svc.embed (replaceSlashGt cand.domain.label) = some qd := by
      rw [replaceSlashGt_of_no_slash hds]
      exact hqd
    obtain ⟨hDfid, hDpath, hDlab, hDdep, hDpar, hDembf, hDvecs, hDcch, hDnid,
        hDbyd, hDlk, hDcons, hwfD⟩ :=
      createFolder_pack svc st₀ cand.domain.label 1 none cand.domain.aliases
        cand.domain.label hwf rfl qd hembD (Or.inl rfl) (fun _ => ⟨rfl, hds⟩)
    have hDsl : '/' ∉ ((createFolder svc st₀ cand.domain.label 1 none
        cand.domain.aliases).1).path.data := by
      rw [hDpath]
      exact hds
    obtain ⟨qs, hqs⟩ := Option.isSome_iff_exists.mp
      (htot (((createFolder svc st₀ cand.domain.label 1 none
        cand.domain.aliases).1).label ++ " > " ++ cand.subdomain.label))
    have hself_qs : svc.sim qs qs = 1 := hself qs (hne _ _ hqs)
    rcases fbm_cases svc cfg
        ((createFolder svc st₀ cand.domain.label 1 none cand.domain.aliases).2) hwfD
        (((createFolder svc st₀ cand.domain.label 1 none
          cand.domain.aliases).1).label ++ " > " ++ cand.subdomain.label) 2
        (some ((createFolder svc st₀ cand.domain.label 1 none
          cand.domain.aliases).1).folder_id) cfg.subdomain_threshold qs hqs
      with hS | ⟨fS, sS, hSfb, hSrest⟩
    · -- subdomain ATTACH
      have hsub1 := matchSubdomain_attach svc cfg
        ((createFolder svc st₀ cand.domain.label 1 none cand.domain.aliases).2) cand
        ({ level := .DOMAIN, action := .CREATE_NEW,
           new_folder := some (createFolder svc st₀ cand.domain.label 1 none
             cand.domain.aliases).1,
           similarity_score := 0,
           label_used := (createFolder svc st₀ cand.domain.label 1 none
             cand.domain.aliases).1.label,
           notes := "Created new domain " ++ (createFolder svc st₀ cand.domain.label 1
             none cand.domain.aliases).1.label })
        ((createFolder svc st₀ cand.domain.label 1 none cand.domain.aliases).1)
        hwfD rfl hS
      have hembS : svc.embed (replaceSlashGt
          (((createFolder svc st₀ cand.domain.label 1 none
            cand.domain.aliases).1).path ++ "/" ++ cand.subdomain.label)) = some qs := by
        rw [replaceSlashGt_append _ cand.subdomain.label hDsl hss, hDpath, ← hDlab]
        exact hqs
      obtain ⟨hSfid, hSpath, hSlab, hSdep, hSpar, hSembf, hSvecs, hScch, hSnid,
          hSbyd, hSlk, hScons, hwfS2⟩ :=
        createFolder_pack svc
          ((createFolder svc st₀ cand.domain.label 1 none cand.domain.aliases).2)
          cand.subdomain.label 2
          (some ((createFolder svc st₀ cand.domain.label 1 none
            cand.domain.aliases).1)) cand.subdomain.aliases
          (((createFolder svc st₀ cand.domain.label 1 none
            cand.domain.aliases).1).path ++ "/" ++ cand.subdomain.label)
          hwfD rfl qs hembS (Or.inr (Or.inl rfl)) (fun hc => absurd hc (by omega))
      rcases hleaf1 : matchLeaf svc cfg
          ((createFolder svc
            ((createFolder svc st₀ cand.domain.label 1 none cand.domain.aliases).2)
            cand.subdomain.label 2
            (some ((createFolder svc st₀ cand.domain.label 1 none
              cand.domain.aliases).1)) cand.subdomain.aliases).2) cand
          { level := .SUBDOMAIN, action := .ATTACH_AS_CHILD,
            new_folder := some (createFolder svc
              ((createFolder svc st₀ cand.domain.label 1 none cand.domain.aliases).2)
              cand.subdomain.label 2
              (some ((createFolder svc st₀ cand.domain.label 1 none
                cand.domain.aliases).1)) cand.subdomain.aliases).1,
            similarity_score := 0,
            label_used := (createFolder svc
              ((createFolder svc st₀ cand.domain.label 1 none cand.domain.aliases).2)
              cand.subdomain.label 2
              (some ((createFolder svc st₀ cand.domain.label 1 none
                cand.domain.aliases).1)) cand.subdomain.aliases).1.label,
            notes := "Created subdomain " ++ (createFolder svc
              ((createFolder svc st₀ cand.domain.label 1 none cand.domain.aliases).2)
              cand.subdomain.label 2
              (some ((createFolder svc st₀ cand.domain.label 1 none
                cand.domain.aliases).1)) cand.subdomain.aliases).1.label ++
              " under " ++ ((createFolder svc st₀ cand.domain.label 1 none
                cand.domain.aliases).1).label }
        with ⟨lres₁, stL⟩
      obtain ⟨hwfL, hceL⟩ := matchLeaf_state svc cfg _ cand _ hwfS2 htot lres₁ stL hleaf1
      have hmc1 := matchCandidate_eq svc cfg st₀ cand _ _ _ _ lres₁ stL hdom1 hsub1
        hleaf1
      rw [hmc1] at h1
      injection h1 with h1
      injection h1 with hhm1 hst1
      subst hhm1
      subst hst1
      have hceS1 : ConsExt 1 none
          ((createFolder svc st₀ cand.domain.label 1 none cand.domain.aliases).2) _ :=
        consExt_of_create _ _ 1 none 2 _ _ _ hSvecs rfl (by omega) hScons
          (by rw [hSbyd 1, if_neg (by omega)])
      have hce1 := consExt_trans hceS1 (hceL 1 none (by omega))
      have hdom2 := matchDomain_replay_create svc cfg st₀ stL cand hwf qd hqd hself_qd
        hdthr hds hD hce1
      have hsub2 := matchSubdomain_replay_attach svc cfg
        ((createFolder svc st₀ cand.domain.label 1 none cand.domain.aliases).2) stL cand
        ({ level := .DOMAIN, action := .REUSE_EXISTING,
           matched_folder := some (createFolder svc st₀ cand.domain.label 1 none
             cand.domain.aliases).1,
           similarity_score := 1,
           label_used := (createFolder svc st₀ cand.domain.label 1 none
             cand.domain.aliases).1.label,
           notes := "Reused existing domain " ++ (createFolder svc st₀
             cand.domain.label 1 none cand.domain.aliases).1.label })
        ((createFolder svc st₀ cand.domain.label 1 none cand.domain.aliases).1)
        hwfD qs hqs hself_qs hsthr hembS hS (hceL 2 _ (by omega)) rfl
      obtain ⟨lres₂, stX, hleaf2, hparts, hcreated⟩ := matchLeaf_replay svc cfg _ cand
        _
        ({ level := .SUBDOMAIN, action := .REUSE_EXISTING,
           matched_folder := some (createFolder svc
             ((createFolder svc st₀ cand.domain.label 1 none cand.domain.aliases).2)
             cand.subdomain.label 2
             (some ((createFolder svc st₀ cand.domain.label 1 none
               cand.domain.aliases).1)) cand.subdomain.aliases).1,
           similarity_score := 1,
           label_used := (createFolder svc
             ((createFolder svc st₀ cand.domain.label 1 none cand.domain.aliases).2)
             cand.subdomain.label 2
             (some ((createFolder svc st₀ cand.domain.label 1 none
               cand.domain.aliases).1)) cand.subdomain.aliases).1.label,
           notes := "Reused existing subdomain " ++ (createFolder svc
             ((createFolder svc st₀ cand.domain.label 1 none cand.domain.aliases).2)
             cand.subdomain.label 2
             (some ((createFolder svc st₀ cand.domain.label 1 none
               cand.domain.aliases).1)) cand.subdomain.aliases).1.label })
        ((createFolder svc
          ((createFolder svc st₀ cand.domain.label 1 none cand.domain.aliases).2)
          cand.subdomain.label 2
          (some ((createFolder svc st₀ cand.domain.label 1 none
            cand.domain.aliases).1)) cand.subdomain.aliases).1)
        hwfS2 htot hdim (by exact rfl) rfl lres₁ stL hleaf1
      have hmc2 := matchCandidate_eq svc cfg stL cand _ _ _ _ lres₂ stX hdom2 hsub2
        hleaf2
      rw [hmc2] at h2
      injection h2 with h2
      injection h2 with hhm2 hst2
      subst hhm2
      refine ⟨?_, rfl, rfl, ?_⟩
      · rw [get_final_path_eq, get_final_path_eq, hparts]
        rfl
      · intro f hf
        exact hcreated f hf
    · -- subdomain REUSE
      have hsub1 := matchSubdomain_reuse svc cfg
        ((createFolder svc st₀ cand.domain.label 1 none cand.domain.aliases).2) cand
        ({ level := .DOMAIN, action := .CREATE_NEW,
           new_folder := some (createFolder svc st₀ cand.domain.label 1 none
             cand.domain.aliases).1,
           similarity_score := 0,
           label_used := (createFolder svc st₀ cand.domain.label 1 none
             cand.domain.aliases).1.label,
           notes := "Created new domain " ++ (createFolder svc st₀ cand.domain.label 1
             none cand.domain.aliases).1.label })
        ((createFolder svc st₀ cand.domain.label 1 none cand.domain.aliases).1)
        fS sS rfl hSfb
      rcases hleaf1 : matchLeaf svc cfg
          ((createFolder svc st₀ cand.domain.label 1 none cand.domain.aliases).2) cand
          { level := .SUBDOMAIN, action := .REUSE_EXISTING, matched_folder := some fS,
            similarity_score := sS, label_used := fS.label,
            notes := "Reused existing subdomain " ++ fS.label }
        with ⟨lres₁, stL⟩
      obtain ⟨hwfL, hceL⟩ := matchLeaf_state svc cfg _ cand _ hwfD htot lres₁ stL hleaf1
      have hmc1 := matchCandidate_eq svc cfg st₀ cand _ _ _ _ lres₁ stL hdom1 hsub1
        hleaf1
      rw [hmc1] at h1
      injection h1 with h1
      injection h1 with hhm1 hst1
      subst hhm1
      subst hst1
      have hdom2 := matchDomain_replay_create svc cfg st₀ stL cand hwf qd hqd hself_qd
        hdthr hds hD (hceL 1 none (by omega))
      have hsub2 := matchSubdomain_replay_reuse svc cfg
        ((createFolder svc st₀ cand.domain.label 1 none cand.domain.aliases).2) stL cand
        ({ level := .DOMAIN, action := .REUSE_EXISTING,
           matched_folder := some (createFolder svc st₀ cand.domain.label 1 none
             cand.domain.aliases).1,
           similarity_score := 1,
           label_used := (createFolder svc st₀ cand.domain.label 1 none
             cand.domain.aliases).1.label,
           notes := "Reused existing domain " ++ (createFolder svc st₀
             cand.domain.label 1 none cand.domain.aliases).1.label })
        ((createFolder svc st₀ cand.domain.label 1 none cand.domain.aliases).1)
        hwfD qs hqs (hceL 2 _ (by omega)) rfl fS sS hSfb
      obtain ⟨lres₂, stX, hleaf2, hparts, hcreated⟩ := matchLeaf_replay svc cfg _ cand
        _
        ({ level := .SUBDOMAIN, action := .REUSE_EXISTING, matched_folder := some fS,
           similarity_score := sS, label_used := fS.label,
           notes := "Reused existing subdomain " ++ fS.label })
        fS hwfD htot hdim (by exact rfl) rfl lres₁ stL hleaf1
      have hmc2 := matchCandidate_eq svc cfg stL cand _ _ _ _ lres₂ stX hdom2 hsub2
        hleaf2
      rw [hmc2] at h2
      injection h2 with h2
      injection h2 with hhm2 hst2
      subst hhm2
      refine ⟨?_, rfl, rfl, ?_⟩
      · rw [get_final_path_eq, get_final_path_eq, hparts]
        rfl
      · intro f hf
        exact hcreated f hf
  · -- domain REUSE
    have hdom1 := matchDomain_reuse svc cfg st₀ cand fD sD hDfb
    have hDsh := hDshape rfl
    obtain ⟨qs, hqs⟩ := Option.isSome_iff_exists.mp
      (htot (fD.label ++ " > " ++ cand.subdomain.label))
    have hself_qs : svc.sim qs qs = 1 := hself qs (hne _ _ hqs)
    rcases fbm_cases svc cfg st₀ hwf (fD.label ++ " > " ++ cand.subdomain.label) 2
        (some fD.folder_id) cfg.subdomain_threshold qs hqs
      with hS | ⟨fS, sS, hSfb, hSrest⟩
    · -- subdomain ATTACH
      have hsub1 := matchSubdomain_attach svc cfg st₀ cand
        ({ level := .DOMAIN, action := .REUSE_EXISTING, matched_folder := some fD,
           similarity_score := sD, label_used := fD.label,
           notes := "Reused existing domain " ++ fD.label })
        fD hwf rfl hS
      have hembS : svc.embed (replaceSlashGt
          (fD.path ++ "/" ++ cand.subdomain.label)) = some qs := by
        rw [replaceSlashGt_append fD.path cand.subdomain.label hDsh.2 hss, hDsh.1]
        exact hqs
      obtain ⟨hSfid, hSpath, hSlab, hSdep, hSpar, hSembf, hSvecs, hScch, hSnid,
          hSbyd, hSlk, hScons, hwfS2⟩ :=
        createFolder_pack svc st₀ cand.subdomain.label 2 (some fD)
          cand.subdomain.aliases (fD.path ++ "/" ++ cand.subdomain.label)
          hwf rfl qs hembS (Or.inr (Or.inl rfl)) (fun hc => absurd hc (by omega))
      rcases hleaf1 : matchLeaf svc cfg
          ((createFolder svc st₀ cand.subdomain.label 2 (some fD)
            cand.subdomain.aliases).2) cand
          { level := .SUBDOMAIN, action := .ATTACH_AS_CHILD,
            new_folder := some (createFolder svc st₀ cand.subdomain.label 2 (some fD)
              cand.subdomain.aliases).1,
            similarity_score := 0,
            label_used := (createFolder svc st₀ cand.subdomain.label 2 (some fD)
              cand.subdomain.aliases).1.label,
            notes := "Created subdomain " ++ (createFolder svc st₀
              cand.subdomain.label 2 (some fD) cand.subdomain.aliases).1.label ++
              " under " ++ fD.label }
        with ⟨lres₁, stL⟩
      obtain ⟨hwfL, hceL⟩ := matchLeaf_state svc cfg _ cand _ hwfS2 htot lres₁ stL hleaf1
      have hmc1 := matchCandidate_eq svc cfg st₀ cand _ _ _ _ lres₁ stL hdom1 hsub1
        hleaf1
      rw [hmc1] at h1
      injection h1 with h1
      injection h1 with hhm1 hst1
      subst hhm1
      subst hst1
      have hceS1 : ConsExt 1 none st₀ _ :=
        consExt_of_create _ _ 1 none 2 _ _ _ hSvecs rfl (by omega) hScons
          (by rw [hSbyd 1, if_neg (by omega)])
      have hce1 := consExt_trans hceS1 (hceL 1 none (by omega))
      have hdom2 := matchDomain_replay_reuse svc cfg st₀ stL cand hwf qd hqd hce1 fD sD
        hDfb
      have hsub2 := matchSubdomain_replay_attach svc cfg st₀ stL cand
        ({ level := .DOMAIN, action := .REUSE_EXISTING, matched_folder := some fD,
           similarity_score := sD, label_used := fD.label,
           notes := "Reused existing domain " ++ fD.label })
        fD hwf qs hqs hself_qs hsthr hembS hS (hceL 2 _ (by omega)) rfl
      obtain ⟨lres₂, stX, hleaf2, hparts, hcreated⟩ := matchLeaf_replay svc cfg _ cand
        _
        ({ level := .SUBDOMAIN, action := .REUSE_EXISTING,
           matched_folder := some (createFolder svc st₀ cand.subdomain.label 2
             (some fD) cand.subdomain.aliases).1,
           similarity_score := 1,
           label_used := (createFolder svc st₀ cand.subdomain.label 2 (some fD)
             cand.subdomain.aliases).1.label,
           notes := "Reused existing subdomain " ++ (createFolder svc st₀
             cand.subdomain.label 2 (some fD) cand.subdomain.aliases).1.label })
        ((createFolder svc st₀ cand.subdomain.label 2 (some fD)
          cand.subdomain.aliases).1) hwfS2 htot hdim (by exact rfl) rfl lres₁ stL
        hleaf1
      have hmc2 := matchCandidate_eq svc cfg stL cand _ _ _ _ lres₂ stX hdom2 hsub2
        hleaf2
      rw [hmc2] at h2
      injection h2 with h2
      injection h2 with hhm2 hst2
      subst hhm2
      refine ⟨?_, rfl, rfl, ?_⟩
      · rw [get_final_path_eq, get_final_path_eq, hparts]
        rfl
      · intro f hf
        exact hcreated f hf
    · -- subdomain REUSE
      have hsub1 := matchSubdomain_reuse svc cfg st₀ cand
        ({ level := .DOMAIN, action := .REUSE_EXISTING, matched_folder := some fD,
           similarity_score := sD, label_used := fD.label,
           notes := "Reused existing domain " ++ fD.label })
        fD fS sS rfl hSfb
      rcases hleaf1 : matchLeaf svc cfg st₀ cand
          { level := .SUBDOMAIN, action := .REUSE_EXISTING, matched_folder := some fS,
            similarity_score := sS, label_used := fS.label,
            notes := "Reused existing subdomain " ++ fS.label }
        with ⟨lres₁, stL⟩
      obtain ⟨hwfL, hceL⟩ := matchLeaf_state svc cfg st₀ cand _ hwf htot lres₁ stL
        hleaf1
      have hmc1 := matchCandidate_eq svc cfg st₀ cand _ _ _ _ lres₁ stL hdom1 hsub1
        hleaf1
      rw [hmc1] at h1
      injection h1 with h1
      injection h1 with hhm1 hst1
      subst hhm1
      subst hst1
      have hdom2 := matchDomain_replay_reuse svc cfg st₀ stL cand hwf qd hqd
        (hceL 1 none (by omega)) fD sD hDfb
      have hsub2 := matchSubdomain_replay_reuse svc cfg st₀ stL cand
        ({ level := .DOMAIN, action := .REUSE_EXISTING, matched_folder := some fD,
           similarity_score := sD, label_used := fD.label,
           notes := "Reused existing domain " ++ fD.label })
        fD hwf qs hqs (hceL 2 _ (by omega)) rfl fS sS hSfb
      obtain ⟨lres₂, stX, hleaf2, hparts, hcreated⟩ := matchLeaf_replay svc cfg st₀
        cand _
        ({ level := .SUBDOMAIN, action := .REUSE_EXISTING, matched_folder := some fS,
           similarity_score := sS, label_used := fS.label,
           notes := "Reused existing subdomain " ++ fS.label })
        fS hwf htot hdim (by exact rfl) rfl lres₁ stL hleaf1
      have hmc2 := matchCandidate_eq svc cfg stL cand _ _ _ _ lres₂ stX hdom2 hsub2
        hleaf2
      rw [hmc2] at h2
      injection h2 with h2
      injection h2 with hhm2 hst2
      subst hhm2
      refine ⟨?_, rfl, rfl, ?_⟩
      · rw [get_final_path_eq, get_final_path_eq, hparts]
      · intro f hf
        exact hcreated f hf

theorem WF_emptyState : WFState emptyState := by
  constructor
  · intro row h
    exact absurd h (List.not_mem_nil _)
  · intro d f hf
    rcases d with _ | _ | _ | _ | d <;> exact absurd hf (List.not_mem_nil _)
  · intro f hf
    exact absurd hf (List.not_mem_nil _)
  · intro d f hf
    rcases d with _ | _ | _ | _ | d <;> exact absurd hf (List.not_mem_nil _)
  · exact List.nodup_nil
  · intro n h
    rfl
  · intro n h
    rfl

theorem C4_reclassify_reuse_witness :
    w4run2.1.get_final_path = w4run1.1.get_final_path ∧
    w4run2.1.domain_result.action = MatchAction.REUSE_EXISTING ∧
    w4run2.1.subdomain_result.action = MatchAction.REUSE_EXISTING ∧
    ∀ f ∈ w4run2.1.get_created_folders, f.depth = 3 :=
  C4_reclassify_reuse w4oracle defaultThresholds emptyState w4cand WF_emptyState
    (fun _ => rfl)
    (fun _ q hq => by
      injection hq with h
      rw [← h]
      decide)
    (fun _ _ q₁ q₂ h₁ h₂ => by
      injection h₁ with e₁
      injection h₂ with e₂
      rw [← e₁, ← e₂])
    (fun v hv => by
      show (if v = v ∧ v ≠ [] then (1 : ℚ) else 0) = 1
      rw [if_pos ⟨rfl, hv⟩])
    (by decide) (by decide) (by decide) (by decide)
    w4run1.1 w4run2.1 w4run1.2 w4run2.2 (by decide) (by decide)

end Stash
